import Mathlib

/-!
# uem-mini-game: a shallow embedding of `main.go`

The cart is a WASM-4 game written in Go.  Its global variables become one
explicit `State` record that every system function takes and returns.

Machine arithmetic is kept explicit:

* Go `int` / `uint` are the 32-bit types of the wasm32 target; results of
  `+`, `-`, `++`, `--` are wrapped with `wrapInt` / `wrapUint`;
* Go `float32` is IEEE-754 binary32, carried as its 32-bit pattern (`F32`);
  `+` and `*` are computed exactly on integers and rounded to nearest, ties to
  even; conversion to an integer type truncates toward zero and saturates at
  the bounds of the target type (NaN gives 0).
-/

namespace MiniGame

/-! ## 32-bit integers -/

/-- Two's-complement wrap of an integer into the range of Go `int` (32 bits). -/
def wrapInt (z : Int) : Int := (z + 2147483648) % 4294967296 - 2147483648

/-- Wrap of a natural number into the range of Go `uint` (32 bits). -/
def wrapUint (n : Nat) : Nat := n % 4294967296

/-- The conversion `int(u)` of a `uint` value. -/
def intOfUint (u : Nat) : Int := wrapInt (u : Int)

/-! ## binary32 floating point -/

/-- A `float32`, carried as its IEEE-754 bit pattern (1 sign bit, 8 exponent
bits, 23 fraction bits). -/
structure F32 where
  bits : Nat
  deriving DecidableEq, Repr

namespace F32

/-- Number of binary digits of `m` (0 for 0), found by bisection on the
exponent; exact for every `m < 2 ^ 512`, which covers every significand,
aligned sum and product formed below. -/
def bitLength (m : Nat) : Nat :=
  if m = 0 then 0
  else
    ([256, 128, 64, 32, 16, 8, 4, 2, 1].foldl
      (fun (acc : Nat × Nat) (k : Nat) =>
        if 2 ^ k ≤ acc.1 then (acc.1 / 2 ^ k, acc.2 + k) else acc) (m, 1)).2

def signBit (x : F32) : Bool := x.bits / 2147483648 % 2 == 1

def expField (x : F32) : Nat := x.bits / 8388608 % 256

def fracField (x : F32) : Nat := x.bits % 8388608

def isNaN (x : F32) : Bool := x.expField == 255 && x.fracField != 0

def isInf (x : F32) : Bool := x.expField == 255 && x.fracField == 0

def isZero (x : F32) : Bool := x.expField == 0 && x.fracField == 0

/-- Integer significand: the magnitude of a finite `x` is `mant x * 2 ^ expo x`. -/
def mant (x : F32) : Nat :=
  if x.expField = 0 then x.fracField else 8388608 + x.fracField

/-- Exponent of the unit in the last place of `x`. -/
def expo (x : F32) : Int :=
  if x.expField = 0 then -149 else (x.expField : Int) - 150

/-- Assemble a sign and a 31-bit magnitude field. -/
def pack (sign : Bool) (mag : Nat) : F32 :=
  ⟨(if sign then 2147483648 else 0) + mag⟩

def zero : F32 := ⟨0⟩

def inf (sign : Bool) : F32 := pack sign 2139095040

def nan : F32 := ⟨2143289344⟩

/-- The binary32 value nearest to `± m * 2 ^ e`, ties to even; overflow gives
an infinity and a result that rounds to nothing gives a signed zero. -/
def roundPack (sign : Bool) (m : Nat) (e : Int) : F32 :=
  if m = 0 then pack sign 0
  else
    let q : Int := max (e + (bitLength m : Int) - 24) (-149)
    let mr : Nat :=
      if q ≤ e then m * 2 ^ (e - q).toNat
      else
        let d := (q - e).toNat
        let t := m / 2 ^ d
        let r := m % 2 ^ d
        let h := 2 ^ (d - 1)
        if h < r ∨ (r = h ∧ t % 2 = 1) then t + 1 else t
    let mag := (q + 149).toNat * 8388608 + mr
    if 2139095040 ≤ mag then inf sign else pack sign mag

/-- The value of `x` in units of `2 ^ (-149)`, as a signed integer; an infinity
is placed beyond every finite value.  Not meaningful for NaN. -/
def scaled (x : F32) : Int :=
  let v : Int := ((x.mant * 2 ^ (x.expo + 149).toNat : Nat) : Int)
  if x.signBit then -v else v

/-- Go `x + y` on `float32`. -/
def add (x y : F32) : F32 :=
  if x.isNaN || y.isNaN then nan
  else if x.isInf then (if y.isInf && (x.signBit != y.signBit) then nan else x)
  else if y.isInf then y
  else
    let c : Int := x.scaled + y.scaled
    if c = 0 then pack (x.signBit && y.signBit) 0
    else roundPack (decide (c < 0)) c.natAbs (-149)

/-- Go `x * y` on `float32`. -/
def mul (x y : F32) : F32 :=
  if x.isNaN || y.isNaN then nan
  else if x.isInf || y.isInf then
    (if x.isZero || y.isZero then nan else inf (x.signBit != y.signBit))
  else roundPack (x.signBit != y.signBit) (x.mant * y.mant) (x.expo + y.expo)

/-- Go unary `-x` on `float32`: the sign bit is flipped. -/
def neg (x : F32) : F32 :=
  if x.signBit then ⟨x.bits - 2147483648⟩ else ⟨x.bits + 2147483648⟩

/-- Go `x > y` on `float32` (false when either side is NaN). -/
def gt (x y : F32) : Bool :=
  !(x.isNaN || y.isNaN) && decide (y.scaled < x.scaled)

/-- The conversion `float32(i)` of an `int`. -/
def ofInt (i : Int) : F32 := roundPack (decide (i < 0)) i.natAbs 0

/-- The conversion `float32(u)` of a `uint`. -/
def ofUint (u : Nat) : F32 := roundPack false u 0

/-- A positive decimal constant `num / den` converted to `float32`
(the quotient is taken to 200 fractional bits plus a sticky bit, then rounded). -/
def ofRat (num den : Nat) : F32 :=
  let n := num * 2 ^ 200
  roundPack false (2 * (n / den) + (if n % den = 0 then 0 else 1)) (-201)

/-- Magnitude of a finite `x` truncated toward zero. -/
def truncMag (x : F32) : Nat :=
  if 0 ≤ x.expo then x.mant * 2 ^ x.expo.toNat else x.mant / 2 ^ (-x.expo).toNat

/-- The conversion `int(x)`: truncation toward zero, saturating at the bounds
of the 32-bit `int`. -/
def toInt (x : F32) : Int :=
  if x.isNaN then 0
  else
    let v : Int := if x.signBit then -(x.truncMag : Int) else (x.truncMag : Int)
    if 2147483647 < v then 2147483647
    else if v < -2147483648 then -2147483648
    else v

/-- The conversion `uint(x)`: truncation toward zero, saturating at the bounds
of the 32-bit `uint`. -/
def toUint (x : F32) : Nat :=
  if x.isNaN || x.signBit then 0
  else if 4294967295 < x.truncMag then 4294967295
  else x.truncMag

end F32

/-! ## Components and global state -/

structure Position where
  X : Int
  Y : Int
  deriving DecidableEq, Repr

structure Drawable where
  Size : Nat
  Color : Nat
  deriving DecidableEq, Repr

structure PlayerInput where
  Speed : Int
  deriving DecidableEq, Repr

structure Physics where
  VelocityX : F32
  VelocityY : F32
  OnGround : Bool
  Gravity : F32
  JumpPower : F32
  Friction : F32
  deriving DecidableEq, Repr

structure Depth where
  Z : F32
  Speed : F32
  BaseSize : Nat
  MaxSize : Nat
  Active : Bool
  deriving DecidableEq, Repr

/-- The package-level variables of `main.go`.  The three obstacle arrays have
10 entries each and are indexed by `Fin 10`. -/
structure State where
  playerPosition : PlayerInput
  squarePosition : Position
  squareDrawable : Drawable
  squarePhysics : Physics
  obstaclePositions : Fin 10 → Position
  obstacleDrawables : Fin 10 → Drawable
  obstacleDepths : Fin 10 → Depth
  obstacleSpawnTimer : Int
  nextObstacleIndex : Int
  score : Int
  scoreTimer : Int
  gameState : Int
  menuOption : Int
  previousInput : Nat

/-- The assignment `a[i] = v` on a 10-entry array. -/
def setAt {α : Type} (a : Fin 10 → α) (i : Fin 10) (v : α) : Fin 10 → α :=
  fun j => if j = i then v else a j

/-- The zero value `Position{}`. -/
def Position.zero : Position := { X := 0, Y := 0 }

/-- The zero value `Drawable{}`. -/
def Drawable.zero : Drawable := { Size := 0, Color := 0 }

/-- The zero value `Depth{}`. -/
def Depth.zero : Depth :=
  { Z := F32.zero, Speed := F32.zero, BaseSize := 0, MaxSize := 0, Active := false }

/-- The package-level variables before `start()` runs: Go zero values. -/
def zeroState : State :=
  { playerPosition := { Speed := 0 }
    squarePosition := Position.zero
    squareDrawable := Drawable.zero
    squarePhysics :=
      { VelocityX := F32.zero, VelocityY := F32.zero, OnGround := false,
        Gravity := F32.zero, JumpPower := F32.zero, Friction := F32.zero }
    obstaclePositions := fun _ => Position.zero
    obstacleDrawables := fun _ => Drawable.zero
    obstacleDepths := fun _ => Depth.zero
    obstacleSpawnTimer := 0
    nextObstacleIndex := 0
    score := 0
    scoreTimer := 0
    gameState := 0
    menuOption := 0
    previousInput := 0 }

/-! ## Constants -/

def SQUARE_SIZE : Nat := 20
def PLAYER_SPEED : Int := 2
def GRAVITY : F32 := F32.ofRat 5 10
def JUMP_POWER : F32 := F32.ofRat 8 1
def FRICTION : F32 := F32.ofRat 8 10
def GROUND_LEVEL : Int := 140
def MAX_VELOCITY_Y : F32 := F32.ofRat 15 1

def OBSTACLE_BASE_SIZE : Nat := 2
def OBSTACLE_MAX_SIZE : Nat := 20
def OBSTACLE_SPEED : F32 := F32.ofRat 4 1000
def OBSTACLE_SPAWN_RATE : Int := 120

def SCORE_INCREMENT_RATE : Int := 50

def STATE_MENU : Int := 0
def STATE_PLAYING : Int := 1
def STATE_PAUSED : Int := 2

def MENU_START : Int := 0
def MENU_RESUME : Int := 1
def MENU_RESTART : Int := 2

/-- Modelled from the spec: the constant `w4.SCREEN_SIZE` of package `cart/w4`,
which is not among the sources; the spec gives the screen as 160 x 160. -/
def SCREEN_SIZE : Int := 160

/-- The button masks of package `cart/w4`, which is not among the sources: they
are a parameter of every function that reads the gamepad. -/
structure W4 where
  BUTTON_1 : Nat
  BUTTON_2 : Nat
  BUTTON_LEFT : Nat
  BUTTON_RIGHT : Nat
  BUTTON_UP : Nat
  BUTTON_DOWN : Nat

/-- The button masks of the WASM-4 console, used for concrete frames. -/
def wasm4 : W4 :=
  { BUTTON_1 := 1, BUTTON_2 := 2, BUTTON_LEFT := 16, BUTTON_RIGHT := 32,
    BUTTON_UP := 64, BUTTON_DOWN := 128 }

/-- Loop order `for i := 0; i < 10; i++`. -/
def ascending : List (Fin 10) := [0, 1, 2, 3, 4, 5, 6, 7, 8, 9]

/-- Loop order `for i := 9; i >= 0; i--`. -/
def descending : List (Fin 10) := [9, 8, 7, 6, 5, 4, 3, 2, 1, 0]

/-! ## The functions of `main.go`

The render functions only write to the display and are left out. -/

def start (s : State) : State :=
  { s with
    playerPosition := { Speed := PLAYER_SPEED }
    squarePosition := { X := SCREEN_SIZE / 2 - (SQUARE_SIZE : Int) / 2, Y := GROUND_LEVEL }
    squareDrawable := { Size := SQUARE_SIZE, Color := 0x43 }
    squarePhysics :=
      { VelocityX := F32.zero, VelocityY := F32.zero, OnGround := true,
        Gravity := GRAVITY, JumpPower := JUMP_POWER, Friction := FRICTION }
    obstacleDepths := fun i => { s.obstacleDepths i with Active := false }
    score := 0
    scoreTimer := 0
    gameState := STATE_MENU
    menuOption := MENU_START
    previousInput := 0 }

def inputSystem (w4 : W4) (gamepad : Nat) (s : State) : State :=
  let s1 : State :=
    if gamepad &&& w4.BUTTON_LEFT ≠ 0 then
      { s with squarePhysics :=
          { s.squarePhysics with VelocityX := F32.neg (F32.ofInt s.playerPosition.Speed) } }
    else if gamepad &&& w4.BUTTON_RIGHT ≠ 0 then
      { s with squarePhysics :=
          { s.squarePhysics with VelocityX := F32.ofInt s.playerPosition.Speed } }
    else
      { s with squarePhysics :=
          { s.squarePhysics with
            VelocityX := F32.mul s.squarePhysics.VelocityX s.squarePhysics.Friction } }
  if gamepad &&& w4.BUTTON_UP ≠ 0 ∧ s1.squarePhysics.OnGround = true then
    { s1 with squarePhysics :=
        { s1.squarePhysics with
          VelocityY := F32.neg s1.squarePhysics.JumpPower, OnGround := false } }
  else s1

def physicsSystem (s : State) : State :=
  if s.squarePhysics.OnGround = false then
    let v := F32.add s.squarePhysics.VelocityY s.squarePhysics.Gravity
    { s with squarePhysics :=
        { s.squarePhysics with
          VelocityY := if F32.gt v MAX_VELOCITY_Y = true then MAX_VELOCITY_Y else v } }
  else s

def movementSystem (s : State) : State :=
  let x := wrapInt (s.squarePosition.X + F32.toInt s.squarePhysics.VelocityX)
  let s1 : State :=
    if x < 0 then
      { s with squarePosition := { s.squarePosition with X := 1 }
               squarePhysics := { s.squarePhysics with VelocityX := F32.zero } }
    else if wrapInt (SCREEN_SIZE - intOfUint s.squareDrawable.Size) < x then
      { s with squarePosition :=
                 { s.squarePosition with
                   X := wrapInt (wrapInt (SCREEN_SIZE - intOfUint s.squareDrawable.Size) - 1) }
               squarePhysics := { s.squarePhysics with VelocityX := F32.zero } }
    else { s with squarePosition := { s.squarePosition with X := x } }
  let y := wrapInt (s1.squarePosition.Y + F32.toInt s1.squarePhysics.VelocityY)
  if GROUND_LEVEL ≤ y then
    { s1 with squarePosition := { s1.squarePosition with Y := GROUND_LEVEL }
              squarePhysics :=
                { s1.squarePhysics with VelocityY := F32.zero, OnGround := true } }
  else { s1 with squarePosition := { s1.squarePosition with Y := y } }

/-- Body of the `if !obstacleDepths[i].Active` branch of `spawnObstacle`. -/
def spawnAt (s : State) (i : Fin 10) : State :=
  { s with
    obstaclePositions := setAt s.obstaclePositions i { X := 79, Y := 61 }
    obstacleDrawables := setAt s.obstacleDrawables i { Size := 2, Color := 0x32 }
    obstacleDepths := setAt s.obstacleDepths i
      { Z := F32.zero, Speed := OBSTACLE_SPEED, BaseSize := 2, MaxSize := 30, Active := true } }

/-- The loop of `spawnObstacle` over the slots still to visit; it stops at the
first inactive slot. -/
def spawnLoop (s : State) : List (Fin 10) → State
  | [] => s
  | i :: rest => if (s.obstacleDepths i).Active = false then spawnAt s i else spawnLoop s rest

def spawnObstacle (s : State) : State := spawnLoop s ascending

/-- The `uint` subtraction `a - b`. -/
def subUint (a b : Nat) : Nat := (((a : Int) - (b : Int)) % 4294967296).toNat

def updateObstacle (s : State) (index : Fin 10) : State :=
  let dep : Depth :=
    { s.obstacleDepths index with
      Z := F32.add (s.obstacleDepths index).Z (s.obstacleDepths index).Speed }
  if wrapInt ((s.obstaclePositions index).Y + intOfUint (s.obstacleDrawables index).Size) = 160 then
    { s with
      obstacleDepths := setAt s.obstacleDepths index { Depth.zero with Active := false }
      obstaclePositions := setAt s.obstaclePositions index Position.zero
      obstacleDrawables := setAt s.obstacleDrawables index Drawable.zero
      obstacleSpawnTimer := 0 }
  else
    let sizeRange := F32.ofUint (subUint dep.MaxSize dep.BaseSize)
    let currentSize := wrapUint (dep.BaseSize + F32.toUint (F32.mul dep.Z sizeRange))
    let sizeOffset := Int.tdiv (intOfUint currentSize) 2
    let x0 := wrapInt (79 - sizeOffset)
    let y0 := wrapInt (61 + F32.toInt (F32.mul dep.Z (F32.ofInt 40)))
    let x1 := if x0 < 0 then 0 else x0
    let x2 :=
      if SCREEN_SIZE < wrapInt (x1 + intOfUint currentSize) then
        wrapInt (SCREEN_SIZE - intOfUint currentSize)
      else x1
    let y1 :=
      if SCREEN_SIZE < wrapInt (y0 + intOfUint currentSize) then
        wrapInt (SCREEN_SIZE - intOfUint currentSize)
      else y0
    { s with
      obstacleDepths := setAt s.obstacleDepths index dep
      obstacleDrawables := setAt s.obstacleDrawables index
        { s.obstacleDrawables index with Size := currentSize }
      obstaclePositions := setAt s.obstaclePositions index { X := x2, Y := y1 } }

def obstacleSystem (s : State) : State :=
  let s1 : State := { s with obstacleSpawnTimer := wrapInt (s.obstacleSpawnTimer + 1) }
  let s2 : State :=
    if OBSTACLE_SPAWN_RATE ≤ s1.obstacleSpawnTimer then
      { spawnObstacle s1 with obstacleSpawnTimer := 0 }
    else s1
  ascending.foldl
    (fun st i => if (st.obstacleDepths i).Active = true then updateObstacle st i else st) s2

def resetGame (s : State) : State :=
  { s with
    squarePosition :=
      { X := SCREEN_SIZE / 2 - (SQUARE_SIZE : Int) / 2, Y := GROUND_LEVEL }
    squarePhysics :=
      { s.squarePhysics with VelocityX := F32.zero, VelocityY := F32.zero, OnGround := true }
    obstacleDepths := fun i => { s.obstacleDepths i with Active := false }
    obstacleSpawnTimer := 0
    score := 0
    scoreTimer := 0 }

def playerLeft (s : State) : Int := s.squarePosition.X
def playerRight (s : State) : Int :=
  wrapInt (s.squarePosition.X + intOfUint s.squareDrawable.Size)
def playerTop (s : State) : Int := s.squarePosition.Y
def playerBottom (s : State) : Int :=
  wrapInt (s.squarePosition.Y + intOfUint s.squareDrawable.Size)

def obstacleLeft (s : State) (i : Fin 10) : Int := (s.obstaclePositions i).X
def obstacleRight (s : State) (i : Fin 10) : Int :=
  wrapInt ((s.obstaclePositions i).X + intOfUint (s.obstacleDrawables i).Size)
def obstacleTop (s : State) (i : Fin 10) : Int := (s.obstaclePositions i).Y
def obstacleBottom (s : State) (i : Fin 10) : Int :=
  wrapInt ((s.obstaclePositions i).Y + intOfUint (s.obstacleDrawables i).Size)

/-- The condition under which the loop of `collisionSystem` resets the game at
slot `i`: the slot is active and the overlap test succeeds. -/
def collides (s : State) (i : Fin 10) : Prop :=
  (s.obstacleDepths i).Active = true ∧
    obstacleLeft s i ≤ playerRight s ∧ playerLeft s ≤ obstacleRight s i ∧
    obstacleTop s i ≤ playerBottom s ∧ playerTop s ≤ obstacleBottom s i ∧
    158 ≤ obstacleBottom s i

instance (s : State) (i : Fin 10) : Decidable (collides s i) := by
  unfold collides; infer_instance

/-- The loop of `collisionSystem` over the slots still to visit; it resets the
game and returns at the first colliding slot. -/
def collisionLoop (s : State) : List (Fin 10) → State
  | [] => s
  | i :: rest => if collides s i then resetGame s else collisionLoop s rest

def collisionSystem (s : State) : State := collisionLoop s descending

def scoreSystem (s : State) : State :=
  let t := wrapInt (s.scoreTimer + 1)
  if SCORE_INCREMENT_RATE ≤ t then
    { s with score := wrapInt (s.score + 1), scoreTimer := 0 }
  else { s with scoreTimer := t }

def menuSystem (w4 : W4) (gamepad : Nat) (s : State) : State :=
  let s1 : State :=
    if gamepad &&& w4.BUTTON_DOWN ≠ 0 ∧ s.previousInput &&& w4.BUTTON_DOWN = 0 then
      if s.gameState = STATE_MENU then { s with menuOption := MENU_START }
      else if s.gameState = STATE_PAUSED then
        let m := wrapInt (s.menuOption + 1)
        { s with menuOption := if MENU_RESTART < m then MENU_RESUME else m }
      else s
    else if gamepad &&& w4.BUTTON_UP ≠ 0 ∧ s.previousInput &&& w4.BUTTON_UP = 0 then
      if s.gameState = STATE_PAUSED then
        let m := wrapInt (s.menuOption - 1)
        { s with menuOption := if m < MENU_RESUME then MENU_RESTART else m }
      else s
    else s
  if gamepad &&& w4.BUTTON_1 ≠ 0 ∧ s1.previousInput &&& w4.BUTTON_1 = 0 then
    if s1.menuOption = MENU_START then
      { s1 with gameState := STATE_PLAYING, score := 0, scoreTimer := 0 }
    else if s1.menuOption = MENU_RESUME then
      { s1 with gameState := STATE_PLAYING }
    else if s1.menuOption = MENU_RESTART then
      { resetGame s1 with gameState := STATE_PLAYING, score := 0, scoreTimer := 0 }
    else s1
  else s1

/-- One frame; `gamepad` is the value read from `*w4.GAMEPAD1`. -/
def update (w4 : W4) (gamepad : Nat) (s : State) : State :=
  let s1 : State :=
    if s.gameState = STATE_MENU then menuSystem w4 gamepad s
    else if s.gameState = STATE_PLAYING then
      let s0 : State :=
        if gamepad &&& w4.BUTTON_2 ≠ 0 ∧ s.previousInput &&& w4.BUTTON_2 = 0 then
          { s with gameState := STATE_PAUSED, menuOption := MENU_RESUME }
        else s
      scoreSystem (obstacleSystem (collisionSystem (movementSystem (physicsSystem
        (inputSystem w4 gamepad s0)))))
    else if s.gameState = STATE_PAUSED then menuSystem w4 gamepad s
    else s
  { s1 with previousInput := gamepad }

/-- The state after `start()` followed by one `update()` per listed gamepad value. -/
def run (w4 : W4) (inputs : List Nat) : State :=
  inputs.foldl (fun s g => update w4 g s) (start zeroState)

/-- States the program can be in at the end of a frame: `start()` on the
zero-initialised variables, then any number of `update()` frames, each with a
gamepad byte. -/
inductive Reachable (w4 : W4) : State → Prop
  | init : Reachable w4 (start zeroState)
  | step (s : State) (gamepad : Nat) :
      Reachable w4 s → gamepad < 256 → Reachable w4 (update w4 gamepad s)

/-- A press edge of the button with mask `b`: set in the current gamepad value,
clear in the previous-frame snapshot. -/
def pressed (b gamepad : Nat) (s : State) : Prop :=
  gamepad &&& b ≠ 0 ∧ s.previousInput &&& b = 0

instance (b gamepad : Nat) (s : State) : Decidable (pressed b gamepad s) := by
  unfold pressed; infer_instance

/-! ## Auxiliary definitions used in the statements and proofs -/

/-- The game state is one of the three modes, the cursor is `MENU_START` in the
menu and `MENU_RESUME` or `MENU_RESTART` in the pause menu. -/
def ModeInv (s : State) : Prop :=
  (s.gameState = STATE_MENU ∧ s.menuOption = MENU_START) ∨
    s.gameState = STATE_PLAYING ∨
    (s.gameState = STATE_PAUSED ∧ (s.menuOption = MENU_RESUME ∨ s.menuOption = MENU_RESTART))

/-- A state for concrete collision checks: the state after `start()` with slot 0
active and given the player's own rectangle. -/
def overlapState : State :=
  { start zeroState with
    obstaclePositions := setAt zeroState.obstaclePositions 0 { X := 70, Y := 140 }
    obstacleDrawables := setAt zeroState.obstacleDrawables 0 { Size := 20, Color := 0x32 }
    obstacleDepths := setAt zeroState.obstacleDepths 0
      { Z := F32.zero, Speed := OBSTACLE_SPEED, BaseSize := 2, MaxSize := 30, Active := true }
    score := 7
    scoreTimer := 3
    obstacleSpawnTimer := 11 }

/-- The three records of slot `i`. -/
def slotOf (s : State) (i : Fin 10) : Position × Drawable × Depth :=
  (s.obstaclePositions i, s.obstacleDrawables i, s.obstacleDepths i)

/-- A state whose slots all hold the given records. -/
def slotState (v : Position × Drawable × Depth) : State :=
  { zeroState with
    obstaclePositions := fun _ => v.1
    obstacleDrawables := fun _ => v.2.1
    obstacleDepths := fun _ => v.2.2 }

/-- What `updateObstacle` does to the records of the slot it is called on,
computed on `slotState`. -/
def advanceSlot (v : Position × Drawable × Depth) : Position × Drawable × Depth :=
  slotOf (updateObstacle (slotState v) 0) 0

/-- The records `spawnObstacle` writes into the slot it picks. -/
def freshSlot : Position × Drawable × Depth :=
  ({ X := 79, Y := 61 }, { Size := 2, Color := 0x32 },
    { Z := F32.zero, Speed := OBSTACLE_SPEED, BaseSize := 2, MaxSize := 30, Active := true })

/-- Frames of a player who confirms in the menu (`BUTTON_1`), waits 120 frames so
that the first obstacle is spawned, pauses (`BUTTON_2`), moves the cursor down to
"restart" (`BUTTON_DOWN`) and confirms (`BUTTON_1`). -/
def restartFrames : List Nat := 1 :: (List.replicate 120 0 ++ [2, 128, 1])

/-- The player's components. -/
def playerOf (s : State) : PlayerInput × Position × Drawable × Physics :=
  (s.playerPosition, s.squarePosition, s.squareDrawable, s.squarePhysics)

/-- The score and its frame accumulator. -/
def scoreOf (s : State) : Int × Int := (s.score, s.scoreTimer)

/-- The player is on the ground line with no vertical velocity whenever
`OnGround` is set. -/
def GroundInv (s : State) : Prop :=
  s.squarePhysics.OnGround = true →
    s.squarePosition.Y = GROUND_LEVEL ∧ s.squarePhysics.VelocityY = F32.zero

/-- The horizontal half of `movementSystem`, with the new abscissa `x`, the
right limit `w` and the inset position `w1` as parameters. -/
def moveXWith (x w w1 : Int) (s : State) : State :=
  if x < 0 then
    { s with squarePosition := { s.squarePosition with X := 1 }
             squarePhysics := { s.squarePhysics with VelocityX := F32.zero } }
  else if w < x then
    { s with squarePosition := { s.squarePosition with X := w1 }
             squarePhysics := { s.squarePhysics with VelocityX := F32.zero } }
  else { s with squarePosition := { s.squarePosition with X := x } }

/-- The vertical half of `movementSystem`, with the new ordinate `y` as a
parameter. -/
def moveYWith (y : Int) (s1 : State) : State :=
  if GROUND_LEVEL ≤ y then
    { s1 with squarePosition := { s1.squarePosition with Y := GROUND_LEVEL }
              squarePhysics :=
                { s1.squarePhysics with VelocityY := F32.zero, OnGround := true } }
  else { s1 with squarePosition := { s1.squarePosition with Y := y } }

/-- The horizontal half of `movementSystem`. -/
def moveX (s : State) : State :=
  moveXWith (wrapInt (s.squarePosition.X + F32.toInt s.squarePhysics.VelocityX))
    (wrapInt (SCREEN_SIZE - intOfUint s.squareDrawable.Size))
    (wrapInt (wrapInt (SCREEN_SIZE - intOfUint s.squareDrawable.Size) - 1)) s

/-- The vertical half of `movementSystem`. -/
def moveY (s1 : State) : State :=
  moveYWith (wrapInt (s1.squarePosition.Y + F32.toInt s1.squarePhysics.VelocityY)) s1

/-! ### Evaluation of long runs

`normalize` rebuilds a state from its scalar contents, each one demanded by a
`match`; it is the identity (`normalize_eq`).  `runStrict` normalises the state
after every frame, so that evaluating a long run costs one frame at a time. -/

def forceNat (n : Nat) (k : Nat → State) : State :=
  match n with
  | 0 => k 0
  | m + 1 => k (m + 1)

def forceInt (z : Int) (k : Int → State) : State :=
  match z with
  | Int.ofNat n => forceNat n (fun m => k (Int.ofNat m))
  | Int.negSucc n => forceNat n (fun m => k (Int.negSucc m))

def forceBool (b : Bool) (k : Bool → State) : State :=
  match b with
  | true => k true
  | false => k false

def forceF32 (x : F32) (k : F32 → State) : State :=
  forceNat x.bits (fun b => k ⟨b⟩)

def forcePosition (p : Position) (k : Position → State) : State :=
  forceInt p.X fun x => forceInt p.Y fun y => k { X := x, Y := y }

def forceDrawable (d : Drawable) (k : Drawable → State) : State :=
  forceNat d.Size fun a => forceNat d.Color fun c => k { Size := a, Color := c }

def forceDepth (d : Depth) (k : Depth → State) : State :=
  forceF32 d.Z fun z => forceF32 d.Speed fun v => forceNat d.BaseSize fun b =>
    forceNat d.MaxSize fun m => forceBool d.Active fun a =>
      k { Z := z, Speed := v, BaseSize := b, MaxSize := m, Active := a }

def forcePhysics (p : Physics) (k : Physics → State) : State :=
  forceF32 p.VelocityX fun vx => forceF32 p.VelocityY fun vy => forceBool p.OnGround fun g =>
    forceF32 p.Gravity fun gr => forceF32 p.JumpPower fun j => forceF32 p.Friction fun f =>
      k { VelocityX := vx, VelocityY := vy, OnGround := g, Gravity := gr, JumpPower := j,
          Friction := f }

/-- The 10-entry array with the given entries. -/
def table {α : Type} (v0 v1 v2 v3 v4 v5 v6 v7 v8 v9 : α) : Fin 10 → α :=
  fun i =>
    match i with
    | 0 => v0 | 1 => v1 | 2 => v2 | 3 => v3 | 4 => v4
    | 5 => v5 | 6 => v6 | 7 => v7 | 8 => v8 | 9 => v9

def forcePositions (a : Fin 10 → Position) (k : (Fin 10 → Position) → State) : State :=
  forcePosition (a 0) fun v0 => forcePosition (a 1) fun v1 => forcePosition (a 2) fun v2 =>
  forcePosition (a 3) fun v3 => forcePosition (a 4) fun v4 => forcePosition (a 5) fun v5 =>
  forcePosition (a 6) fun v6 => forcePosition (a 7) fun v7 => forcePosition (a 8) fun v8 =>
  forcePosition (a 9) fun v9 => k (table v0 v1 v2 v3 v4 v5 v6 v7 v8 v9)

def forceDrawables (a : Fin 10 → Drawable) (k : (Fin 10 → Drawable) → State) : State :=
  forceDrawable (a 0) fun v0 => forceDrawable (a 1) fun v1 => forceDrawable (a 2) fun v2 =>
  forceDrawable (a 3) fun v3 => forceDrawable (a 4) fun v4 => forceDrawable (a 5) fun v5 =>
  forceDrawable (a 6) fun v6 => forceDrawable (a 7) fun v7 => forceDrawable (a 8) fun v8 =>
  forceDrawable (a 9) fun v9 => k (table v0 v1 v2 v3 v4 v5 v6 v7 v8 v9)

def forceDepths (a : Fin 10 → Depth) (k : (Fin 10 → Depth) → State) : State :=
  forceDepth (a 0) fun v0 => forceDepth (a 1) fun v1 => forceDepth (a 2) fun v2 =>
  forceDepth (a 3) fun v3 => forceDepth (a 4) fun v4 => forceDepth (a 5) fun v5 =>
  forceDepth (a 6) fun v6 => forceDepth (a 7) fun v7 => forceDepth (a 8) fun v8 =>
  forceDepth (a 9) fun v9 => k (table v0 v1 v2 v3 v4 v5 v6 v7 v8 v9)

/-- The state rebuilt from its scalar contents. -/
def normalize (s : State) : State :=
  forceInt s.playerPosition.Speed fun sp =>
  forcePosition s.squarePosition fun pos =>
  forceDrawable s.squareDrawable fun dr =>
  forcePhysics s.squarePhysics fun ph =>
  forcePositions s.obstaclePositions fun ops =>
  forceDrawables s.obstacleDrawables fun ods =>
  forceDepths s.obstacleDepths fun odp =>
  forceInt s.obstacleSpawnTimer fun t =>
  forceInt s.nextObstacleIndex fun ni =>
  forceInt s.score fun sc =>
  forceInt s.scoreTimer fun st =>
  forceInt s.gameState fun gs =>
  forceInt s.menuOption fun mo =>
  forceNat s.previousInput fun pi =>
    { playerPosition := { Speed := sp }
      squarePosition := pos
      squareDrawable := dr
      squarePhysics := ph
      obstaclePositions := ops
      obstacleDrawables := ods
      obstacleDepths := odp
      obstacleSpawnTimer := t
      nextObstacleIndex := ni
      score := sc
      scoreTimer := st
      gameState := gs
      menuOption := mo
      previousInput := pi }

/-- The state after `start()` and one `update()` per listed gamepad value,
normalised after every frame. -/
def runStrict (w4 : W4) (inputs : List Nat) : State :=
  inputs.foldl (fun s g => normalize (update w4 g s)) (normalize (start zeroState))

/-- The obstacle pool: the three slot arrays and the spawn timer. -/
def worldOf (s : State) :
    (Fin 10 → Position) × (Fin 10 → Drawable) × (Fin 10 → Depth) × Int :=
  (s.obstaclePositions, s.obstacleDrawables, s.obstacleDepths, s.obstacleSpawnTimer)

/-- The state on which `collisionSystem` runs in a `STATE_PLAYING` frame that
starts in `s` with gamepad value `gamepad`. -/
def beforeCollision (w4 : W4) (gamepad : Nat) (s : State) : State :=
  movementSystem (physicsSystem (inputSystem w4 gamepad
    (if gamepad &&& w4.BUTTON_2 ≠ 0 ∧ s.previousInput &&& w4.BUTTON_2 = 0 then
      { s with gameState := STATE_PAUSED, menuOption := MENU_RESUME }
    else s)))

/-- Frames of a player who confirms in the menu and then stands still for 470
frames. -/
def idleFrames : List Nat := 1 :: List.replicate 470 0

/-- The test `obstacleSpawnTimer >= OBSTACLE_SPAWN_RATE` that `obstacleSystem`
makes after incrementing the timer: the next call attempts a spawn. -/
def spawnDue (s : State) : Prop :=
  OBSTACLE_SPAWN_RATE ≤ wrapInt (s.obstacleSpawnTimer + 1)

instance (s : State) : Decidable (spawnDue s) := by
  unfold spawnDue; infer_instance

/-- The number of `obstacleSystem` calls, starting in `s`, up to and including
the first one that attempts a spawn; `none` if there is none among the first
`fuel` calls. -/
def callsUntilSpawn : Nat → State → Option Nat
  | 0, _ => none
  | fuel + 1, s =>
    if spawnDue s then some 1
    else (callsUntilSpawn fuel (obstacleSystem s)).map (· + 1)

/-- The body of the update loop of `obstacleSystem`. -/
def updateIfActive (st : State) (i : Fin 10) : State :=
  if (st.obstacleDepths i).Active = true then updateObstacle st i else st

/-- The same state with another value of the spawn timer. -/
def withTimer (s : State) (t : Int) : State := { s with obstacleSpawnTimer := t }

/-- A state in which only slot 0 is active, at the bottom of the screen
(`118 + 42 = 160`), 118 calls after the last spawn. -/
def retiringState : State :=
  { start zeroState with
    obstaclePositions := setAt zeroState.obstaclePositions 0 { X := 58, Y := 118 }
    obstacleDrawables := setAt zeroState.obstacleDrawables 0 { Size := 42, Color := 0x32 }
    obstacleDepths := setAt zeroState.obstacleDepths 0
      { Z := ⟨1068977059⟩, Speed := OBSTACLE_SPEED, BaseSize := 2, MaxSize := 30,
        Active := true }
    gameState := STATE_PLAYING
    obstacleSpawnTimer := 118 }

/-- The records of all 10 slots. -/
def poolOf (s : State) : Fin 10 → Position × Drawable × Depth := fun i => slotOf s i

/-- Every active slot of `pool` is the point number `age i` of the trajectory of
a fresh slot, with `lo <= age i <= 358`, and the ages of two active slots are at
least 120 apart. -/
def AgedPool (pool : Fin 10 → Position × Drawable × Depth) (lo : Int)
    (age : Fin 10 → Nat) : Prop :=
  (∀ i, (pool i).2.2.Active = true →
      pool i = advanceSlot^[age i] freshSlot ∧ age i ≤ 358 ∧ lo ≤ (age i : Int)) ∧
    ∀ i j, i ≠ j → (pool i).2.2.Active = true → (pool j).2.2.Active = true →
      age i + 120 ≤ age j ∨ age j + 120 ≤ age i

/-- The invariant of the obstacle pool at the end of a frame: the timer is in
`0 .. 119`, and the active slots are points of the trajectory of a fresh slot
whose ages are larger than the timer and at least 120 apart. -/
def PoolInv (s : State) : Prop :=
  0 ≤ s.obstacleSpawnTimer ∧ s.obstacleSpawnTimer ≤ 119 ∧
    ∃ age : Fin 10 → Nat, AgedPool (poolOf s) (s.obstacleSpawnTimer + 1) age

/-- `P` holds at the first `n + 1` points of the trajectory that starts in `v`. -/
def trajAll (P : Position × Drawable × Depth → Bool) :
    Nat → Position × Drawable × Depth → Bool
  | 0, v => P v
  | n + 1, v => P v && trajAll P n (advanceSlot v)

/-- The slot lies inside the screen. -/
def slotInScreen (v : Position × Drawable × Depth) : Bool :=
  decide (0 ≤ v.1.X ∧ v.1.X ≤ 160 - (v.2.1.Size : Int) ∧
    0 ≤ v.1.Y ∧ v.1.Y ≤ 160 - (v.2.1.Size : Int))

/-- The number of active slots. -/
def activeCount (s : State) : Nat :=
  (ascending.filter (fun i => (s.obstacleDepths i).Active)).length

/-- The state on which `obstacleSystem` runs in a `STATE_PLAYING` frame that
starts in `s` with gamepad value `gamepad`. -/
def beforeObstacles (w4 : W4) (gamepad : Nat) (s : State) : State :=
  collisionSystem (beforeCollision w4 gamepad s)

/-- The state on which `obstacleSystem` calls `spawnObstacle` when it is called
on `s`: the timer has been incremented. -/
def atSpawn (s : State) : State := withTimer s (wrapInt (s.obstacleSpawnTimer + 1))

/-- Frames of a player who confirms in the menu and then stands still for 239
frames: the first obstacle is spawned in the 120th of them and the next frame is
the 240th. -/
def secondSpawnFrames : List Nat := 1 :: List.replicate 239 0

/-- The magnitude of `x` in units of `2 ^ (-149)`; an infinity has magnitude
`2 ^ 277`, beyond every finite value.  Not meaningful for NaN. -/
def F32.magnitude (x : F32) : Nat := x.mant * 2 ^ (x.expo + 149).toNat

/-- Go `x <= y` on `float32` (false when either side is NaN). -/
def F32.le (x y : F32) : Prop := x.isNaN = false ∧ y.isNaN = false ∧ x.scaled ≤ y.scaled

/-- Neither NaN nor an infinity. -/
def F32.isFinite (x : F32) : Prop := x.expField ≠ 255

/-- The state right after `start()` and one `inputSystem` call with `BUTTON_UP`
held: the player has just jumped. -/
def jumpingState : State := inputSystem wasm4 64 (start zeroState)

/-- The state right after `start()` and one `inputSystem` call with
`BUTTON_RIGHT` held: the player moves right at full speed. -/
def runningState : State := inputSystem wasm4 32 (start zeroState)

/-- Successive `inputSystem` calls, one per gamepad value. -/
def inputCalls (w4 : W4) (gs : List Nat) (s : State) : State :=
  gs.foldl (fun st g => inputSystem w4 g st) s

/-! ## The constants as bit patterns -/

/-- The `float32` constants of `main.go` as IEEE-754 bit patterns:
`0.5 = 0x3F000000`, `8.0 = 0x41000000`, `0.8 = 0x3F4CCCCD`, `15.0 = 0x41700000`,
`0.004 = 0x3B83126F`. -/
theorem float_constants_bits :
    GRAVITY = ⟨0x3F000000⟩ ∧ JUMP_POWER = ⟨0x41000000⟩ ∧ FRICTION = ⟨0x3F4CCCCD⟩ ∧
      MAX_VELOCITY_Y = ⟨0x41700000⟩ ∧ OBSTACLE_SPEED = ⟨0x3B83126F⟩ := by
  decide

/-! ## Game state and menu cursor through the systems of a frame -/

theorem inputSystem_mode (w4 : W4) (g : Nat) (s : State) :
    (inputSystem w4 g s).gameState = s.gameState ∧
      (inputSystem w4 g s).menuOption = s.menuOption := by
  unfold inputSystem
  constructor <;> (dsimp only; split_ifs <;> rfl)

theorem physicsSystem_mode (s : State) :
    (physicsSystem s).gameState = s.gameState ∧
      (physicsSystem s).menuOption = s.menuOption := by
  unfold physicsSystem
  constructor <;> (split_ifs <;> rfl)

theorem movementSystem_mode (s : State) :
    (movementSystem s).gameState = s.gameState ∧
      (movementSystem s).menuOption = s.menuOption := by
  unfold movementSystem
  constructor <;> (dsimp only; split_ifs <;> rfl)

theorem resetGame_mode (s : State) :
    (resetGame s).gameState = s.gameState ∧ (resetGame s).menuOption = s.menuOption :=
  ⟨rfl, rfl⟩

theorem collisionLoop_mode (s : State) (l : List (Fin 10)) :
    (collisionLoop s l).gameState = s.gameState ∧
      (collisionLoop s l).menuOption = s.menuOption := by
  induction l with
  | nil => exact ⟨rfl, rfl⟩
  | cons i rest ih =>
    unfold collisionLoop
    split_ifs
    · exact resetGame_mode s
    · exact ih

theorem collisionSystem_mode (s : State) :
    (collisionSystem s).gameState = s.gameState ∧
      (collisionSystem s).menuOption = s.menuOption :=
  collisionLoop_mode s descending

theorem spawnLoop_mode (s : State) (l : List (Fin 10)) :
    (spawnLoop s l).gameState = s.gameState ∧
      (spawnLoop s l).menuOption = s.menuOption := by
  induction l with
  | nil => exact ⟨rfl, rfl⟩
  | cons i rest ih =>
    unfold spawnLoop
    split_ifs
    · exact ⟨rfl, rfl⟩
    · exact ih

theorem updateObstacle_mode (s : State) (i : Fin 10) :
    (updateObstacle s i).gameState = s.gameState ∧
      (updateObstacle s i).menuOption = s.menuOption := by
  unfold updateObstacle
  constructor <;> (dsimp only; split_ifs <;> rfl)

theorem updateAll_mode (l : List (Fin 10)) (s : State) :
    (l.foldl (fun st i =>
        if (st.obstacleDepths i).Active = true then updateObstacle st i else st) s).gameState
        = s.gameState ∧
      (l.foldl (fun st i =>
        if (st.obstacleDepths i).Active = true then updateObstacle st i else st) s).menuOption
        = s.menuOption := by
  induction l generalizing s with
  | nil => exact ⟨rfl, rfl⟩
  | cons i rest ih =>
    rw [List.foldl_cons]
    by_cases h : (s.obstacleDepths i).Active = true
    · rw [if_pos h, (ih _).1, (ih _).2]
      exact updateObstacle_mode s i
    · rw [if_neg h]
      exact ih s

theorem obstacleSystem_mode (s : State) :
    (obstacleSystem s).gameState = s.gameState ∧
      (obstacleSystem s).menuOption = s.menuOption := by
  unfold obstacleSystem
  dsimp only
  rw [(updateAll_mode _ _).1, (updateAll_mode _ _).2]
  split_ifs
  · exact spawnLoop_mode _ ascending
  · exact ⟨rfl, rfl⟩

theorem scoreSystem_mode (s : State) :
    (scoreSystem s).gameState = s.gameState ∧
      (scoreSystem s).menuOption = s.menuOption := by
  unfold scoreSystem
  constructor <;> (dsimp only; split_ifs <;> rfl)

/-- The six systems of a `STATE_PLAYING` frame keep `gameState` and `menuOption`. -/
theorem playing_pipeline_mode (w4 : W4) (g : Nat) (s : State) :
    (scoreSystem (obstacleSystem (collisionSystem (movementSystem (physicsSystem
        (inputSystem w4 g s)))))).gameState = s.gameState ∧
      (scoreSystem (obstacleSystem (collisionSystem (movementSystem (physicsSystem
        (inputSystem w4 g s)))))).menuOption = s.menuOption := by
  constructor
  · rw [(scoreSystem_mode _).1, (obstacleSystem_mode _).1, (collisionSystem_mode _).1,
      (movementSystem_mode _).1, (physicsSystem_mode _).1, (inputSystem_mode _ _ _).1]
  · rw [(scoreSystem_mode _).2, (obstacleSystem_mode _).2, (collisionSystem_mode _).2,
      (movementSystem_mode _).2, (physicsSystem_mode _).2, (inputSystem_mode _ _ _).2]

/-- What `menuSystem` does to the game state and the cursor, under `ModeInv`. -/
theorem menuSystem_mode (w4 : W4) (g : Nat) (s : State) (hs : ModeInv s)
    (hm : s.gameState ≠ STATE_PLAYING) :
    (menuSystem w4 g s).gameState
        = (if pressed w4.BUTTON_1 g s then STATE_PLAYING else s.gameState) ∧
      ModeInv (menuSystem w4 g s) := by
  unfold ModeInv at hs ⊢
  unfold menuSystem pressed
  simp only [STATE_MENU, STATE_PLAYING, STATE_PAUSED, MENU_START, MENU_RESUME,
    MENU_RESTART, wrapInt] at *
  rcases hs with ⟨h1, h2⟩ | h | ⟨h1, h2 | h2⟩
  · simp [h1, h2, resetGame]
    split_ifs <;> simp_all
  · exact absurd h hm
  · simp [h1, h2, resetGame]
    split_ifs <;> simp_all
  · simp [h1, h2, resetGame]
    split_ifs <;> simp_all

/-- A `STATE_PLAYING` frame: the pause button edge is the only thing that
changes the game state or the cursor. -/
theorem update_playing (w4 : W4) (g : Nat) (s : State) (hp : s.gameState = STATE_PLAYING) :
    (update w4 g s).gameState
        = (if pressed w4.BUTTON_2 g s then STATE_PAUSED else STATE_PLAYING) ∧
      (update w4 g s).menuOption
        = (if pressed w4.BUTTON_2 g s then MENU_RESUME else s.menuOption) := by
  have hne : ¬ s.gameState = STATE_MENU := by rw [hp]; decide
  unfold update pressed
  rw [if_neg hne, if_pos hp]
  dsimp only
  rw [(playing_pipeline_mode _ _ _).1, (playing_pipeline_mode _ _ _).2]
  by_cases hb : g &&& w4.BUTTON_2 ≠ 0 ∧ s.previousInput &&& w4.BUTTON_2 = 0
  · rw [if_pos hb, if_pos hb, if_pos hb]
    exact ⟨rfl, rfl⟩
  · rw [if_neg hb, if_neg hb, if_neg hb]
    exact ⟨hp, rfl⟩

/-- A frame in the menu or the pause menu is `menuSystem` followed by the
input snapshot. -/
theorem update_menu (w4 : W4) (g : Nat) (s : State)
    (hm : s.gameState = STATE_MENU ∨ s.gameState = STATE_PAUSED) :
    update w4 g s = { menuSystem w4 g s with previousInput := g } := by
  unfold update
  rcases hm with h | h
  · rw [if_pos h]
  · have h0 : ¬ s.gameState = STATE_MENU := by rw [h]; decide
    have h1 : ¬ s.gameState = STATE_PLAYING := by rw [h]; decide
    rw [if_neg h0, if_neg h1, if_pos h]

theorem update_modeInv (w4 : W4) (g : Nat) (s : State) (hs : ModeInv s) :
    ModeInv (update w4 g s) := by
  by_cases hp : s.gameState = STATE_PLAYING
  · have h := update_playing w4 g s hp
    unfold ModeInv
    rw [h.1, h.2]
    by_cases hb : pressed w4.BUTTON_2 g s
    · rw [if_pos hb, if_pos hb]
      exact Or.inr (Or.inr ⟨rfl, Or.inl rfl⟩)
    · rw [if_neg hb]
      exact Or.inr (Or.inl rfl)
  · have h := (menuSystem_mode w4 g s hs hp).2
    have hm : s.gameState = STATE_MENU ∨ s.gameState = STATE_PAUSED := by
      rcases hs with ⟨h1, _⟩ | h1 | ⟨h1, _⟩
      · exact Or.inl h1
      · exact absurd h1 hp
      · exact Or.inr h1
    rw [update_menu w4 g s hm]
    exact h

theorem reachable_modeInv (w4 : W4) (s : State) (h : Reachable w4 s) : ModeInv s := by
  induction h with
  | init => exact Or.inl ⟨rfl, rfl⟩
  | step s g _ _ ih => exact update_modeInv w4 g s ih

/-! ## C1: from `start()`, confirm starts the game -/

/-- C1: from the state produced by `start()` (whatever the variables held
before), one `update()` frame whose gamepad value has `BUTTON_1` set leaves
`gameState = STATE_PLAYING`, `score = 0`, `scoreTimer = 0` and the player at
`(70, 140)`. -/
theorem start_then_confirm_plays (w4 : W4) (s0 : State) (gamepad : Nat)
    (h : gamepad &&& w4.BUTTON_1 ≠ 0) :
    (update w4 gamepad (start s0)).gameState = STATE_PLAYING ∧
      (update w4 gamepad (start s0)).score = 0 ∧
      (update w4 gamepad (start s0)).scoreTimer = 0 ∧
      (update w4 gamepad (start s0)).squarePosition = { X := 70, Y := 140 } := by
  rw [update_menu w4 gamepad (start s0) (Or.inl rfl)]
  unfold menuSystem
  simp only [start, STATE_MENU, STATE_PAUSED, MENU_START, Nat.zero_and, and_true]
  simp [h, SCREEN_SIZE, SQUARE_SIZE, GROUND_LEVEL, STATE_PLAYING]

theorem start_then_confirm_plays_witness :
    1 &&& wasm4.BUTTON_1 ≠ 0 ∧
      (update wasm4 1 (start zeroState)).gameState = STATE_PLAYING ∧
      (update wasm4 1 (start zeroState)).score = 0 ∧
      (update wasm4 1 (start zeroState)).scoreTimer = 0 ∧
      (update wasm4 1 (start zeroState)).squarePosition = { X := 70, Y := 140 } :=
  ⟨by decide, start_then_confirm_plays wasm4 zeroState 1 (by decide)⟩

/-! ## C2: the transition table of the game state -/

/-- C2: in every reachable state and for every gamepad value, the game state
after `update()` follows the edge-triggered table: from `STATE_MENU` or
`STATE_PAUSED` it becomes `STATE_PLAYING` exactly on a press edge of `BUTTON_1`
and is otherwise unchanged; from `STATE_PLAYING` it becomes `STATE_PAUSED`
exactly on a press edge of `BUTTON_2` and otherwise stays `STATE_PLAYING`
(whether or not the frame resets the game on a collision); these are the only
three game states; and a frame with no press edge of `BUTTON_1` or `BUTTON_2`
(both released or held) leaves the game state unchanged. -/
theorem gameState_transition_table (w4 : W4) (s : State) (gamepad : Nat)
    (h : Reachable w4 s) :
    (s.gameState = STATE_MENU ∨ s.gameState = STATE_PLAYING ∨ s.gameState = STATE_PAUSED) ∧
      (s.gameState = STATE_MENU ∨ s.gameState = STATE_PAUSED →
        (update w4 gamepad s).gameState
          = (if pressed w4.BUTTON_1 gamepad s then STATE_PLAYING else s.gameState)) ∧
      (s.gameState = STATE_PLAYING →
        (update w4 gamepad s).gameState
          = (if pressed w4.BUTTON_2 gamepad s then STATE_PAUSED else STATE_PLAYING)) ∧
      (¬ pressed w4.BUTTON_1 gamepad s ∧ ¬ pressed w4.BUTTON_2 gamepad s →
        (update w4 gamepad s).gameState = s.gameState) := by
  have hinv := reachable_modeInv w4 s h
  have hmenu : s.gameState = STATE_MENU ∨ s.gameState = STATE_PAUSED →
      (update w4 gamepad s).gameState
        = (if pressed w4.BUTTON_1 gamepad s then STATE_PLAYING else s.gameState) := by
    intro hm
    have hp : s.gameState ≠ STATE_PLAYING := by
      rcases hm with hm | hm <;> (rw [hm]; decide)
    rw [update_menu w4 gamepad s hm]
    exact (menuSystem_mode w4 gamepad s hinv hp).1
  refine ⟨?_, hmenu, fun hp => (update_playing w4 gamepad s hp).1, ?_⟩
  · rcases hinv with ⟨h1, _⟩ | h1 | ⟨h1, _⟩
    · exact Or.inl h1
    · exact Or.inr (Or.inl h1)
    · exact Or.inr (Or.inr h1)
  · rintro ⟨hb1, hb2⟩
    by_cases hp : s.gameState = STATE_PLAYING
    · rw [(update_playing w4 gamepad s hp).1, if_neg hb2, hp]
    · have hm : s.gameState = STATE_MENU ∨ s.gameState = STATE_PAUSED := by
        rcases hinv with ⟨h1, _⟩ | h1 | ⟨h1, _⟩
        · exact Or.inl h1
        · exact absurd h1 hp
        · exact Or.inr h1
      rw [hmenu hm, if_neg hb1]

theorem gameState_transition_table_witness :
    Reachable wasm4 (update wasm4 1 (start zeroState)) ∧
      (update wasm4 2 (update wasm4 1 (start zeroState))).gameState = STATE_PAUSED :=
  ⟨Reachable.step _ 1 Reachable.init (by decide),
    ((gameState_transition_table wasm4 (update wasm4 1 (start zeroState)) 2
      (Reachable.step _ 1 Reachable.init (by decide))).2.2.1 (by decide)).trans (by decide)⟩

/-! ## C3, C4: the collision check -/

theorem collisionLoop_hit (s : State) (l : List (Fin 10))
    (h : ∃ i ∈ l, collides s i) : collisionLoop s l = resetGame s := by
  induction l with
  | nil => simp at h
  | cons i rest ih =>
    unfold collisionLoop
    by_cases hc : collides s i
    · rw [if_pos hc]
    · rw [if_neg hc]
      apply ih
      rcases h with ⟨j, hj, hcj⟩
      rcases List.mem_cons.mp hj with rfl | hj
      · exact absurd hcj hc
      · exact ⟨j, hj, hcj⟩

theorem collisionLoop_miss (s : State) (l : List (Fin 10))
    (h : ∀ i ∈ l, ¬ collides s i) : collisionLoop s l = s := by
  induction l with
  | nil => rfl
  | cons i rest ih =>
    unfold collisionLoop
    rw [if_neg (h i (List.mem_cons_self i rest))]
    exact ih (fun j hj => h j (List.mem_cons_of_mem i hj))

theorem mem_descending (i : Fin 10) : i ∈ descending := by
  revert i; decide

theorem mem_ascending (i : Fin 10) : i ∈ ascending := by
  revert i; decide

theorem collisionSystem_hit (s : State) (i : Fin 10) (h : collides s i) :
    collisionSystem s = resetGame s :=
  collisionLoop_hit s descending ⟨i, mem_descending i, h⟩

theorem collisionSystem_miss (s : State) (h : ∀ i, ¬ collides s i) :
    collisionSystem s = s :=
  collisionLoop_miss s descending (fun i _ => h i)

/-- C3: `collisionSystem` is `resetGame` when some active slot overlaps the
player's rectangle on both axes (edges included) with `obstacleBottom >= 158`,
and is the identity when no slot does.
In particular an active slot with the player's position and size, with bottom
`>= 158`, triggers the reset (the player's edges being those of a rectangle:
left `<=` right and top `<=` bottom as 32-bit values), and when every active
slot is strictly apart from the player on one axis, or has bottom `< 158`, the
whole state is unchanged. -/
theorem collisionSystem_resets_iff_overlap (s : State) :
    ((∃ i : Fin 10, (s.obstacleDepths i).Active = true ∧
          obstacleLeft s i ≤ playerRight s ∧ playerLeft s ≤ obstacleRight s i ∧
          obstacleTop s i ≤ playerBottom s ∧ playerTop s ≤ obstacleBottom s i ∧
          158 ≤ obstacleBottom s i) →
        collisionSystem s = resetGame s) ∧
      ((¬ ∃ i : Fin 10, (s.obstacleDepths i).Active = true ∧
          obstacleLeft s i ≤ playerRight s ∧ playerLeft s ≤ obstacleRight s i ∧
          obstacleTop s i ≤ playerBottom s ∧ playerTop s ≤ obstacleBottom s i ∧
          158 ≤ obstacleBottom s i) →
        collisionSystem s = s) ∧
      (∀ i : Fin 10, (s.obstacleDepths i).Active = true →
        s.obstaclePositions i = s.squarePosition →
        (s.obstacleDrawables i).Size = s.squareDrawable.Size →
        playerLeft s ≤ playerRight s → playerTop s ≤ playerBottom s →
        158 ≤ obstacleBottom s i →
        collisionSystem s = resetGame s) ∧
      ((∀ i : Fin 10, (s.obstacleDepths i).Active = true →
          playerRight s < obstacleLeft s i ∨ obstacleRight s i < playerLeft s ∨
          playerBottom s < obstacleTop s i ∨ obstacleBottom s i < playerTop s ∨
          obstacleBottom s i < 158) →
        collisionSystem s = s) := by
  refine ⟨?_, ?_, ?_, ?_⟩
  · rintro ⟨i, hi⟩
    exact collisionSystem_hit s i hi
  · intro h
    exact collisionSystem_miss s (fun i hi => h ⟨i, hi⟩)
  · intro i ha hp hsz hx hy hb
    apply collisionSystem_hit s i
    unfold collides
    unfold obstacleBottom at hb
    unfold playerLeft playerRight at hx
    unfold playerTop playerBottom at hy
    unfold obstacleLeft obstacleRight obstacleTop obstacleBottom playerLeft playerRight
      playerTop playerBottom
    rw [hp, hsz] at hb ⊢
    exact ⟨ha, hx, hx, hy, hy, hb⟩
  · intro h
    apply collisionSystem_miss s
    intro i hc
    unfold collides at hc
    rcases hc with ⟨ha, h1, h2, h3, h4, h5⟩
    rcases h i ha with h' | h' | h' | h' | h' <;> omega

theorem collisionSystem_resets_iff_overlap_witness :
    (overlapState.obstacleDepths 0).Active = true ∧ 158 ≤ obstacleBottom overlapState 0 ∧
      collisionSystem overlapState = resetGame overlapState :=
  ⟨by decide, by decide,
    (collisionSystem_resets_iff_overlap overlapState).2.2.1 0 (by decide) (by decide)
      (by decide) (by decide) (by decide) (by decide)⟩

/-- C4: whenever some active slot overlaps the player's rectangle with
`obstacleBottom >= 158` (the player being at ground level or anywhere else),
after `collisionSystem` the player is at `(70, 140)` with both velocities 0 and
`OnGround` set, `score`, `scoreTimer` and `obstacleSpawnTimer` are 0, and all
10 slots are inactive. -/
theorem collision_resets_game (s : State)
    (h : ∃ i : Fin 10, (s.obstacleDepths i).Active = true ∧
          obstacleLeft s i ≤ playerRight s ∧ playerLeft s ≤ obstacleRight s i ∧
          obstacleTop s i ≤ playerBottom s ∧ playerTop s ≤ obstacleBottom s i ∧
          158 ≤ obstacleBottom s i) :
    (collisionSystem s).squarePosition = { X := 70, Y := 140 } ∧
      (collisionSystem s).squarePhysics.VelocityX = F32.zero ∧
      (collisionSystem s).squarePhysics.VelocityY = F32.zero ∧
      (collisionSystem s).squarePhysics.OnGround = true ∧
      (collisionSystem s).score = 0 ∧
      (collisionSystem s).scoreTimer = 0 ∧
      (collisionSystem s).obstacleSpawnTimer = 0 ∧
      ∀ j : Fin 10, ((collisionSystem s).obstacleDepths j).Active = false := by
  rcases h with ⟨i, hi⟩
  rw [collisionSystem_hit s i hi]
  exact ⟨rfl, rfl, rfl, rfl, rfl, rfl, rfl, fun _ => rfl⟩

theorem collision_resets_game_witness :
    overlapState.squarePosition.Y = GROUND_LEVEL ∧
      overlapState.score = 7 ∧
      (collisionSystem overlapState).squarePosition = { X := 70, Y := 140 } ∧
      (collisionSystem overlapState).squarePhysics.VelocityX = F32.zero ∧
      (collisionSystem overlapState).squarePhysics.VelocityY = F32.zero ∧
      (collisionSystem overlapState).squarePhysics.OnGround = true ∧
      (collisionSystem overlapState).score = 0 ∧
      (collisionSystem overlapState).scoreTimer = 0 ∧
      (collisionSystem overlapState).obstacleSpawnTimer = 0 ∧
      ∀ j : Fin 10, ((collisionSystem overlapState).obstacleDepths j).Active = false :=
  ⟨by decide, by decide, collision_resets_game overlapState ⟨0, by decide⟩⟩

/-! ## C5: `resetGame` is idempotent -/

/-- C5: `resetGame (resetGame s) = resetGame s` for every state `s`, as an
equality of the complete global state. -/
theorem resetGame_idempotent (s : State) : resetGame (resetGame s) = resetGame s := by
  unfold resetGame
  rfl

/-! ## C6, C7: `spawnObstacle` -/

theorem spawnLoop_first (s : State) (pre post : List (Fin 10)) (i : Fin 10)
    (hpre : ∀ j ∈ pre, (s.obstacleDepths j).Active = true)
    (hi : (s.obstacleDepths i).Active = false) :
    spawnLoop s (pre ++ i :: post) = spawnAt s i := by
  induction pre with
  | nil =>
    rw [List.nil_append]
    unfold spawnLoop
    rw [if_pos hi]
  | cons j rest ih =>
    rw [List.cons_append]
    unfold spawnLoop
    have hj : ¬ (s.obstacleDepths j).Active = false := by
      rw [hpre j (List.mem_cons_self j rest)]; decide
    rw [if_neg hj]
    exact ih (fun k hk => hpre k (List.mem_cons_of_mem j hk))

theorem spawnLoop_full (s : State) (l : List (Fin 10))
    (h : ∀ j ∈ l, (s.obstacleDepths j).Active = true) : spawnLoop s l = s := by
  induction l with
  | nil => rfl
  | cons j rest ih =>
    unfold spawnLoop
    have hj : ¬ (s.obstacleDepths j).Active = false := by
      rw [h j (List.mem_cons_self j rest)]; decide
    rw [if_neg hj]
    exact ih (fun k hk => h k (List.mem_cons_of_mem j hk))

theorem ascending_split (i : Fin 10) :
    ascending = List.take i.val ascending ++ i :: List.drop (i.val + 1) ascending := by
  revert i; decide

theorem ascending_take_lt (i : Fin 10) : ∀ j ∈ List.take i.val ascending, j < i := by
  revert i; decide

/-- On a state whose lowest-index inactive slot is `i`, `spawnObstacle` is the
body of the loop at `i`. -/
theorem spawnObstacle_eq_spawnAt (s : State) (i : Fin 10)
    (hi : (s.obstacleDepths i).Active = false)
    (hlt : ∀ j : Fin 10, j < i → (s.obstacleDepths j).Active = true) :
    spawnObstacle s = spawnAt s i := by
  unfold spawnObstacle
  rw [ascending_split i]
  exact spawnLoop_first s _ _ i (fun j hj => hlt j (ascending_take_lt i j hj)) hi

/-- C6: if slot `i` is inactive and every slot of lower index is active, then
`spawnObstacle` activates slot `i` and leaves the position, drawable and depth
records of every other slot unchanged; if all 10 slots are active,
`spawnObstacle` leaves the whole state unchanged. -/
theorem spawnObstacle_first_free_slot (s : State) :
    (∀ i : Fin 10, (s.obstacleDepths i).Active = false →
        (∀ j : Fin 10, j < i → (s.obstacleDepths j).Active = true) →
        ((spawnObstacle s).obstacleDepths i).Active = true ∧
          ∀ j : Fin 10, j ≠ i →
            (spawnObstacle s).obstaclePositions j = s.obstaclePositions j ∧
            (spawnObstacle s).obstacleDrawables j = s.obstacleDrawables j ∧
            (spawnObstacle s).obstacleDepths j = s.obstacleDepths j) ∧
      ((∀ i : Fin 10, (s.obstacleDepths i).Active = true) → spawnObstacle s = s) := by
  constructor
  · intro i hi hlt
    rw [spawnObstacle_eq_spawnAt s i hi hlt]
    refine ⟨by simp [spawnAt, setAt], fun j hj => ?_⟩
    simp [spawnAt, setAt, hj]
  · intro h
    exact spawnLoop_full s ascending (fun j _ => h j)

theorem spawnObstacle_first_free_slot_witness :
    ((start zeroState).obstacleDepths 0).Active = false ∧
      ((spawnObstacle (start zeroState)).obstacleDepths 0).Active = true ∧
      (spawnObstacle (start zeroState)).obstacleDepths 1 = (start zeroState).obstacleDepths 1 :=
  ⟨by decide,
    ((spawnObstacle_first_free_slot (start zeroState)).1 0 (by decide) (by decide)).1,
    (((spawnObstacle_first_free_slot (start zeroState)).1 0 (by decide) (by decide)).2 1
      (by decide)).2.2⟩

/-- C7: on the state after `start()`, `spawnObstacle` sets slot 0 to the
anchor `(79, 61)`, size 2, colour `0x32`, `Z = 0`, `Speed = OBSTACLE_SPEED`,
`BaseSize = OBSTACLE_BASE_SIZE`, `Active = true`, but its `MaxSize` is the
literal 30, which is not the configured constant `OBSTACLE_MAX_SIZE = 20`. -/
theorem spawnObstacle_maxSize_not_constant :
    (spawnObstacle (start zeroState)).obstaclePositions 0 = { X := 79, Y := 61 } ∧
      (spawnObstacle (start zeroState)).obstacleDrawables 0 = { Size := 2, Color := 0x32 } ∧
      (spawnObstacle (start zeroState)).obstacleDepths 0
        = { Z := F32.zero, Speed := OBSTACLE_SPEED, BaseSize := OBSTACLE_BASE_SIZE,
            MaxSize := 30, Active := true } ∧
      OBSTACLE_MAX_SIZE = 20 ∧
      ((spawnObstacle (start zeroState)).obstacleDepths 0).MaxSize ≠ OBSTACLE_MAX_SIZE := by
  decide

/-! ## C8: a spawned obstacle is retired -/

/-- The records of slot `i` after `updateObstacle s i` depend only on the
records of slot `i` before it. -/
theorem slotOf_updateObstacle (s : State) (i : Fin 10) :
    slotOf (updateObstacle s i) i = advanceSlot (slotOf s i) := by
  unfold advanceSlot slotOf updateObstacle slotState
  dsimp only
  split_ifs <;> simp [setAt]

theorem slotOf_iterate (s : State) (i : Fin 10) (k : Nat) :
    slotOf ((fun st => updateObstacle st i)^[k] s) i = advanceSlot^[k] (slotOf s i) := by
  induction k with
  | zero => rfl
  | succ k ih =>
    rw [Function.iterate_succ_apply', Function.iterate_succ_apply', ← ih]
    exact slotOf_updateObstacle _ i

theorem advanceSlot_active (v : Position × Drawable × Depth)
    (h : (advanceSlot v).2.2.Active = true) : v.2.2.Active = true := by
  unfold advanceSlot slotOf updateObstacle slotState at h
  dsimp only at h
  by_cases hc : wrapInt (v.1.Y + intOfUint v.2.1.Size) = 160
  · rw [if_pos hc] at h
    simp [setAt, Depth.zero] at h
  · rw [if_neg hc] at h
    simpa [setAt] using h

theorem advanceSlot_iterate_active (v : Position × Drawable × Depth) (n k : Nat) (hk : k ≤ n)
    (h : (advanceSlot^[n] v).2.2.Active = true) : (advanceSlot^[k] v).2.2.Active = true := by
  induction n with
  | zero =>
    have : k = 0 := by omega
    rw [this]; exact h
  | succ n ih =>
    rcases Nat.eq_or_lt_of_le hk with rfl | hlt
    · exact h
    · apply ih (by omega)
      rw [Function.iterate_succ_apply'] at h
      exact advanceSlot_active _ h

/-- The trajectory of a fresh slot, evaluated: after 357 calls it is still short
of the bottom of the screen (`118 + 41 = 159`). -/
theorem freshSlot_357 :
    advanceSlot^[357] freshSlot =
      ({ X := 59, Y := 118 }, { Size := 41, Color := 0x32 },
        { Z := ⟨1068943505⟩, Speed := OBSTACLE_SPEED, BaseSize := 2, MaxSize := 30,
          Active := true }) := by
  decide!

theorem freshSlot_358 :
    advanceSlot^[358] freshSlot =
      ({ X := 58, Y := 118 }, { Size := 42, Color := 0x32 },
        { Z := ⟨1068977059⟩, Speed := OBSTACLE_SPEED, BaseSize := 2, MaxSize := 30,
          Active := true }) := by
  rw [Function.iterate_succ_apply', freshSlot_357]
  decide

theorem freshSlot_359 :
    advanceSlot^[359] freshSlot = (Position.zero, Drawable.zero, Depth.zero) := by
  rw [Function.iterate_succ_apply', freshSlot_358]
  decide

theorem slotOf_spawnAt (s : State) (i : Fin 10) : slotOf (spawnAt s i) i = freshSlot := by
  simp [slotOf, spawnAt, setAt, freshSlot]

theorem slotOf_eq (s : State) (i : Fin 10) (p : Position) (d : Drawable) (z : Depth)
    (h : slotOf s i = (p, d, z)) :
    s.obstaclePositions i = p ∧ s.obstacleDrawables i = d ∧ s.obstacleDepths i = z := by
  simpa [slotOf] using h

theorem updateObstacle_retire_timer (s : State) (i : Fin 10)
    (h : wrapInt ((s.obstaclePositions i).Y + intOfUint (s.obstacleDrawables i).Size) = 160) :
    (updateObstacle s i).obstacleSpawnTimer = 0 := by
  unfold updateObstacle
  dsimp only
  rw [if_pos h]

/-- C8: let `i` be the slot `spawnObstacle` sets up in `s` (the lowest-index
inactive slot).  Calling `updateObstacle` on slot `i` again and again from
`spawnObstacle s`, the slot is active after each of the first 358 calls (and
before the first), and after call number 359 it is inactive with its position,
drawable and depth records zeroed, and `obstacleSpawnTimer = 0`. -/
theorem spawned_obstacle_retires (s : State) (i : Fin 10)
    (hi : (s.obstacleDepths i).Active = false)
    (hlt : ∀ j : Fin 10, j < i → (s.obstacleDepths j).Active = true) :
    (∀ k : Nat, k < 359 →
        (((fun st => updateObstacle st i)^[k] (spawnObstacle s)).obstacleDepths i).Active
          = true) ∧
      ((fun st => updateObstacle st i)^[359] (spawnObstacle s)).obstaclePositions i
        = Position.zero ∧
      ((fun st => updateObstacle st i)^[359] (spawnObstacle s)).obstacleDrawables i
        = Drawable.zero ∧
      ((fun st => updateObstacle st i)^[359] (spawnObstacle s)).obstacleDepths i
        = Depth.zero ∧
      (((fun st => updateObstacle st i)^[359] (spawnObstacle s)).obstacleDepths i).Active
        = false ∧
      ((fun st => updateObstacle st i)^[359] (spawnObstacle s)).obstacleSpawnTimer = 0 := by
  rw [spawnObstacle_eq_spawnAt s i hi hlt]
  have hview : ∀ k : Nat,
      slotOf ((fun st => updateObstacle st i)^[k] (spawnAt s i)) i = advanceSlot^[k] freshSlot := by
    intro k
    rw [slotOf_iterate, slotOf_spawnAt]
  have h358 := hview 358
  have h359 := hview 359
  rw [freshSlot_358] at h358
  rw [freshSlot_359] at h359
  obtain ⟨hp, hd, hz⟩ := slotOf_eq _ i _ _ _ h359
  refine ⟨?_, hp, hd, hz, ?_, ?_⟩
  · intro k hk
    have hact : (advanceSlot^[k] freshSlot).2.2.Active = true := by
      apply advanceSlot_iterate_active freshSlot 358 k (by omega)
      rw [freshSlot_358]
    rw [← hview k] at hact
    exact hact
  · rw [hz]; rfl
  · rw [Function.iterate_succ_apply']
    apply updateObstacle_retire_timer
    obtain ⟨hy, hs, _⟩ := slotOf_eq _ i _ _ _ h358
    rw [hy, hs]
    decide

theorem spawned_obstacle_retires_witness :
    ((start zeroState).obstacleDepths 0).Active = false ∧
      (((fun st => updateObstacle st 0)^[359] (spawnObstacle (start zeroState))).obstacleDepths
          0).Active = false ∧
      ((fun st => updateObstacle st 0)^[359]
          (spawnObstacle (start zeroState))).obstacleSpawnTimer = 0 :=
  ⟨by decide,
    (spawned_obstacle_retires (start zeroState) 0 (by decide) (by decide)).2.2.2.2.1,
    (spawned_obstacle_retires (start zeroState) 0 (by decide) (by decide)).2.2.2.2.2⟩

/-! ## C9: when a slot is retired -/

/-- C9, as stated, fails: take the state reached from `start()` by
`spawnObstacle` and 357 calls of `updateObstacle` on slot 0, where the slot is
active at `Y = 118` with `Size = 41` (bottom 159).  The next `updateObstacle`
call recomputes `Size = 42` and `Y = 118`, so `Y + Size = 160`, and the slot is
still active after that call. -/
theorem updateObstacle_active_at_boundary :
    (((fun st => updateObstacle st 0)^[357] (spawnObstacle (start zeroState))).obstacleDepths
        0).Active = true ∧
      ((fun st => updateObstacle st 0)^[357] (spawnObstacle (start zeroState))).obstaclePositions
        0 = { X := 59, Y := 118 } ∧
      (((fun st => updateObstacle st 0)^[357]
        (spawnObstacle (start zeroState))).obstacleDrawables 0).Size = 41 ∧
      ((updateObstacle ((fun st => updateObstacle st 0)^[357]
        (spawnObstacle (start zeroState))) 0).obstacleDepths 0).Active = true ∧
      ((updateObstacle ((fun st => updateObstacle st 0)^[357]
        (spawnObstacle (start zeroState))) 0).obstaclePositions 0).Y
        + (((updateObstacle ((fun st => updateObstacle st 0)^[357]
        (spawnObstacle (start zeroState))) 0).obstacleDrawables 0).Size : Int) = 160 := by
  have hsp : spawnObstacle (start zeroState) = spawnAt (start zeroState) 0 :=
    spawnObstacle_eq_spawnAt _ 0 (by decide) (by decide)
  have h357 := slotOf_iterate (spawnAt (start zeroState) 0) 0 357
  have h358 := slotOf_updateObstacle
    ((fun st => updateObstacle st 0)^[357] (spawnAt (start zeroState) 0)) 0
  rw [h357, slotOf_spawnAt, ← Function.iterate_succ_apply' advanceSlot, freshSlot_358] at h358
  rw [slotOf_spawnAt, freshSlot_357] at h357
  obtain ⟨hp, hd, hz⟩ := slotOf_eq _ 0 _ _ _ h357
  obtain ⟨hp', hd', hz'⟩ := slotOf_eq _ 0 _ _ _ h358
  rw [hsp, hp, hd, hz, hp', hd', hz']
  decide

/-- C9, amended: `updateObstacle` tests `Y + Size == 160` on the values the slot
has when the call starts.  If the test holds, the call retires the slot: its
three records are zeroed and it is inactive.  If the test fails, the call keeps
the slot's `Active` flag whatever the recomputed values are, and the recomputed
bottom edge `Y + Size` (as a 32-bit value) is at most 160; a slot whose
recomputed `Y + Size` reaches 160 is therefore retired by the next call on it,
not by the call that moved it there. -/
theorem updateObstacle_retires_on_next_call (s : State) (index : Fin 10) :
    (obstacleBottom s index = 160 →
        (updateObstacle s index).obstaclePositions index = Position.zero ∧
        (updateObstacle s index).obstacleDrawables index = Drawable.zero ∧
        (updateObstacle s index).obstacleDepths index = Depth.zero ∧
        ((updateObstacle s index).obstacleDepths index).Active = false) ∧
      (obstacleBottom s index ≠ 160 →
        ((updateObstacle s index).obstacleDepths index).Active
            = (s.obstacleDepths index).Active ∧
          obstacleBottom (updateObstacle s index) index ≤ 160) := by
  unfold obstacleBottom
  constructor
  · intro h
    unfold updateObstacle
    dsimp only
    rw [if_pos h]
    simp [setAt, Depth.zero]
  · intro h
    unfold updateObstacle
    dsimp only
    rw [if_neg h]
    simp only [setAt, if_true, SCREEN_SIZE]
    refine ⟨trivial, ?_⟩
    generalize intOfUint (wrapUint ((s.obstacleDepths index).BaseSize + F32.toUint
      (F32.mul (F32.add (s.obstacleDepths index).Z (s.obstacleDepths index).Speed)
        (F32.ofUint (subUint (s.obstacleDepths index).MaxSize
          (s.obstacleDepths index).BaseSize))))) = cs
    generalize wrapInt (61 + F32.toInt (F32.mul
      (F32.add (s.obstacleDepths index).Z (s.obstacleDepths index).Speed) (F32.ofInt 40))) = y0
    unfold wrapInt
    split_ifs <;> omega

theorem updateObstacle_retires_on_next_call_witness :
    obstacleBottom (slotState ({ X := 58, Y := 118 }, { Size := 42, Color := 0x32 },
        { Z := ⟨1068977059⟩, Speed := OBSTACLE_SPEED, BaseSize := 2, MaxSize := 30,
          Active := true })) 0 = 160 ∧
      ((updateObstacle (slotState ({ X := 58, Y := 118 }, { Size := 42, Color := 0x32 },
        { Z := ⟨1068977059⟩, Speed := OBSTACLE_SPEED, BaseSize := 2, MaxSize := 30,
          Active := true })) 0).obstacleDepths 0).Active = false :=
  ⟨by decide,
    ((updateObstacle_retires_on_next_call (slotState ({ X := 58, Y := 118 },
        { Size := 42, Color := 0x32 },
        { Z := ⟨1068977059⟩, Speed := OBSTACLE_SPEED, BaseSize := 2, MaxSize := 30,
          Active := true })) 0).1 (by decide)).2.2.2⟩

/-! ## C10: the records of inactive slots -/

theorem reachable_foldl (w4 : W4) (inputs : List Nat) (h : ∀ g ∈ inputs, g < 256)
    (s : State) (hs : Reachable w4 s) :
    Reachable w4 (inputs.foldl (fun st g => update w4 g st) s) := by
  induction inputs generalizing s with
  | nil => exact hs
  | cons g rest ih =>
    rw [List.foldl_cons]
    exact ih (fun k hk => h k (List.mem_cons_of_mem g hk)) _
      (Reachable.step s g hs (h g (List.mem_cons_self g rest)))

/-- Every state produced by `run` on gamepad bytes is reachable. -/
theorem reachable_run (w4 : W4) (inputs : List Nat) (h : ∀ g ∈ inputs, g < 256) :
    Reachable w4 (run w4 inputs) :=
  reachable_foldl w4 inputs h (start zeroState) Reachable.init

set_option maxRecDepth 100000 in
/-- C10: after the frames `restartFrames` the game is back in `STATE_PLAYING`
through `resetGame`, which only cleared the `Active` flags: slot 0 is inactive
but still holds position `(78, 61)`, size 2, colour `0x32` and a non-zero depth
record (`Z` is two steps of 0.004, `Speed = OBSTACLE_SPEED`, `BaseSize = 2`,
`MaxSize = 30`). -/
theorem inactive_slot_not_zeroed_after_restart :
    Reachable wasm4 (run wasm4 restartFrames) ∧
      (run wasm4 restartFrames).gameState = STATE_PLAYING ∧
      ((run wasm4 restartFrames).obstacleDepths 0).Active = false ∧
      (run wasm4 restartFrames).obstaclePositions 0 = { X := 78, Y := 61 } ∧
      (run wasm4 restartFrames).obstacleDrawables 0 = { Size := 2, Color := 0x32 } ∧
      (run wasm4 restartFrames).obstacleDepths 0
        = { Z := ⟨1006834287⟩, Speed := OBSTACLE_SPEED, BaseSize := 2, MaxSize := 30,
            Active := false } ∧
      (run wasm4 restartFrames).obstacleDepths 0 ≠ Depth.zero := by
  refine ⟨reachable_run _ _ (by decide), ?_⟩
  decide

/-! ## C13: the menu cursor -/

/-- C13: in every reachable state the cursor is `MENU_RESUME` or `MENU_RESTART`
when the game is paused and `MENU_START` in the menu; a `STATE_PLAYING` frame
with a press edge of `BUTTON_2` enters `STATE_PAUSED` with the cursor on
`MENU_RESUME`; and a `STATE_PAUSED` frame with a press edge of `BUTTON_DOWN` or
of `BUTTON_UP` moves the cursor to the other of `MENU_RESUME` / `MENU_RESTART`
(never to `MENU_START`), while a paused frame with neither edge leaves it. -/
theorem menu_cursor_invariant (w4 : W4) (s : State) (gamepad : Nat) (h : Reachable w4 s) :
    (s.gameState = STATE_PAUSED →
        s.menuOption = MENU_RESUME ∨ s.menuOption = MENU_RESTART) ∧
      (s.gameState = STATE_MENU → s.menuOption = MENU_START) ∧
      (s.gameState = STATE_PLAYING → pressed w4.BUTTON_2 gamepad s →
        (update w4 gamepad s).gameState = STATE_PAUSED ∧
          (update w4 gamepad s).menuOption = MENU_RESUME) ∧
      (s.gameState = STATE_PAUSED →
        pressed w4.BUTTON_DOWN gamepad s ∨ pressed w4.BUTTON_UP gamepad s →
        (update w4 gamepad s).menuOption
            = (if s.menuOption = MENU_RESUME then MENU_RESTART else MENU_RESUME) ∧
          (update w4 gamepad s).menuOption ≠ MENU_START) ∧
      (s.gameState = STATE_PAUSED →
        ¬ pressed w4.BUTTON_DOWN gamepad s → ¬ pressed w4.BUTTON_UP gamepad s →
        (update w4 gamepad s).menuOption = s.menuOption) := by
  have hinv := reachable_modeInv w4 s h
  have hpaused : s.gameState = STATE_PAUSED →
      s.menuOption = MENU_RESUME ∨ s.menuOption = MENU_RESTART := by
    intro hp
    rcases hinv with ⟨h1, _⟩ | h1 | ⟨_, h2⟩
    · rw [hp] at h1; exact absurd h1 (by decide)
    · rw [hp] at h1; exact absurd h1 (by decide)
    · exact h2
  refine ⟨hpaused, ?_, ?_, ?_, ?_⟩
  · intro hm
    rcases hinv with ⟨_, h2⟩ | h1 | ⟨h1, _⟩
    · exact h2
    · rw [hm] at h1; exact absurd h1 (by decide)
    · rw [hm] at h1; exact absurd h1 (by decide)
  · intro hp hb
    have hu := update_playing w4 gamepad s hp
    rw [if_pos hb, if_pos hb] at hu
    exact hu
  · intro hp hedge
    have hopt := hpaused hp
    rw [update_menu w4 gamepad s (Or.inr hp)]
    unfold pressed at hedge
    unfold menuSystem
    simp only [hp, STATE_MENU, STATE_PAUSED, MENU_START, MENU_RESUME, MENU_RESTART, wrapInt]
      at *
    rcases hopt with h1 | h1
    · rcases hedge with hd | hu
      · simp [h1, hd, resetGame]
        split_ifs <;> simp
      · by_cases hd : gamepad &&& w4.BUTTON_DOWN ≠ 0 ∧ s.previousInput &&& w4.BUTTON_DOWN = 0
        · simp [h1, hd, resetGame]
          split_ifs <;> simp
        · simp [h1, hd, hu, resetGame]
          split_ifs <;> simp
    · rcases hedge with hd | hu
      · simp [h1, hd, resetGame]
        split_ifs <;> simp
      · by_cases hd : gamepad &&& w4.BUTTON_DOWN ≠ 0 ∧ s.previousInput &&& w4.BUTTON_DOWN = 0
        · simp [h1, hd, resetGame]
          split_ifs <;> simp
        · simp [h1, hd, hu, resetGame]
          split_ifs <;> simp
  · intro hp hd hu
    rw [update_menu w4 gamepad s (Or.inr hp)]
    unfold pressed at hd hu
    unfold menuSystem
    simp only [hp, STATE_MENU, STATE_PAUSED, MENU_START, MENU_RESUME, MENU_RESTART, wrapInt]
      at *
    simp [hd, hu, resetGame]
    split_ifs <;> simp

set_option maxRecDepth 100000 in
theorem menu_cursor_invariant_witness :
    Reachable wasm4 (update wasm4 2 (update wasm4 1 (start zeroState))) ∧
      (update wasm4 2 (update wasm4 1 (start zeroState))).gameState = STATE_PAUSED ∧
      (update wasm4 128 (update wasm4 2 (update wasm4 1 (start zeroState)))).menuOption
        = MENU_RESTART :=
  ⟨Reachable.step _ 2 (Reachable.step _ 1 Reachable.init (by decide)) (by decide),
    by decide,
    (((menu_cursor_invariant wasm4 (update wasm4 2 (update wasm4 1 (start zeroState))) 128
      (Reachable.step _ 2 (Reachable.step _ 1 Reachable.init (by decide)) (by decide))).2.2.2.1
      (by decide) (Or.inl (by decide))).1).trans (by decide)⟩

/-! ## C16: boundary resolution in `movementSystem` -/

/-- C16: for every player state with `Size = 20` and every velocity, after
`movementSystem` the player has `0 <= X <= 160 - 20` and `Y <= GROUND_LEVEL`.
Writing `x` for the 32-bit sum `X + int(VelocityX)` and `y` for
`Y + int(VelocityY)`: if `x < 0` then `X = 1` and `VelocityX = 0`; if
`x > 160 - 20` then `X = 160 - 20 - 1` and `VelocityX = 0`; otherwise `X = x`; and
if `y >= GROUND_LEVEL` then `Y = GROUND_LEVEL`, `VelocityY = 0` and `OnGround` is
set. -/
theorem movementSystem_boundary (s : State) (hsize : s.squareDrawable.Size = 20) :
    0 ≤ (movementSystem s).squarePosition.X ∧
      (movementSystem s).squarePosition.X ≤ 160 - 20 ∧
      (movementSystem s).squarePosition.Y ≤ GROUND_LEVEL ∧
      (wrapInt (s.squarePosition.X + F32.toInt s.squarePhysics.VelocityX) < 0 →
        (movementSystem s).squarePosition.X = 1 ∧
          (movementSystem s).squarePhysics.VelocityX = F32.zero) ∧
      (160 - 20 < wrapInt (s.squarePosition.X + F32.toInt s.squarePhysics.VelocityX) →
        (movementSystem s).squarePosition.X = 160 - 20 - 1 ∧
          (movementSystem s).squarePhysics.VelocityX = F32.zero) ∧
      (0 ≤ wrapInt (s.squarePosition.X + F32.toInt s.squarePhysics.VelocityX) →
        wrapInt (s.squarePosition.X + F32.toInt s.squarePhysics.VelocityX) ≤ 160 - 20 →
        (movementSystem s).squarePosition.X
          = wrapInt (s.squarePosition.X + F32.toInt s.squarePhysics.VelocityX)) ∧
      (GROUND_LEVEL ≤ wrapInt (s.squarePosition.Y + F32.toInt s.squarePhysics.VelocityY) →
        (movementSystem s).squarePosition.Y = GROUND_LEVEL ∧
          (movementSystem s).squarePhysics.VelocityY = F32.zero ∧
          (movementSystem s).squarePhysics.OnGround = true) := by
  have h140 : wrapInt (SCREEN_SIZE - intOfUint 20) = 140 := by decide
  have h139 : wrapInt (140 - 1) = 139 := by decide
  unfold movementSystem
  simp only [hsize, h140, h139, GROUND_LEVEL]
  generalize wrapInt (s.squarePosition.X + F32.toInt s.squarePhysics.VelocityX) = x
  by_cases hx0 : x < 0
  · simp only [if_pos hx0]
    generalize wrapInt (s.squarePosition.Y + F32.toInt s.squarePhysics.VelocityY) = y
    by_cases hy : (140 : Int) ≤ y
    · simp only [if_pos hy]
      refine ⟨?_, ?_, ?_, ?_, ?_, ?_, ?_⟩ <;> intros <;> first | omega | trivial
    · simp only [if_neg hy]
      refine ⟨?_, ?_, ?_, ?_, ?_, ?_, ?_⟩ <;> intros <;> first | omega | trivial
  · simp only [if_neg hx0]
    by_cases hx1 : (140 : Int) < x
    · simp only [if_pos hx1]
      generalize wrapInt (s.squarePosition.Y + F32.toInt s.squarePhysics.VelocityY) = y
      by_cases hy : (140 : Int) ≤ y
      · simp only [if_pos hy]
        refine ⟨?_, ?_, ?_, ?_, ?_, ?_, ?_⟩ <;> intros <;> first | omega | trivial
      · simp only [if_neg hy]
        refine ⟨?_, ?_, ?_, ?_, ?_, ?_, ?_⟩ <;> intros <;> first | omega | trivial
    · simp only [if_neg hx1]
      generalize wrapInt (s.squarePosition.Y + F32.toInt s.squarePhysics.VelocityY) = y
      by_cases hy : (140 : Int) ≤ y
      · simp only [if_pos hy]
        refine ⟨?_, ?_, ?_, ?_, ?_, ?_, ?_⟩ <;> intros <;> first | omega | trivial
      · simp only [if_neg hy]
        refine ⟨?_, ?_, ?_, ?_, ?_, ?_, ?_⟩ <;> intros <;> first | omega | trivial

set_option maxRecDepth 100000 in
theorem movementSystem_boundary_witness :
    (start zeroState).squareDrawable.Size = 20 ∧
      (movementSystem (start zeroState)).squarePosition = { X := 70, Y := 140 } ∧
      0 ≤ (movementSystem (start zeroState)).squarePosition.X ∧
      (movementSystem (start zeroState)).squarePosition.Y ≤ GROUND_LEVEL :=
  ⟨by decide, by decide, (movementSystem_boundary (start zeroState) (by decide)).1,
    (movementSystem_boundary (start zeroState) (by decide)).2.2.1⟩

/-! ## The obstacle functions leave the player and the score alone -/

theorem spawnLoop_frame (s : State) (l : List (Fin 10)) :
    playerOf (spawnLoop s l) = playerOf s ∧ scoreOf (spawnLoop s l) = scoreOf s := by
  induction l with
  | nil => exact ⟨rfl, rfl⟩
  | cons i rest ih =>
    unfold spawnLoop
    split_ifs
    · exact ⟨rfl, rfl⟩
    · exact ih

theorem updateObstacle_frame (s : State) (i : Fin 10) :
    playerOf (updateObstacle s i) = playerOf s ∧
      scoreOf (updateObstacle s i) = scoreOf s := by
  unfold updateObstacle
  by_cases hc :
      wrapInt ((s.obstaclePositions i).Y + intOfUint (s.obstacleDrawables i).Size) = 160
  · rw [if_pos hc]; exact ⟨rfl, rfl⟩
  · rw [if_neg hc]; exact ⟨rfl, rfl⟩

theorem updateAll_frame (l : List (Fin 10)) (s : State) :
    playerOf (l.foldl (fun st i =>
        if (st.obstacleDepths i).Active = true then updateObstacle st i else st) s)
        = playerOf s ∧
      scoreOf (l.foldl (fun st i =>
        if (st.obstacleDepths i).Active = true then updateObstacle st i else st) s)
        = scoreOf s := by
  induction l generalizing s with
  | nil => exact ⟨rfl, rfl⟩
  | cons i rest ih =>
    rw [List.foldl_cons]
    by_cases h : (s.obstacleDepths i).Active = true
    · rw [if_pos h, (ih _).1, (ih _).2]
      exact updateObstacle_frame s i
    · rw [if_neg h]
      exact ih s

theorem obstacleSystem_frame (s : State) :
    playerOf (obstacleSystem s) = playerOf s ∧ scoreOf (obstacleSystem s) = scoreOf s := by
  unfold obstacleSystem
  dsimp only
  rw [(updateAll_frame _ _).1, (updateAll_frame _ _).2]
  split_ifs
  · exact spawnLoop_frame _ ascending
  · exact ⟨rfl, rfl⟩

theorem scoreSystem_player (s : State) : playerOf (scoreSystem s) = playerOf s := by
  unfold scoreSystem
  dsimp only
  split_ifs <;> rfl

theorem playerOf_eq (s t : State) (h : playerOf s = playerOf t) :
    s.playerPosition = t.playerPosition ∧ s.squarePosition = t.squarePosition ∧
      s.squareDrawable = t.squareDrawable ∧ s.squarePhysics = t.squarePhysics := by
  simpa [playerOf] using h

/-! ## C19: the grounded player -/

theorem groundInv_of_player (s t : State) (h : playerOf s = playerOf t) (ht : GroundInv t) :
    GroundInv s := by
  obtain ⟨_, h2, _, h4⟩ := playerOf_eq s t h
  unfold GroundInv at ht ⊢
  rw [h2, h4]
  exact ht

theorem resetGame_groundInv (s : State) : GroundInv (resetGame s) :=
  fun _ => ⟨rfl, rfl⟩

theorem inputSystem_groundInv (w4 : W4) (g : Nat) (s : State) (h : GroundInv s) :
    GroundInv (inputSystem w4 g s) := by
  unfold GroundInv at h ⊢
  unfold inputSystem
  dsimp only
  split_ifs <;> simp_all

theorem physicsSystem_groundInv (s : State) (h : GroundInv s) :
    GroundInv (physicsSystem s) := by
  unfold GroundInv at h ⊢
  unfold physicsSystem
  dsimp only
  split_ifs <;> simp_all

theorem toInt_zero : F32.toInt F32.zero = 0 := by decide

theorem movementSystem_eq (s : State) : movementSystem s = moveY (moveX s) := rfl

theorem moveXWith_vertical (x w w1 : Int) (s : State) :
    (moveXWith x w w1 s).squarePosition.Y = s.squarePosition.Y ∧
      (moveXWith x w w1 s).squarePhysics.VelocityY = s.squarePhysics.VelocityY ∧
      (moveXWith x w w1 s).squarePhysics.OnGround = s.squarePhysics.OnGround := by
  unfold moveXWith
  refine ⟨?_, ?_, ?_⟩ <;> (split_ifs <;> rfl)

theorem moveYWith_ground (y : Int) (s : State) (h : GROUND_LEVEL ≤ y) :
    (moveYWith y s).squarePosition.Y = GROUND_LEVEL ∧
      (moveYWith y s).squarePhysics.VelocityY = F32.zero ∧
      (moveYWith y s).squarePhysics.OnGround = true := by
  unfold moveYWith
  rw [if_pos h]
  exact ⟨rfl, rfl, rfl⟩

theorem moveYWith_air (y : Int) (s : State) (h : ¬ GROUND_LEVEL ≤ y) :
    (moveYWith y s).squarePosition.Y = y ∧
      (moveYWith y s).squarePhysics.VelocityY = s.squarePhysics.VelocityY ∧
      (moveYWith y s).squarePhysics.OnGround = s.squarePhysics.OnGround := by
  unfold moveYWith
  rw [if_neg h]
  exact ⟨rfl, rfl, rfl⟩

/-- What `movementSystem` does on the vertical axis. -/
theorem movementSystem_vertical (s : State) :
    (GROUND_LEVEL ≤ wrapInt (s.squarePosition.Y + F32.toInt s.squarePhysics.VelocityY) →
        (movementSystem s).squarePosition.Y = GROUND_LEVEL ∧
          (movementSystem s).squarePhysics.VelocityY = F32.zero ∧
          (movementSystem s).squarePhysics.OnGround = true) ∧
      (¬ GROUND_LEVEL ≤ wrapInt (s.squarePosition.Y + F32.toInt s.squarePhysics.VelocityY) →
        (movementSystem s).squarePosition.Y
            = wrapInt (s.squarePosition.Y + F32.toInt s.squarePhysics.VelocityY) ∧
          (movementSystem s).squarePhysics.VelocityY = s.squarePhysics.VelocityY ∧
          (movementSystem s).squarePhysics.OnGround = s.squarePhysics.OnGround) := by
  rw [movementSystem_eq]
  obtain ⟨h1, h2, h3⟩ := moveXWith_vertical
    (wrapInt (s.squarePosition.X + F32.toInt s.squarePhysics.VelocityX))
    (wrapInt (SCREEN_SIZE - intOfUint s.squareDrawable.Size))
    (wrapInt (wrapInt (SCREEN_SIZE - intOfUint s.squareDrawable.Size) - 1)) s
  have hx : ∀ t : State, t = moveX s →
      (GROUND_LEVEL ≤ wrapInt (s.squarePosition.Y + F32.toInt s.squarePhysics.VelocityY) →
        (moveY t).squarePosition.Y = GROUND_LEVEL ∧
          (moveY t).squarePhysics.VelocityY = F32.zero ∧
          (moveY t).squarePhysics.OnGround = true) ∧
      (¬ GROUND_LEVEL ≤ wrapInt (s.squarePosition.Y + F32.toInt s.squarePhysics.VelocityY) →
        (moveY t).squarePosition.Y
            = wrapInt (s.squarePosition.Y + F32.toInt s.squarePhysics.VelocityY) ∧
          (moveY t).squarePhysics.VelocityY = s.squarePhysics.VelocityY ∧
          (moveY t).squarePhysics.OnGround = s.squarePhysics.OnGround) := by
    intro t ht
    have e1 : t.squarePosition.Y = s.squarePosition.Y := by rw [ht]; exact h1
    have e2 : t.squarePhysics.VelocityY = s.squarePhysics.VelocityY := by rw [ht]; exact h2
    have e3 : t.squarePhysics.OnGround = s.squarePhysics.OnGround := by rw [ht]; exact h3
    rw [← e1, ← e2, ← e3]
    exact ⟨moveYWith_ground _ t, moveYWith_air _ t⟩
  exact hx _ rfl

theorem movementSystem_groundInv (s : State) (h : GroundInv s) :
    GroundInv (movementSystem s) := by
  unfold GroundInv at h ⊢
  intro hg
  by_cases hy :
      GROUND_LEVEL ≤ wrapInt (s.squarePosition.Y + F32.toInt s.squarePhysics.VelocityY)
  · obtain ⟨h1, h2, _⟩ := (movementSystem_vertical s).1 hy
    exact ⟨h1, h2⟩
  · obtain ⟨_, _, h3⟩ := (movementSystem_vertical s).2 hy
    rw [h3] at hg
    obtain ⟨hy', hv⟩ := h hg
    rw [hy', hv, toInt_zero] at hy
    exact absurd (by decide) hy

theorem collisionLoop_groundInv (s : State) (l : List (Fin 10)) (h : GroundInv s) :
    GroundInv (collisionLoop s l) := by
  induction l with
  | nil => exact h
  | cons i rest ih =>
    unfold collisionLoop
    split_ifs
    · exact resetGame_groundInv s
    · exact ih

/-- `menuSystem` leaves the player alone or resets it. -/
theorem menuSystem_player (w4 : W4) (g : Nat) (s : State) :
    playerOf (menuSystem w4 g s) = playerOf s ∨
      playerOf (menuSystem w4 g s) = playerOf (resetGame s) := by
  unfold menuSystem
  dsimp only
  split_ifs <;> first | exact Or.inl rfl | exact Or.inr rfl

theorem menuSystem_groundInv (w4 : W4) (g : Nat) (s : State) (h : GroundInv s) :
    GroundInv (menuSystem w4 g s) := by
  rcases menuSystem_player w4 g s with hp | hp
  · exact groundInv_of_player _ _ hp h
  · exact groundInv_of_player _ _ hp (resetGame_groundInv s)


theorem update_groundInv (w4 : W4) (g : Nat) (s : State) (h : GroundInv s) :
    GroundInv (update w4 g s) := by
  have hpipe : ∀ t : State, GroundInv t →
      GroundInv (scoreSystem (obstacleSystem (collisionSystem (movementSystem
        (physicsSystem (inputSystem w4 g t)))))) := by
    intro t ht
    apply groundInv_of_player _ _ (scoreSystem_player _)
    apply groundInv_of_player _ _ (obstacleSystem_frame _).1
    exact collisionLoop_groundInv _ descending
      (movementSystem_groundInv _ (physicsSystem_groundInv _ (inputSystem_groundInv w4 g t ht)))
  have hmenu := menuSystem_groundInv w4 g s h
  unfold update
  unfold GroundInv at hmenu ⊢
  dsimp only
  split_ifs
  · exact hmenu
  · exact hpipe _ h
  · exact hpipe _ h
  · exact hmenu
  · exact h

theorem reachable_groundInv (w4 : W4) (s : State) (h : Reachable w4 s) : GroundInv s := by
  induction h with
  | init => exact fun _ => ⟨rfl, rfl⟩
  | step s g _ _ ih => exact update_groundInv w4 g s ih

/-- The state on which the systems of a `STATE_PLAYING` frame run: the pause
button edge has already switched the game state. -/
theorem update_playing_eq (w4 : W4) (g : Nat) (s : State) (hp : s.gameState = STATE_PLAYING) :
    update w4 g s =
      { scoreSystem (obstacleSystem (collisionSystem (movementSystem (physicsSystem
          (inputSystem w4 g
            (if g &&& w4.BUTTON_2 ≠ 0 ∧ s.previousInput &&& w4.BUTTON_2 = 0 then
              { s with gameState := STATE_PAUSED, menuOption := MENU_RESUME }
            else s)))))) with previousInput := g } := by
  have hne : ¬ s.gameState = STATE_MENU := by rw [hp]; decide
  unfold update
  rw [if_neg hne, if_pos hp]

theorem pauseToggle_player (w4 : W4) (g : Nat) (s : State) :
    playerOf (if g &&& w4.BUTTON_2 ≠ 0 ∧ s.previousInput &&& w4.BUTTON_2 = 0 then
        { s with gameState := STATE_PAUSED, menuOption := MENU_RESUME } else s)
      = playerOf s := by
  split_ifs <;> rfl

theorem inputSystem_noJump (w4 : W4) (g : Nat) (s : State) (hup : g &&& w4.BUTTON_UP = 0) :
    (inputSystem w4 g s).squarePhysics.OnGround = s.squarePhysics.OnGround ∧
      (inputSystem w4 g s).squarePhysics.VelocityY = s.squarePhysics.VelocityY ∧
      (inputSystem w4 g s).squarePosition = s.squarePosition := by
  have hnot : ∀ b : Bool, ¬ (g &&& w4.BUTTON_UP ≠ 0 ∧ b = true) := fun b hb => hb.1 hup
  unfold inputSystem
  dsimp only
  rw [if_neg (hnot _)]
  refine ⟨?_, ?_, ?_⟩ <;> (split_ifs <;> rfl)

theorem physicsSystem_grounded (s : State) (hg : s.squarePhysics.OnGround = true) :
    physicsSystem s = s := by
  unfold physicsSystem
  have hne : ¬ s.squarePhysics.OnGround = false := by rw [hg]; decide
  rw [if_neg hne]

theorem collisionSystem_onGround (s : State) (hg : s.squarePhysics.OnGround = true) :
    (collisionSystem s).squarePhysics.OnGround = true := by
  by_cases hc : ∃ i, collides s i
  · obtain ⟨i, hi⟩ := hc
    rw [collisionSystem_hit s i hi]
    rfl
  · rw [collisionSystem_miss s (fun i hi => hc ⟨i, hi⟩)]
    exact hg

/-- A grounded player that does not jump is grounded after the systems of a
`STATE_PLAYING` frame. -/
theorem pipeline_grounded (w4 : W4) (g : Nat) (t : State) (hup : g &&& w4.BUTTON_UP = 0)
    (hinv : GroundInv t) (hg : t.squarePhysics.OnGround = true) :
    (scoreSystem (obstacleSystem (collisionSystem (movementSystem (physicsSystem
      (inputSystem w4 g t)))))).squarePhysics.OnGround = true := by
  obtain ⟨hy, hv⟩ := hinv hg
  obtain ⟨i1, i2, i3⟩ := inputSystem_noJump w4 g t hup
  have hg1 : (inputSystem w4 g t).squarePhysics.OnGround = true := by rw [i1]; exact hg
  rw [physicsSystem_grounded _ hg1]
  have hmove : (movementSystem (inputSystem w4 g t)).squarePhysics.OnGround = true := by
    apply ((movementSystem_vertical (inputSystem w4 g t)).1 _).2.2
    rw [i2, i3, hy, hv, toInt_zero]
    decide
  have hcol := collisionSystem_onGround _ hmove
  obtain ⟨_, _, _, e4⟩ := playerOf_eq _ _ (scoreSystem_player
    (obstacleSystem (collisionSystem (movementSystem (inputSystem w4 g t)))))
  obtain ⟨_, _, _, f4⟩ := playerOf_eq _ _ (obstacleSystem_frame
    (collisionSystem (movementSystem (inputSystem w4 g t)))).1
  rw [e4, f4]
  exact hcol

/-- C19: in every reachable state `OnGround = true` implies that the player's
`Y` is `GROUND_LEVEL` and `VelocityY` is 0; on such a state `physicsSystem` is the
identity (gravity is not applied); and if `BUTTON_UP` is not set in the gamepad
value of the next frame, the player is still grounded after `update()`, with
`Y = GROUND_LEVEL` and `VelocityY = 0`. -/
theorem grounded_player_invariant (w4 : W4) (s : State) (gamepad : Nat)
    (h : Reachable w4 s) :
    (s.squarePhysics.OnGround = true →
        s.squarePosition.Y = GROUND_LEVEL ∧ s.squarePhysics.VelocityY = F32.zero) ∧
      (s.squarePhysics.OnGround = true → physicsSystem s = s) ∧
      (s.squarePhysics.OnGround = true → gamepad &&& w4.BUTTON_UP = 0 →
        (update w4 gamepad s).squarePhysics.OnGround = true ∧
          (update w4 gamepad s).squarePosition.Y = GROUND_LEVEL ∧
          (update w4 gamepad s).squarePhysics.VelocityY = F32.zero) := by
  have hinv := reachable_groundInv w4 s h
  refine ⟨hinv, physicsSystem_grounded s, ?_⟩
  intro hg hup
  have hnext := update_groundInv w4 gamepad s hinv
  have hon : (update w4 gamepad s).squarePhysics.OnGround = true := by
    rcases reachable_modeInv w4 s h with ⟨hm, _⟩ | hp | ⟨hm, _⟩
    · rw [update_menu w4 gamepad s (Or.inl hm)]
      rcases menuSystem_player w4 gamepad s with hq | hq
      · obtain ⟨_, _, _, e4⟩ := playerOf_eq _ _ hq
        show (menuSystem w4 gamepad s).squarePhysics.OnGround = true
        rw [e4]; exact hg
      · obtain ⟨_, _, _, e4⟩ := playerOf_eq _ _ hq
        show (menuSystem w4 gamepad s).squarePhysics.OnGround = true
        rw [e4]; rfl
    · rw [update_playing_eq w4 gamepad s hp]
      obtain ⟨_, e2, _, e4⟩ := playerOf_eq _ _ (pauseToggle_player w4 gamepad s)
      apply pipeline_grounded w4 gamepad _ hup
      · unfold GroundInv
        rw [e2, e4]
        exact hinv
      · rw [e4]; exact hg
    · rw [update_menu w4 gamepad s (Or.inr hm)]
      rcases menuSystem_player w4 gamepad s with hq | hq
      · obtain ⟨_, _, _, e4⟩ := playerOf_eq _ _ hq
        show (menuSystem w4 gamepad s).squarePhysics.OnGround = true
        rw [e4]; exact hg
      · obtain ⟨_, _, _, e4⟩ := playerOf_eq _ _ hq
        show (menuSystem w4 gamepad s).squarePhysics.OnGround = true
        rw [e4]; rfl
  exact ⟨hon, hnext hon⟩

theorem grounded_player_invariant_witness :
    Reachable wasm4 (start zeroState) ∧
      (start zeroState).squarePhysics.OnGround = true ∧
      (start zeroState).squarePosition.Y = GROUND_LEVEL ∧
      (start zeroState).squarePhysics.VelocityY = F32.zero :=
  ⟨Reachable.init, rfl,
    (grounded_player_invariant wasm4 (start zeroState) 0 Reachable.init).1 rfl⟩

/-! ## `runStrict` computes `run` -/

theorem forceNat_eq (n : Nat) (k : Nat → State) : forceNat n k = k n := by
  cases n <;> rfl

theorem forceInt_eq (z : Int) (k : Int → State) : forceInt z k = k z := by
  cases z <;> simp [forceInt, forceNat_eq]

theorem forceBool_eq (b : Bool) (k : Bool → State) : forceBool b k = k b := by
  cases b <;> rfl

theorem forceF32_eq (x : F32) (k : F32 → State) : forceF32 x k = k x := by
  simp [forceF32, forceNat_eq]

theorem forcePosition_eq (p : Position) (k : Position → State) : forcePosition p k = k p := by
  simp [forcePosition, forceInt_eq]

theorem forceDrawable_eq (d : Drawable) (k : Drawable → State) : forceDrawable d k = k d := by
  simp [forceDrawable, forceNat_eq]

theorem forceDepth_eq (d : Depth) (k : Depth → State) : forceDepth d k = k d := by
  simp [forceDepth, forceNat_eq, forceF32_eq, forceBool_eq]

theorem forcePhysics_eq (p : Physics) (k : Physics → State) : forcePhysics p k = k p := by
  simp [forcePhysics, forceF32_eq, forceBool_eq]

theorem table_eq {α : Type} (a : Fin 10 → α) :
    table (a 0) (a 1) (a 2) (a 3) (a 4) (a 5) (a 6) (a 7) (a 8) (a 9) = a := by
  funext i
  fin_cases i <;> rfl

theorem normalize_eq (s : State) : normalize s = s := by
  unfold normalize forcePositions forceDrawables forceDepths
  simp only [forceInt_eq, forceNat_eq, forcePosition_eq, forceDrawable_eq, forceDepth_eq,
    forcePhysics_eq, table_eq]

theorem runStrict_foldl (w4 : W4) (inputs : List Nat) (s : State) :
    inputs.foldl (fun s g => normalize (update w4 g s)) s
      = inputs.foldl (fun s g => update w4 g s) s := by
  induction inputs generalizing s with
  | nil => rfl
  | cons g rest ih => rw [List.foldl_cons, List.foldl_cons, normalize_eq, ih]

theorem run_eq_runStrict (w4 : W4) (inputs : List Nat) : run w4 inputs = runStrict w4 inputs := by
  unfold run runStrict
  rw [runStrict_foldl, normalize_eq]

/-! ## The player systems leave the score and the obstacle pool alone -/

theorem pauseToggle_keeps (w4 : W4) (g : Nat) (s : State) :
    scoreOf (if g &&& w4.BUTTON_2 ≠ 0 ∧ s.previousInput &&& w4.BUTTON_2 = 0 then
        { s with gameState := STATE_PAUSED, menuOption := MENU_RESUME } else s) = scoreOf s ∧
      worldOf (if g &&& w4.BUTTON_2 ≠ 0 ∧ s.previousInput &&& w4.BUTTON_2 = 0 then
        { s with gameState := STATE_PAUSED, menuOption := MENU_RESUME } else s) = worldOf s := by
  constructor <;> (split_ifs <;> rfl)

theorem inputSystem_keeps (w4 : W4) (g : Nat) (s : State) :
    scoreOf (inputSystem w4 g s) = scoreOf s ∧ worldOf (inputSystem w4 g s) = worldOf s := by
  unfold inputSystem
  constructor <;> (dsimp only; split_ifs <;> rfl)

theorem physicsSystem_keeps (s : State) :
    scoreOf (physicsSystem s) = scoreOf s ∧ worldOf (physicsSystem s) = worldOf s := by
  unfold physicsSystem
  constructor <;> (split_ifs <;> rfl)

theorem moveXWith_keeps (x w w1 : Int) (s : State) :
    scoreOf (moveXWith x w w1 s) = scoreOf s ∧ worldOf (moveXWith x w w1 s) = worldOf s := by
  unfold moveXWith
  constructor <;> (split_ifs <;> rfl)

theorem moveYWith_keeps (y : Int) (s : State) :
    scoreOf (moveYWith y s) = scoreOf s ∧ worldOf (moveYWith y s) = worldOf s := by
  unfold moveYWith
  constructor <;> (split_ifs <;> rfl)

theorem movementSystem_keeps (s : State) :
    scoreOf (movementSystem s) = scoreOf s ∧ worldOf (movementSystem s) = worldOf s := by
  rw [movementSystem_eq]
  unfold moveY moveX
  constructor
  · rw [(moveYWith_keeps _ _).1, (moveXWith_keeps _ _ _ _).1]
  · rw [(moveYWith_keeps _ _).2, (moveXWith_keeps _ _ _ _).2]

theorem beforeCollision_keeps (w4 : W4) (g : Nat) (s : State) :
    scoreOf (beforeCollision w4 g s) = scoreOf s ∧
      worldOf (beforeCollision w4 g s) = worldOf s := by
  unfold beforeCollision
  constructor
  · rw [(movementSystem_keeps _).1, (physicsSystem_keeps _).1, (inputSystem_keeps _ _ _).1,
      (pauseToggle_keeps _ _ _).1]
  · rw [(movementSystem_keeps _).2, (physicsSystem_keeps _).2, (inputSystem_keeps _ _ _).2,
      (pauseToggle_keeps _ _ _).2]

theorem scoreOf_eq (s t : State) (h : scoreOf s = scoreOf t) :
    s.score = t.score ∧ s.scoreTimer = t.scoreTimer := by
  simpa [scoreOf] using h

theorem worldOf_eq (s t : State) (h : worldOf s = worldOf t) :
    s.obstaclePositions = t.obstaclePositions ∧ s.obstacleDrawables = t.obstacleDrawables ∧
      s.obstacleDepths = t.obstacleDepths ∧ s.obstacleSpawnTimer = t.obstacleSpawnTimer := by
  simpa [worldOf] using h

/-- A `STATE_PLAYING` frame, from the state on which `collisionSystem` runs. -/
theorem update_playing_from (w4 : W4) (g : Nat) (s : State) (hp : s.gameState = STATE_PLAYING) :
    update w4 g s =
      { scoreSystem (obstacleSystem (collisionSystem (beforeCollision w4 g s))) with
        previousInput := g } :=
  update_playing_eq w4 g s hp

theorem scoreSystem_score (s : State) :
    ((scoreSystem s).score = s.score ∨ (scoreSystem s).score = wrapInt (s.score + 1)) ∧
      (s.scoreTimer = 0 → (scoreSystem s).score = s.score) := by
  unfold scoreSystem
  dsimp only
  constructor
  · split_ifs
    · exact Or.inr rfl
    · exact Or.inl rfl
  · intro h0
    have : ¬ SCORE_INCREMENT_RATE ≤ wrapInt (s.scoreTimer + 1) := by rw [h0]; decide
    rw [if_neg this]

/-! ## C12: the score over a `STATE_PLAYING` frame -/

/-- C12, amended: over a `STATE_PLAYING` frame the score drops only through the
collision reset.  If the collision check of the frame finds a colliding slot,
the score after `update()` is 0.  Otherwise the score after `update()` is the
score before it or that score plus one (as a 32-bit value), hence at least the
score before it as long as that is below the largest `int`. -/
theorem score_monotone_unless_collision (w4 : W4) (s : State) (gamepad : Nat)
    (hp : s.gameState = STATE_PLAYING) :
    ((∃ i, collides (beforeCollision w4 gamepad s) i) → (update w4 gamepad s).score = 0) ∧
      ((¬ ∃ i, collides (beforeCollision w4 gamepad s) i) →
        ((update w4 gamepad s).score = s.score ∨
            (update w4 gamepad s).score = wrapInt (s.score + 1)) ∧
          (s.score < 2147483647 → s.score ≤ (update w4 gamepad s).score)) := by
  rw [update_playing_from w4 gamepad s hp]
  show ((∃ i, collides (beforeCollision w4 gamepad s) i) →
      (scoreSystem (obstacleSystem (collisionSystem (beforeCollision w4 gamepad s)))).score
        = 0) ∧
    ((¬ ∃ i, collides (beforeCollision w4 gamepad s) i) →
      ((scoreSystem (obstacleSystem (collisionSystem (beforeCollision w4 gamepad s)))).score
          = s.score ∨
        (scoreSystem (obstacleSystem (collisionSystem (beforeCollision w4 gamepad s)))).score
          = wrapInt (s.score + 1)) ∧
      (s.score < 2147483647 →
        s.score ≤
          (scoreSystem (obstacleSystem (collisionSystem (beforeCollision w4 gamepad s)))).score))
  obtain ⟨hb1, _⟩ := scoreOf_eq _ _ (beforeCollision_keeps w4 gamepad s).1
  constructor
  · rintro ⟨i, hi⟩
    rw [collisionSystem_hit _ i hi]
    obtain ⟨ho1, ho2⟩ := scoreOf_eq _ _
      (obstacleSystem_frame (resetGame (beforeCollision w4 gamepad s))).2
    have h0 : (obstacleSystem (resetGame (beforeCollision w4 gamepad s))).scoreTimer = 0 := ho2
    rw [(scoreSystem_score _).2 h0, ho1]
    rfl
  · intro hno
    rw [collisionSystem_miss _ (fun i hi => hno ⟨i, hi⟩)]
    obtain ⟨ho1, _⟩ := scoreOf_eq _ _ (obstacleSystem_frame (beforeCollision w4 gamepad s)).2
    have hs := (scoreSystem_score (obstacleSystem (beforeCollision w4 gamepad s))).1
    rw [ho1, hb1] at hs
    refine ⟨hs, fun hlt => ?_⟩
    rcases hs with h | h
    · rw [h]
    · rw [h]; unfold wrapInt; omega

/-- The run `idleFrames`, evaluated: after 470 frames of standing still the
game is in `STATE_PLAYING` with score 9, slot 0 has been updated 351 times and
its bottom edge is at `117 + 41 = 158`; the next frame resets the score. -/
theorem idleRun_facts :
    (runStrict wasm4 idleFrames).gameState = STATE_PLAYING ∧
      (runStrict wasm4 idleFrames).score = 9 ∧
      slotOf (runStrict wasm4 idleFrames) 0
        = ({ X := 59, Y := 117 }, { Size := 41, Color := 0x32 },
            { Z := ⟨1068742181⟩, Speed := OBSTACLE_SPEED, BaseSize := 2, MaxSize := 30,
              Active := true }) ∧
      (update wasm4 0 (runStrict wasm4 idleFrames)).score = 0 := by
  decide!

theorem idleFrames_bytes : ∀ g ∈ idleFrames, g < 256 := by
  intro g hg
  unfold idleFrames at hg
  rcases List.mem_cons.mp hg with rfl | hg
  · decide
  · rw [List.eq_of_mem_replicate hg]
    decide

/-- C12, as stated, fails: after the frames `idleFrames` the game is in
`STATE_PLAYING` with score 9, and the next `update()` frame (gamepad 0), in which
the first obstacle reaches the player, leaves the score at 0. -/
theorem score_drops_on_collision :
    Reachable wasm4 (run wasm4 idleFrames) ∧
      (run wasm4 idleFrames).gameState = STATE_PLAYING ∧
      (run wasm4 idleFrames).score = 9 ∧
      (update wasm4 0 (run wasm4 idleFrames)).score = 0 ∧
      ¬ ((run wasm4 idleFrames).score ≤ (update wasm4 0 (run wasm4 idleFrames)).score) := by
  refine ⟨reachable_run wasm4 idleFrames idleFrames_bytes, ?_⟩
  rw [run_eq_runStrict]
  obtain ⟨h1, h2, _, h4⟩ := idleRun_facts
  refine ⟨h1, h2, h4, ?_⟩
  rw [h2, h4]
  decide

theorem score_monotone_unless_collision_witness :
    (run wasm4 idleFrames).gameState = STATE_PLAYING ∧
      (update wasm4 0 (run wasm4 idleFrames)).score = 0 ∧
      (∃ i, collides (beforeCollision wasm4 0 (run wasm4 idleFrames)) i) := by
  have hp : (run wasm4 idleFrames).gameState = STATE_PLAYING := by
    rw [run_eq_runStrict]; exact idleRun_facts.1
  have h0 : (update wasm4 0 (run wasm4 idleFrames)).score = 0 := by
    rw [run_eq_runStrict]; exact idleRun_facts.2.2.2
  refine ⟨hp, h0, ?_⟩
  by_contra hno
  have h := ((score_monotone_unless_collision wasm4 (run wasm4 idleFrames) 0 hp).2 hno).1
  rw [h0] at h
  have h9 : (run wasm4 idleFrames).score = 9 := by
    rw [run_eq_runStrict]; exact idleRun_facts.2.1
  rw [h9] at h
  revert h
  decide

/-! ## C18: size and depth of an active obstacle -/

/-- C18: after the frames `idleFrames` (a reachable state) slot 0 is active with
`Size = 41`, above its `MaxSize = 30`, and with depth `Z` of about 1.404, above
the documented upper end 1.0 of the depth range. -/
theorem active_slot_exceeds_maxSize :
    Reachable wasm4 (run wasm4 idleFrames) ∧
      ((run wasm4 idleFrames).obstacleDepths 0).Active = true ∧
      ((run wasm4 idleFrames).obstacleDrawables 0).Size = 41 ∧
      ((run wasm4 idleFrames).obstacleDepths 0).MaxSize = 30 ∧
      ¬ (((run wasm4 idleFrames).obstacleDrawables 0).Size
          ≤ ((run wasm4 idleFrames).obstacleDepths 0).MaxSize) ∧
      ((run wasm4 idleFrames).obstacleDepths 0).Z = ⟨1068742181⟩ ∧
      F32.gt ((run wasm4 idleFrames).obstacleDepths 0).Z (F32.ofInt 1) = true := by
  refine ⟨reachable_run wasm4 idleFrames idleFrames_bytes, ?_⟩
  rw [run_eq_runStrict]
  obtain ⟨_, hd, hz⟩ := slotOf_eq _ 0 _ _ _ idleRun_facts.2.2.1
  rw [hd, hz]
  decide

/-! ## The update loop of `obstacleSystem` and the spawn timer -/

theorem withTimer_withTimer (s : State) (x y : Int) :
    withTimer (withTimer s x) y = withTimer s y := rfl

theorem withTimer_self (s : State) : withTimer s s.obstacleSpawnTimer = s := rfl

/-- `updateObstacle` does not read the spawn timer: it sets it to 0 when it
retires the slot and leaves it alone otherwise. -/
theorem updateObstacle_withTimer (s : State) (i : Fin 10) :
    (obstacleBottom s i = 160 →
        (updateObstacle s i).obstacleSpawnTimer = 0 ∧
          ∀ t : Int, updateObstacle (withTimer s t) i = updateObstacle s i) ∧
      (obstacleBottom s i ≠ 160 →
        (updateObstacle s i).obstacleSpawnTimer = s.obstacleSpawnTimer ∧
          ∀ t : Int, updateObstacle (withTimer s t) i = withTimer (updateObstacle s i) t) := by
  unfold obstacleBottom
  constructor
  · intro h
    refine ⟨updateObstacle_retire_timer s i h, fun t => ?_⟩
    have h' : wrapInt (((withTimer s t).obstaclePositions i).Y
        + intOfUint ((withTimer s t).obstacleDrawables i).Size) = 160 := h
    unfold updateObstacle
    rw [if_pos h, if_pos h']
    rfl
  · intro h
    constructor
    · unfold updateObstacle
      rw [if_neg h]
    · intro t
      have h' : ¬ wrapInt (((withTimer s t).obstaclePositions i).Y
          + intOfUint ((withTimer s t).obstacleDrawables i).Size) = 160 := h
      unfold updateObstacle
      rw [if_neg h, if_neg h']
      rfl

/-- One step of the update loop either keeps every timer value or replaces
every timer value by 0. -/
theorem updateIfActive_withTimer (s : State) (i : Fin 10) :
    ((updateIfActive s i).obstacleSpawnTimer = s.obstacleSpawnTimer ∧
        ∀ t : Int, updateIfActive (withTimer s t) i = withTimer (updateIfActive s i) t) ∨
      ((updateIfActive s i).obstacleSpawnTimer = 0 ∧
        ∀ t : Int, updateIfActive (withTimer s t) i = withTimer (updateIfActive s i) 0) := by
  unfold updateIfActive
  by_cases ha : (s.obstacleDepths i).Active = true
  · have ha' : ∀ t : Int, ((withTimer s t).obstacleDepths i).Active = true := fun _ => ha
    by_cases hb : obstacleBottom s i = 160
    · obtain ⟨h1, h2⟩ := (updateObstacle_withTimer s i).1 hb
      right
      rw [if_pos ha]
      refine ⟨h1, fun t => ?_⟩
      rw [if_pos (ha' t), h2 t, ← h1]
      rfl
    · obtain ⟨h1, h2⟩ := (updateObstacle_withTimer s i).2 hb
      left
      rw [if_pos ha]
      refine ⟨h1, fun t => ?_⟩
      rw [if_pos (ha' t), h2 t]
  · have ha' : ∀ t : Int, ¬ ((withTimer s t).obstacleDepths i).Active = true := fun _ => ha
    left
    rw [if_neg ha]
    refine ⟨rfl, fun t => ?_⟩
    rw [if_neg (ha' t)]

theorem updateAll_withTimer (l : List (Fin 10)) (s : State) :
    ((l.foldl updateIfActive s).obstacleSpawnTimer = s.obstacleSpawnTimer ∧
        ∀ t : Int, l.foldl updateIfActive (withTimer s t)
          = withTimer (l.foldl updateIfActive s) t) ∨
      ((l.foldl updateIfActive s).obstacleSpawnTimer = 0 ∧
        ∀ t : Int, l.foldl updateIfActive (withTimer s t)
          = withTimer (l.foldl updateIfActive s) 0) := by
  induction l generalizing s with
  | nil => exact Or.inl ⟨rfl, fun _ => rfl⟩
  | cons i rest ih =>
    simp only [List.foldl_cons]
    rcases updateIfActive_withTimer s i with ⟨h1, h2⟩ | ⟨h1, h2⟩
    · rcases ih (updateIfActive s i) with ⟨k1, k2⟩ | ⟨k1, k2⟩
      · left
        refine ⟨k1.trans h1, fun t => ?_⟩
        rw [h2 t, k2 t]
      · right
        refine ⟨k1, fun t => ?_⟩
        rw [h2 t, k2 t]
    · rcases ih (updateIfActive s i) with ⟨k1, k2⟩ | ⟨k1, k2⟩
      · right
        refine ⟨k1.trans h1, fun t => ?_⟩
        rw [h2 t, k2 0]
      · right
        refine ⟨k1, fun t => ?_⟩
        rw [h2 t, k2 0]

/-- A call of `obstacleSystem` that attempts no spawn is the timer increment
followed by the update loop. -/
theorem obstacleSystem_noSpawn (s : State) (h : ¬ spawnDue s) :
    obstacleSystem s
      = ascending.foldl updateIfActive (withTimer s (wrapInt (s.obstacleSpawnTimer + 1))) := by
  unfold spawnDue at h
  unfold obstacleSystem
  dsimp only
  rw [if_neg h]
  rfl

theorem spawnDue_withTimer (s : State) (t : Int) (h0 : 0 ≤ t) (h1 : t ≤ 119) :
    (spawnDue (withTimer s t) ↔ t = 119) ∧ wrapInt (t + 1) = t + 1 := by
  unfold spawnDue withTimer
  simp only [OBSTACLE_SPAWN_RATE, wrapInt]
  constructor
  · constructor <;> intro h <;> omega
  · omega

/-- A call that attempts no spawn, seen from two timer values at once. -/
theorem obstacleSystem_two_timers (s : State) (x y : Int) (hx0 : 0 ≤ x) (hxy : x ≤ y)
    (hy : y < 119) :
    ∃ (r : State) (x1 y1 : Int), obstacleSystem (withTimer s x) = withTimer r x1 ∧
      obstacleSystem (withTimer s y) = withTimer r y1 ∧
      0 ≤ x1 ∧ x1 ≤ y1 ∧ y1 ≤ 119 ∧ x1 ≤ x + 1 := by
  have hsx := spawnDue_withTimer s x hx0 (by omega)
  have hsy := spawnDue_withTimer s y (by omega) (by omega)
  have hnx : ¬ spawnDue (withTimer s x) := fun h => by have := hsx.1.mp h; omega
  have hny : ¬ spawnDue (withTimer s y) := fun h => by have := hsy.1.mp h; omega
  rw [obstacleSystem_noSpawn _ hnx, obstacleSystem_noSpawn _ hny]
  show ∃ (r : State) (x1 y1 : Int),
    ascending.foldl updateIfActive (withTimer (withTimer s x) (wrapInt (x + 1)))
      = withTimer r x1 ∧
    ascending.foldl updateIfActive (withTimer (withTimer s y) (wrapInt (y + 1)))
      = withTimer r y1 ∧ 0 ≤ x1 ∧ x1 ≤ y1 ∧ y1 ≤ 119 ∧ x1 ≤ x + 1
  rw [withTimer_withTimer, withTimer_withTimer, hsx.2, hsy.2]
  rcases updateAll_withTimer ascending s with ⟨_, k⟩ | ⟨_, k⟩
  · exact ⟨_, x + 1, y + 1, k _, k _, by omega, by omega, by omega, by omega⟩
  · exact ⟨_, 0, 0, k _, k _, by omega, by omega, by omega, by omega⟩

theorem callsUntilSpawn_pos (fuel : Nat) (s : State) (n : Nat)
    (h : callsUntilSpawn fuel s = some n) : 1 ≤ n := by
  cases fuel with
  | zero => simp [callsUntilSpawn] at h
  | succ fuel =>
    unfold callsUntilSpawn at h
    split_ifs at h
    · simp at h; omega
    · rcases hc : callsUntilSpawn fuel (obstacleSystem s) with _ | m
      · rw [hc] at h; simp at h
      · rw [hc] at h; simp at h; omega

/-- With the same pool, a larger timer value never makes the next spawn attempt
come later, and from the timer value `x` it takes at least `120 - x` calls. -/
theorem callsUntilSpawn_mono (fuel : Nat) (s : State) (x y : Int) (n : Nat)
    (hx0 : 0 ≤ x) (hxy : x ≤ y) (hy : y ≤ 119)
    (h : callsUntilSpawn fuel (withTimer s x) = some n) :
    120 ≤ (n : Int) + x ∧ ∃ m, callsUntilSpawn fuel (withTimer s y) = some m ∧ m ≤ n := by
  induction fuel generalizing s x y n with
  | zero => simp [callsUntilSpawn] at h
  | succ fuel ih =>
    have hn1 := callsUntilSpawn_pos _ _ _ h
    unfold callsUntilSpawn at h ⊢
    by_cases hdy : spawnDue (withTimer s y)
    · rw [if_pos hdy]
      refine ⟨?_, 1, rfl, hn1⟩
      by_cases hdx : spawnDue (withTimer s x)
      · have := (spawnDue_withTimer s x hx0 (by omega)).1.mp hdx
        omega
      · rw [if_neg hdx] at h
        have hy119 := (spawnDue_withTimer s y (by omega) hy).1.mp hdy
        rcases hc : callsUntilSpawn fuel (obstacleSystem (withTimer s x)) with _ | k
        · rw [hc] at h; simp at h
        · rw [hc] at h
          simp at h
          by_cases hx118 : x < 119
          · obtain ⟨r, x1, y1, e1, _, a1, a2, a3, a4⟩ :=
              obstacleSystem_two_timers s x x hx0 (le_refl x) hx118
            rw [e1] at hc
            have := (ih r x1 x1 k a1 (le_refl _) (by omega) hc).1
            omega
          · have hx119 : x = 119 := by omega
            exact absurd ((spawnDue_withTimer s x hx0 (by omega)).1.mpr hx119) hdx
    · have hy118 : y < 119 := by
        by_contra hcon
        exact hdy ((spawnDue_withTimer s y (by omega) hy).1.mpr (by omega))
      have hdx : ¬ spawnDue (withTimer s x) := fun hd => by
        have := (spawnDue_withTimer s x hx0 (by omega)).1.mp hd
        omega
      rw [if_neg hdx] at h
      rw [if_neg hdy]
      obtain ⟨r, x1, y1, e1, e2, a1, a2, a3, a4⟩ :=
        obstacleSystem_two_timers s x y hx0 hxy hy118
      rw [e1] at h
      rw [e2]
      rcases hc : callsUntilSpawn fuel (withTimer r x1) with _ | k
      · rw [hc] at h; simp at h
      · rw [hc] at h
        simp at h
        obtain ⟨b1, m, hm, hmk⟩ := ih r x1 y1 k a1 a2 a3 hc
        refine ⟨by omega, m + 1, ?_, by omega⟩
        rw [hm]
        rfl

/-! ## C11: the timer reset on retirement -/

/-- C11, as stated, fails: in `retiringState` (slot 0 at the bottom of the
screen, timer 118) `updateObstacle` retires slot 0 and sets the timer to 0; the
next spawn attempt then comes 120 `obstacleSystem` calls later, whereas with the
timer left at 118 it would come 2 calls later. -/
theorem retirement_reset_postpones_spawn :
    obstacleBottom retiringState 0 = 160 ∧
      (updateObstacle retiringState 0).obstacleSpawnTimer = 0 ∧
      callsUntilSpawn 300 (updateObstacle retiringState 0) = some 120 ∧
      callsUntilSpawn 300
        (withTimer (updateObstacle retiringState 0) retiringState.obstacleSpawnTimer)
        = some 2 ∧
      ¬ (120 ≤ 2) := by
  decide!

/-- C11, amended: resetting `obstacleSpawnTimer` to 0 when a slot retires
postpones the next spawn.  For every state whose timer is in `0 .. 119` (the
range it has inside `obstacleSystem`) and in which `updateObstacle` retires
slot `i`: if the next spawn attempt comes `n` `obstacleSystem` calls after the
retirement, then `n >= 120`, and had the retirement left the timer unchanged the
next spawn attempt would have come after some `m <= n` calls. -/
theorem retirement_reset_delays_spawn (s : State) (i : Fin 10) (fuel n : Nat)
    (hret : obstacleBottom s i = 160)
    (h0 : 0 ≤ s.obstacleSpawnTimer) (h1 : s.obstacleSpawnTimer ≤ 119)
    (hn : callsUntilSpawn fuel (updateObstacle s i) = some n) :
    120 ≤ n ∧
      ∃ m, callsUntilSpawn fuel (withTimer (updateObstacle s i) s.obstacleSpawnTimer) = some m ∧
        m ≤ n := by
  have ht : (updateObstacle s i).obstacleSpawnTimer = 0 :=
    ((updateObstacle_withTimer s i).1 hret).1
  have hself : updateObstacle s i = withTimer (updateObstacle s i) 0 := by
    rw [← ht]; rfl
  rw [hself] at hn
  obtain ⟨b, m, hm, hmn⟩ := callsUntilSpawn_mono fuel (updateObstacle s i) 0
    s.obstacleSpawnTimer n (le_refl 0) h0 h1 hn
  exact ⟨by omega, m, hm, hmn⟩

theorem retirement_reset_delays_spawn_witness :
    obstacleBottom retiringState 0 = 160 ∧
      callsUntilSpawn 300 (updateObstacle retiringState 0) = some 120 ∧
      ∃ m, callsUntilSpawn 300
          (withTimer (updateObstacle retiringState 0) retiringState.obstacleSpawnTimer)
          = some m ∧ m ≤ 120 :=
  ⟨by decide, by decide!,
    (retirement_reset_delays_spawn retiringState 0 300 120 (by decide) (by decide) (by decide)
      (by decide!)).2⟩

/-! ## The obstacle pool over a call of `obstacleSystem` -/

theorem slotOf_updateObstacle_other (s : State) (i j : Fin 10) (h : j ≠ i) :
    slotOf (updateObstacle s i) j = slotOf s j := by
  unfold updateObstacle slotOf
  by_cases hc :
      wrapInt ((s.obstaclePositions i).Y + intOfUint (s.obstacleDrawables i).Size) = 160
  · rw [if_pos hc]
    simp [setAt, h]
  · rw [if_neg hc]
    simp [setAt, h]

theorem slotOf_updateIfActive (s : State) (i j : Fin 10) :
    slotOf (updateIfActive s i) j
      = (if j = i ∧ (slotOf s j).2.2.Active = true then advanceSlot (slotOf s j)
          else slotOf s j) := by
  unfold updateIfActive
  by_cases hji : j = i
  · subst hji
    by_cases ha : (s.obstacleDepths j).Active = true
    · have hr : j = j ∧ (slotOf s j).2.2.Active = true := ⟨rfl, ha⟩
      rw [if_pos ha, if_pos hr]
      exact slotOf_updateObstacle s j
    · have hr : ¬ (j = j ∧ (slotOf s j).2.2.Active = true) := fun hc => ha hc.2
      rw [if_neg ha, if_neg hr]
  · have hr : ¬ (j = i ∧ (slotOf s j).2.2.Active = true) := fun hc => hji hc.1
    rw [if_neg hr]
    by_cases ha : (s.obstacleDepths i).Active = true
    · rw [if_pos ha]
      exact slotOf_updateObstacle_other s i j hji
    · rw [if_neg ha]

/-- The update loop advances exactly the slots of the list that are active when
it starts. -/
theorem slotOf_updateAll (l : List (Fin 10)) (hl : l.Nodup) (s : State) (j : Fin 10) :
    slotOf (l.foldl updateIfActive s) j
      = (if j ∈ l ∧ (slotOf s j).2.2.Active = true then advanceSlot (slotOf s j)
          else slotOf s j) := by
  induction l generalizing s with
  | nil => simp
  | cons i rest ih =>
    rw [List.foldl_cons, ih (List.nodup_cons.mp hl).2, slotOf_updateIfActive]
    have hi : i ∉ rest := (List.nodup_cons.mp hl).1
    by_cases hji : j = i
    · subst hji
      by_cases ha : (slotOf s j).2.2.Active = true
      · simp [hi, ha]
      · simp [hi, ha]
    · by_cases hm : j ∈ rest
      · simp [hji, hm]
      · simp [hji, hm]

theorem ascending_nodup : ascending.Nodup := by decide

theorem poolOf_updateAll (s : State) (j : Fin 10) :
    poolOf (ascending.foldl updateIfActive s) j
      = (if (poolOf s j).2.2.Active = true then advanceSlot (poolOf s j) else poolOf s j) := by
  unfold poolOf
  rw [slotOf_updateAll ascending ascending_nodup s j]
  simp [mem_ascending]

theorem updateAll_timer (l : List (Fin 10)) (s : State) :
    (l.foldl updateIfActive s).obstacleSpawnTimer = s.obstacleSpawnTimer ∨
      (l.foldl updateIfActive s).obstacleSpawnTimer = 0 := by
  rcases updateAll_withTimer l s with ⟨h, _⟩ | ⟨h, _⟩
  · exact Or.inl h
  · exact Or.inr h

theorem slotOf_spawnAt_other (s : State) (i j : Fin 10) (h : j ≠ i) :
    slotOf (spawnAt s i) j = slotOf s j := by
  simp [slotOf, spawnAt, setAt, h]

/-- `spawnObstacle` finds an inactive slot and sets it up, or all slots are
active and it does nothing. -/
theorem spawnLoop_cases (s : State) (l : List (Fin 10)) :
    (spawnLoop s l = s ∧ ∀ j ∈ l, (s.obstacleDepths j).Active = true) ∨
      ∃ i ∈ l, (s.obstacleDepths i).Active = false ∧ spawnLoop s l = spawnAt s i := by
  induction l with
  | nil => exact Or.inl ⟨rfl, fun _ h => absurd h (List.not_mem_nil _)⟩
  | cons i rest ih =>
    unfold spawnLoop
    by_cases hi : (s.obstacleDepths i).Active = false
    · rw [if_pos hi]
      exact Or.inr ⟨i, List.mem_cons_self i rest, hi, rfl⟩
    · rw [if_neg hi]
      rcases ih with ⟨h1, h2⟩ | ⟨k, hk, h1, h2⟩
      · left
        refine ⟨h1, fun j hj => ?_⟩
        rcases List.mem_cons.mp hj with rfl | hj
        · simpa using hi
        · exact h2 j hj
      · exact Or.inr ⟨k, List.mem_cons_of_mem i hk, h1, h2⟩

/-! ## The pool invariant -/

theorem agedPool_weaken (pool : Fin 10 → Position × Drawable × Depth) (lo lo' : Int)
    (age : Fin 10 → Nat) (h : AgedPool pool lo age) (hlo : lo' ≤ lo) :
    AgedPool pool lo' age :=
  ⟨fun i hi => ⟨(h.1 i hi).1, (h.1 i hi).2.1, le_trans hlo (h.1 i hi).2.2⟩, h.2⟩

theorem agedPool_empty (pool : Fin 10 → Position × Drawable × Depth) (lo : Int)
    (h : ∀ i, (pool i).2.2.Active = false) : AgedPool pool lo (fun _ => 0) := by
  constructor
  · intro i hi
    rw [h i] at hi
    exact absurd hi (by decide)
  · intro i j _ hi
    rw [h i] at hi
    exact absurd hi (by decide)

theorem freshSlot_359_inactive : (advanceSlot^[359] freshSlot).2.2.Active = false := by
  rw [freshSlot_359]
  rfl

/-- After the update loop every slot that is still active is one point further
on its trajectory. -/
theorem agedPool_advance (pool : Fin 10 → Position × Drawable × Depth) (lo : Int)
    (age : Fin 10 → Nat) (h : AgedPool pool lo age) :
    AgedPool (fun i => if (pool i).2.2.Active = true then advanceSlot (pool i) else pool i)
      (lo + 1) (fun i => age i + 1) := by
  have hact : ∀ i,
      (if (pool i).2.2.Active = true then advanceSlot (pool i) else pool i).2.2.Active = true →
        (pool i).2.2.Active = true := by
    intro i hi
    by_cases ha : (pool i).2.2.Active = true
    · exact ha
    · rw [if_neg ha] at hi
      exact hi
  constructor
  · intro i hi
    have ha := hact i hi
    obtain ⟨h1, h2, h3⟩ := h.1 i ha
    dsimp only at hi ⊢
    rw [if_pos ha] at hi ⊢
    have hstep : advanceSlot (pool i) = advanceSlot^[age i + 1] freshSlot := by
      rw [Function.iterate_succ_apply', ← h1]
    refine ⟨hstep, ?_, by omega⟩
    by_contra hcon
    have h358 : age i = 358 := by omega
    rw [hstep, h358, freshSlot_359_inactive] at hi
    exact absurd hi (by decide)
  · intro i j hij hi hj
    have := h.2 i j hij (hact i hi) (hact j hj)
    dsimp only
    omega

/-- Setting up a fresh slot in a pool whose active slots are all at least 120
calls old. -/
theorem agedPool_spawn (pool : Fin 10 → Position × Drawable × Depth) (age : Fin 10 → Nat)
    (i0 : Fin 10) (h : AgedPool pool 120 age) :
    AgedPool (fun j => if j = i0 then freshSlot else pool j) 0
      (fun j => if j = i0 then 0 else age j) := by
  constructor
  · intro i hi
    dsimp only at hi ⊢
    by_cases hi0 : i = i0
    · rw [if_pos hi0, if_pos hi0]
      exact ⟨rfl, by omega, by omega⟩
    · rw [if_neg hi0] at hi
      rw [if_neg hi0, if_neg hi0]
      obtain ⟨h1, h2, h3⟩ := h.1 i hi
      exact ⟨h1, h2, by omega⟩
  · intro i j hij hi hj
    dsimp only at hi hj ⊢
    by_cases hi0 : i = i0
    · have hj0 : ¬ j = i0 := fun hc => hij (hi0.trans hc.symm)
      rw [if_neg hj0] at hj
      rw [if_pos hi0, if_neg hj0]
      have := (h.1 j hj).2.2
      omega
    · rw [if_neg hi0] at hi
      rw [if_neg hi0]
      by_cases hj0 : j = i0
      · rw [if_pos hj0]
        have := (h.1 i hi).2.2
        omega
      · rw [if_neg hj0] at hj
        rw [if_neg hj0]
        exact h.2 i j hij hi hj

theorem poolOf_spawnAt (s : State) (i0 : Fin 10) :
    poolOf (spawnAt s i0) = fun j => if j = i0 then freshSlot else poolOf s j := by
  funext j
  unfold poolOf
  by_cases h : j = i0
  · rw [if_pos h, h]
    exact slotOf_spawnAt s i0
  · rw [if_neg h]
    exact slotOf_spawnAt_other s i0 j h

theorem poolOf_updateAll_fun (s : State) :
    poolOf (ascending.foldl updateIfActive s)
      = fun i => if (poolOf s i).2.2.Active = true then advanceSlot (poolOf s i)
          else poolOf s i := by
  funext j
  exact poolOf_updateAll s j

/-- A call of `obstacleSystem` that attempts a spawn. -/
theorem obstacleSystem_spawn (s : State) (h : spawnDue s) :
    obstacleSystem s
      = ascending.foldl updateIfActive
          (withTimer (spawnObstacle (withTimer s (wrapInt (s.obstacleSpawnTimer + 1)))) 0) := by
  unfold spawnDue at h
  unfold obstacleSystem
  dsimp only
  rw [if_pos h]
  rfl

theorem obstacleSystem_poolInv (s : State) (h : PoolInv s) : PoolInv (obstacleSystem s) := by
  obtain ⟨h0, h1, age, hage⟩ := h
  have hs : withTimer s s.obstacleSpawnTimer = s := rfl
  have hd := spawnDue_withTimer s s.obstacleSpawnTimer h0 h1
  rw [hs] at hd
  by_cases hdue : spawnDue s
  · have h119 := hd.1.mp hdue
    rw [obstacleSystem_spawn s hdue]
    have hmid : ∃ age2, AgedPool
        (poolOf (withTimer (spawnObstacle (withTimer s (wrapInt (s.obstacleSpawnTimer + 1)))) 0))
        0 age2 := by
      have hage' : AgedPool (poolOf s) 120 age := by
        apply agedPool_weaken _ _ _ _ hage
        omega
      rcases spawnLoop_cases (withTimer s (wrapInt (s.obstacleSpawnTimer + 1))) ascending with
        ⟨hsame, _⟩ | ⟨i0, _, _, hsp⟩
      · refine ⟨age, ?_⟩
        unfold spawnObstacle
        rw [hsame]
        exact agedPool_weaken _ _ _ _ hage' (by omega)
      · refine ⟨fun j => if j = i0 then 0 else age j, ?_⟩
        unfold spawnObstacle
        rw [hsp]
        have hp : poolOf (withTimer (spawnAt (withTimer s
            (wrapInt (s.obstacleSpawnTimer + 1))) i0) 0)
            = fun j => if j = i0 then freshSlot else poolOf s j :=
          poolOf_spawnAt (withTimer s (wrapInt (s.obstacleSpawnTimer + 1))) i0
        rw [hp]
        exact agedPool_spawn _ _ i0 hage'
    obtain ⟨age2, hage2⟩ := hmid
    have hadv := agedPool_advance _ _ _ hage2
    rw [← poolOf_updateAll_fun] at hadv
    have ht := updateAll_timer ascending
      (withTimer (spawnObstacle (withTimer s (wrapInt (s.obstacleSpawnTimer + 1)))) 0)
    have ht0 : (ascending.foldl updateIfActive
        (withTimer (spawnObstacle (withTimer s (wrapInt (s.obstacleSpawnTimer + 1)))) 0)
        ).obstacleSpawnTimer = 0 := by
      rcases ht with ht | ht
      · rw [ht]; rfl
      · exact ht
    refine ⟨by rw [ht0], by rw [ht0]; decide, fun i => age2 i + 1, ?_⟩
    rw [ht0]
    exact hadv
  · have h118 : s.obstacleSpawnTimer < 119 := by
      by_contra hcon
      exact hdue (hd.1.mpr (by omega))
    rw [obstacleSystem_noSpawn s hdue, hd.2]
    have hpool : poolOf (withTimer s (s.obstacleSpawnTimer + 1)) = poolOf s := rfl
    have hadv := agedPool_advance _ _ _ hage
    rw [← hpool, ← poolOf_updateAll_fun] at hadv
    have ht := updateAll_timer ascending (withTimer s (s.obstacleSpawnTimer + 1))
    have hts : (withTimer s (s.obstacleSpawnTimer + 1)).obstacleSpawnTimer
        = s.obstacleSpawnTimer + 1 := rfl
    rw [hts] at ht
    rcases ht with ht | ht
    · refine ⟨by rw [ht]; omega, by rw [ht]; omega, fun i => age i + 1, ?_⟩
      rw [ht]
      exact agedPool_weaken _ _ _ _ hadv (by omega)
    · refine ⟨by rw [ht], by rw [ht]; decide, fun i => age i + 1, ?_⟩
      rw [ht]
      exact agedPool_weaken _ _ _ _ hadv (by omega)

theorem poolInv_of_world (a b : State) (h : worldOf a = worldOf b) (hb : PoolInv b) :
    PoolInv a := by
  obtain ⟨h1, h2, h3, h4⟩ := worldOf_eq a b h
  have hp : poolOf a = poolOf b := by
    funext i
    unfold poolOf slotOf
    rw [h1, h2, h3]
  unfold PoolInv
  rw [h4, hp]
  exact hb

theorem resetGame_poolInv (s : State) : PoolInv (resetGame s) :=
  ⟨le_refl 0, (by decide : (0 : Int) ≤ 119), fun _ => 0, agedPool_empty _ _ (fun _ => rfl)⟩

theorem collisionSystem_poolInv (s : State) (h : PoolInv s) : PoolInv (collisionSystem s) := by
  by_cases hc : ∃ i, collides s i
  · obtain ⟨i, hi⟩ := hc
    rw [collisionSystem_hit s i hi]
    exact resetGame_poolInv s
  · rw [collisionSystem_miss s (fun i hi => hc ⟨i, hi⟩)]
    exact h

theorem scoreSystem_world (s : State) : worldOf (scoreSystem s) = worldOf s := by
  unfold scoreSystem
  dsimp only
  split_ifs <;> rfl

/-- `menuSystem` leaves the obstacle pool alone or resets it. -/
theorem menuSystem_world (w4 : W4) (g : Nat) (s : State) :
    worldOf (menuSystem w4 g s) = worldOf s ∨
      worldOf (menuSystem w4 g s) = worldOf (resetGame s) := by
  unfold menuSystem
  dsimp only
  split_ifs <;> first | exact Or.inl rfl | exact Or.inr rfl

theorem update_poolInv (w4 : W4) (g : Nat) (s : State) (h : PoolInv s) :
    PoolInv (update w4 g s) := by
  have hmenu : PoolInv (menuSystem w4 g s) := by
    rcases menuSystem_world w4 g s with hw | hw
    · exact poolInv_of_world _ _ hw h
    · exact poolInv_of_world _ _ hw (resetGame_poolInv s)
  by_cases hp : s.gameState = STATE_PLAYING
  · rw [update_playing_from w4 g s hp]
    apply poolInv_of_world _
      (scoreSystem (obstacleSystem (collisionSystem (beforeCollision w4 g s)))) rfl
    apply poolInv_of_world _ _ (scoreSystem_world _)
    apply obstacleSystem_poolInv
    apply collisionSystem_poolInv
    exact poolInv_of_world _ _ (beforeCollision_keeps w4 g s).2 h
  · unfold update
    dsimp only
    rw [if_neg hp]
    split_ifs
    · exact poolInv_of_world _ (menuSystem w4 g s) rfl hmenu
    · exact poolInv_of_world _ (menuSystem w4 g s) rfl hmenu
    · exact poolInv_of_world _ s rfl h

theorem reachable_poolInv (w4 : W4) (s : State) (h : Reachable w4 s) : PoolInv s := by
  induction h with
  | init =>
    exact ⟨le_refl 0, (by decide : (0 : Int) ≤ 119), fun _ => 0,
      agedPool_empty _ _ (fun _ => rfl)⟩
  | step s g _ _ ih => exact update_poolInv w4 g s ih

/-! ## C17: active obstacles are inside the screen -/

theorem trajAll_spec (P : Position × Drawable × Depth → Bool) (n : Nat) :
    ∀ v, trajAll P n v = true → ∀ k, k ≤ n → P (advanceSlot^[k] v) = true := by
  induction n with
  | zero =>
    intro v h k hk
    have hk0 : k = 0 := by omega
    rw [hk0]
    exact h
  | succ n ih =>
    intro v h k hk
    unfold trajAll at h
    rw [Bool.and_eq_true] at h
    cases k with
    | zero => exact h.1
    | succ k =>
      rw [Function.iterate_succ_apply]
      exact ih (advanceSlot v) h.2 k (by omega)

/-- Every one of the 359 points of the trajectory of a fresh slot lies inside the
screen. -/
theorem trajectory_inside_screen : trajAll slotInScreen 358 freshSlot = true := by
  decide!

/-- C17: in every state reachable from `start()` by `update()` frames, every
active slot satisfies `0 <= X <= 160 - Size` and `0 <= Y <= 160 - Size`. -/
theorem active_obstacles_inside_screen (w4 : W4) (s : State) (i : Fin 10)
    (hr : Reachable w4 s) (ha : (s.obstacleDepths i).Active = true) :
    0 ≤ (s.obstaclePositions i).X ∧
      (s.obstaclePositions i).X ≤ SCREEN_SIZE - ((s.obstacleDrawables i).Size : Int) ∧
      0 ≤ (s.obstaclePositions i).Y ∧
      (s.obstaclePositions i).Y ≤ SCREEN_SIZE - ((s.obstacleDrawables i).Size : Int) := by
  obtain ⟨_, _, age, hage⟩ := reachable_poolInv w4 s hr
  obtain ⟨hpt, hle, _⟩ := hage.1 i ha
  have hin := trajAll_spec slotInScreen 358 freshSlot trajectory_inside_screen (age i) hle
  rw [← hpt] at hin
  unfold slotInScreen at hin
  exact of_decide_eq_true hin

theorem active_obstacles_inside_screen_witness :
    ((run wasm4 idleFrames).obstacleDepths 0).Active = true ∧
      0 ≤ ((run wasm4 idleFrames).obstaclePositions 0).X ∧
      ((run wasm4 idleFrames).obstaclePositions 0).X
        ≤ SCREEN_SIZE - (((run wasm4 idleFrames).obstacleDrawables 0).Size : Int) ∧
      0 ≤ ((run wasm4 idleFrames).obstaclePositions 0).Y ∧
      ((run wasm4 idleFrames).obstaclePositions 0).Y
        ≤ SCREEN_SIZE - (((run wasm4 idleFrames).obstacleDrawables 0).Size : Int) := by
  have ha : ((run wasm4 idleFrames).obstacleDepths 0).Active = true := by
    rw [run_eq_runStrict]
    obtain ⟨_, _, hz⟩ := slotOf_eq _ 0 _ _ _ idleRun_facts.2.2.1
    rw [hz]
  exact ⟨ha, active_obstacles_inside_screen wasm4 (run wasm4 idleFrames) 0
    (reachable_run wasm4 idleFrames idleFrames_bytes) ha⟩

/-! ## C20: the pool is never exhausted -/

theorem activeCount_lt (s : State) (i : Fin 10) (h : (s.obstacleDepths i).Active = false) :
    activeCount s < 10 := by
  unfold activeCount
  have hlen : ascending.length = 10 := rfl
  have hlt : (ascending.filter (fun i => (s.obstacleDepths i).Active)).length
      < ascending.length :=
    List.length_filter_lt_length_iff_exists.mpr ⟨i, mem_ascending i, by simp [h]⟩
  exact lt_of_lt_of_eq hlt hlen

/-- In a pool whose active slots are between 120 and 358 calls old, with ages at
least 120 apart, one of the slots 0, 1, 2 is inactive. -/
theorem agedPool_free (pool : Fin 10 → Position × Drawable × Depth) (age : Fin 10 → Nat)
    (h : AgedPool pool 120 age) : ∃ i, (pool i).2.2.Active = false := by
  by_contra hno
  have hall : ∀ i, (pool i).2.2.Active = true := by
    intro i
    by_contra hi
    exact hno ⟨i, by simpa using hi⟩
  have a0 := h.1 0 (hall 0)
  have a1 := h.1 1 (hall 1)
  have a2 := h.1 2 (hall 2)
  have g01 := h.2 0 1 (by decide) (hall 0) (hall 1)
  have g02 := h.2 0 2 (by decide) (hall 0) (hall 2)
  have g12 := h.2 1 2 (by decide) (hall 1) (hall 2)
  omega

theorem beforeObstacles_poolInv (w4 : W4) (g : Nat) (s : State) (h : PoolInv s) :
    PoolInv (beforeObstacles w4 g s) :=
  collisionSystem_poolInv _ (poolInv_of_world _ _ (beforeCollision_keeps w4 g s).2 h)

/-- A state with the pool invariant in which a spawn is due has a free slot at
the moment `spawnObstacle` is called. -/
theorem poolInv_free (s : State) (h : PoolInv s) (hdue : spawnDue s) :
    ∃ i, ((atSpawn s).obstacleDepths i).Active = false := by
  obtain ⟨h0, h1, age, hage⟩ := h
  have hs : withTimer s s.obstacleSpawnTimer = s := rfl
  have hd := spawnDue_withTimer s s.obstacleSpawnTimer h0 h1
  rw [hs] at hd
  have h119 := hd.1.mp hdue
  exact agedPool_free (poolOf s) age (agedPool_weaken _ _ _ _ hage (by omega))

/-- A `STATE_PLAYING` frame in which a spawn is due, written out. -/
theorem update_playing_spawn (w4 : W4) (g : Nat) (s : State)
    (hp : s.gameState = STATE_PLAYING) (hdue : spawnDue (beforeObstacles w4 g s)) :
    update w4 g s =
      { scoreSystem (ascending.foldl updateIfActive
          (withTimer (spawnObstacle (atSpawn (beforeObstacles w4 g s))) 0)) with
        previousInput := g } := by
  rw [update_playing_from w4 g s hp]
  have h := obstacleSystem_spawn (beforeObstacles w4 g s) hdue
  unfold beforeObstacles at h ⊢
  rw [h]
  rfl

/-- C20: in a `STATE_PLAYING` frame that starts in a reachable state and in
which `obstacleSystem` calls `spawnObstacle`, fewer than 10 slots are active at
the moment of that call, and `spawnObstacle` finds a free slot: it sets up the
inactive slot of lowest index.  The frame is the one `update()` computes. -/
theorem pool_never_exhausted (w4 : W4) (s : State) (g : Nat) (hr : Reachable w4 s)
    (hp : s.gameState = STATE_PLAYING) (hdue : spawnDue (beforeObstacles w4 g s)) :
    activeCount (atSpawn (beforeObstacles w4 g s)) < 10 ∧
      (∃ i, ((atSpawn (beforeObstacles w4 g s)).obstacleDepths i).Active = false ∧
        (∀ j, j < i → ((atSpawn (beforeObstacles w4 g s)).obstacleDepths j).Active = true) ∧
        spawnObstacle (atSpawn (beforeObstacles w4 g s))
          = spawnAt (atSpawn (beforeObstacles w4 g s)) i) ∧
      update w4 g s =
        { scoreSystem (ascending.foldl updateIfActive
            (withTimer (spawnObstacle (atSpawn (beforeObstacles w4 g s))) 0)) with
          previousInput := g } := by
  have hinv := beforeObstacles_poolInv w4 g s (reachable_poolInv w4 s hr)
  obtain ⟨k, hk⟩ := poolInv_free _ hinv hdue
  refine ⟨activeCount_lt _ k hk, ?_, update_playing_spawn w4 g s hp hdue⟩
  have hex : ∃ i : Fin 10, ((atSpawn (beforeObstacles w4 g s)).obstacleDepths i).Active = false :=
    ⟨k, hk⟩
  refine ⟨Fin.find (fun i => ((atSpawn (beforeObstacles w4 g s)).obstacleDepths i).Active
    = false) |>.get (Fin.isSome_find_iff.mpr hex), ?_⟩
  have hmem := Option.get_mem (Fin.isSome_find_iff.mpr hex)
  have hspec := Fin.find_spec _ hmem
  refine ⟨hspec, ?_, ?_⟩
  · intro j hj
    by_contra hact
    have := Fin.find_min hmem hj
    exact this (by simpa using hact)
  · apply spawnObstacle_eq_spawnAt _ _ hspec
    intro j hj
    by_contra hact
    have := Fin.find_min hmem hj
    exact this (by simpa using hact)

/-- The run `secondSpawnFrames`, evaluated: the game is in `STATE_PLAYING`, slot
0 is active, and in the next frame a spawn is due. -/
theorem secondSpawn_facts :
    (runStrict wasm4 secondSpawnFrames).gameState = STATE_PLAYING ∧
      ((runStrict wasm4 secondSpawnFrames).obstacleDepths 0).Active = true ∧
      spawnDue (beforeObstacles wasm4 0 (runStrict wasm4 secondSpawnFrames)) := by
  decide!

theorem secondSpawnFrames_bytes : ∀ g ∈ secondSpawnFrames, g < 256 := by
  intro g hg
  unfold secondSpawnFrames at hg
  rcases List.mem_cons.mp hg with rfl | hg
  · decide
  · rw [List.eq_of_mem_replicate hg]
    decide

theorem pool_never_exhausted_witness :
    (run wasm4 secondSpawnFrames).gameState = STATE_PLAYING ∧
      spawnDue (beforeObstacles wasm4 0 (run wasm4 secondSpawnFrames)) ∧
      activeCount (atSpawn (beforeObstacles wasm4 0 (run wasm4 secondSpawnFrames))) < 10 ∧
      ∃ i, ((atSpawn (beforeObstacles wasm4 0 (run wasm4 secondSpawnFrames))).obstacleDepths i
          ).Active = false ∧
        (∀ j, j < i → ((atSpawn (beforeObstacles wasm4 0
          (run wasm4 secondSpawnFrames))).obstacleDepths j).Active = true) ∧
        spawnObstacle (atSpawn (beforeObstacles wasm4 0 (run wasm4 secondSpawnFrames)))
          = spawnAt (atSpawn (beforeObstacles wasm4 0 (run wasm4 secondSpawnFrames))) i := by
  have hp : (run wasm4 secondSpawnFrames).gameState = STATE_PLAYING := by
    rw [run_eq_runStrict]; exact secondSpawn_facts.1
  have hdue : spawnDue (beforeObstacles wasm4 0 (run wasm4 secondSpawnFrames)) := by
    rw [run_eq_runStrict]; exact secondSpawn_facts.2.2
  have h := pool_never_exhausted wasm4 (run wasm4 secondSpawnFrames) 0
    (reachable_run wasm4 secondSpawnFrames secondSpawnFrames_bytes) hp hdue
  exact ⟨hp, hdue, h.1, h.2.1⟩

/-! ## Rounding to binary32 -/

/-- One bisection step of `bitLength` keeps the invariant and halves the bound
on the exponent. -/
theorem bitLength_step (m k j : Nat) (acc : Nat × Nat) (hj : j = 2 * k)
    (h : 1 ≤ acc.2 ∧ 1 ≤ acc.1 ∧ acc.1 = m / 2 ^ (acc.2 - 1) ∧ acc.1 < 2 ^ j) :
    1 ≤ (if 2 ^ k ≤ acc.1 then (acc.1 / 2 ^ k, acc.2 + k) else acc).2 ∧
      1 ≤ (if 2 ^ k ≤ acc.1 then (acc.1 / 2 ^ k, acc.2 + k) else acc).1 ∧
      (if 2 ^ k ≤ acc.1 then (acc.1 / 2 ^ k, acc.2 + k) else acc).1
        = m / 2 ^ ((if 2 ^ k ≤ acc.1 then (acc.1 / 2 ^ k, acc.2 + k) else acc).2 - 1) ∧
      (if 2 ^ k ≤ acc.1 then (acc.1 / 2 ^ k, acc.2 + k) else acc).1 < 2 ^ k := by
  obtain ⟨h1, h2, h3, h4⟩ := h
  have hpos : 0 < 2 ^ k := Nat.two_pow_pos k
  by_cases hc : 2 ^ k ≤ acc.1
  · rw [if_pos hc]
    refine ⟨by show 1 ≤ acc.2 + k; omega, ?_, ?_, ?_⟩
    · show 1 ≤ acc.1 / 2 ^ k
      exact Nat.div_pos hc hpos
    · show acc.1 / 2 ^ k = m / 2 ^ (acc.2 + k - 1)
      have he : acc.2 + k - 1 = (acc.2 - 1) + k := by omega
      rw [he, pow_add, ← Nat.div_div_eq_div_mul, ← h3]
    · show acc.1 / 2 ^ k < 2 ^ k
      apply Nat.div_lt_of_lt_mul
      rw [← pow_add]
      have he : k + k = j := by omega
      rw [he]
      exact h4
  · rw [if_neg hc]
    exact ⟨h1, h2, h3, Nat.lt_of_not_le hc⟩

theorem bitLength_final (m : Nat) (r : Nat × Nat)
    (h : 1 ≤ r.2 ∧ 1 ≤ r.1 ∧ r.1 = m / 2 ^ (r.2 - 1) ∧ r.1 < 2 ^ 1) :
    1 ≤ r.2 ∧ 2 ^ (r.2 - 1) ≤ m ∧ m < 2 ^ r.2 := by
  obtain ⟨h1, h2, h3, h4⟩ := h
  have hp : 0 < 2 ^ (r.2 - 1) := Nat.two_pow_pos _
  have h4' : r.1 < 2 := h4
  have hr1 : m / 2 ^ (r.2 - 1) = 1 := by omega
  refine ⟨h1, ?_, ?_⟩
  · by_contra hcon
    rw [Nat.div_eq_of_lt (Nat.lt_of_not_le hcon)] at hr1
    exact absurd hr1 (by decide)
  · have hlt : m / 2 ^ (r.2 - 1) < 2 := by omega
    have h5 := (Nat.div_lt_iff_lt_mul hp).mp hlt
    have he : 2 ^ r.2 = 2 * 2 ^ (r.2 - 1) := by
      have hs : r.2 = (r.2 - 1) + 1 := by omega
      conv_lhs => rw [hs]
      rw [pow_succ, mul_comm]
    rw [he]
    exact h5

/-- `bitLength m` is the number of binary digits of `m`. -/
theorem bitLength_spec (m : Nat) (h0 : 0 < m) (hm : m < 2 ^ 512) :
    1 ≤ F32.bitLength m ∧ 2 ^ (F32.bitLength m - 1) ≤ m ∧ m < 2 ^ F32.bitLength m := by
  have hinit : 1 ≤ ((m, 1) : Nat × Nat).2 ∧ 1 ≤ ((m, 1) : Nat × Nat).1 ∧
      ((m, 1) : Nat × Nat).1 = m / 2 ^ (((m, 1) : Nat × Nat).2 - 1) ∧
      ((m, 1) : Nat × Nat).1 < 2 ^ 512 := ⟨le_refl 1, h0, by simp, hm⟩
  have s256 := bitLength_step m 256 512 _ rfl hinit
  have s128 := bitLength_step m 128 256 _ rfl s256
  have s64 := bitLength_step m 64 128 _ rfl s128
  have s32 := bitLength_step m 32 64 _ rfl s64
  have s16 := bitLength_step m 16 32 _ rfl s32
  have s8 := bitLength_step m 8 16 _ rfl s16
  have s4 := bitLength_step m 4 8 _ rfl s8
  have s2 := bitLength_step m 2 4 _ rfl s4
  have s1 := bitLength_step m 1 2 _ rfl s2
  have hfin := bitLength_final m _ s1
  have hb : F32.bitLength m = ([256, 128, 64, 32, 16, 8, 4, 2, 1].foldl
      (fun (acc : Nat × Nat) (k : Nat) =>
        if 2 ^ k ≤ acc.1 then (acc.1 / 2 ^ k, acc.2 + k) else acc) (m, 1)).2 := by
    unfold F32.bitLength
    rw [if_neg (Nat.pos_iff_ne_zero.mp h0)]
  rw [hb]
  simp only [List.foldl]
  exact hfin

/-! ## Fields and magnitude of a packed value -/

theorem pack_fields (s : Bool) (mag : Nat) (h : mag < 2147483648) :
    (F32.pack s mag).signBit = s ∧ (F32.pack s mag).expField = mag / 8388608 ∧
      (F32.pack s mag).fracField = mag % 8388608 := by
  unfold F32.pack F32.signBit F32.expField F32.fracField
  cases s
  · refine ⟨?_, ?_, ?_⟩
    · simp only [Bool.false_eq_true, if_false, beq_eq_false_iff_ne, ne_eq]
      omega
    · simp only [Bool.false_eq_true, if_false]
      omega
    · simp only [Bool.false_eq_true, if_false]
      omega
  · refine ⟨?_, ?_, ?_⟩
    · simp only [if_true, beq_iff_eq]
      omega
    · simp only [if_true]
      omega
    · simp only [if_true]
      omega

theorem magnitude_eq (x : F32) :
    x.magnitude = if x.expField = 0 then x.fracField
      else (8388608 + x.fracField) * 2 ^ (x.expField - 1) := by
  unfold F32.magnitude F32.mant F32.expo
  by_cases h : x.expField = 0
  · rw [if_pos h, if_pos h, if_pos h]
    simp
  · rw [if_neg h, if_neg h, if_neg h]
    have he : ((x.expField : Int) - 150 + 149).toNat = x.expField - 1 := by omega
    rw [he]

theorem scaled_eq (x : F32) :
    x.scaled = if x.signBit = true then -(x.magnitude : Int) else (x.magnitude : Int) := rfl

theorem fracField_lt (x : F32) : x.fracField < 8388608 := by
  unfold F32.fracField
  omega

theorem expField_lt (x : F32) : x.expField < 256 := by
  unfold F32.expField
  omega

theorem isNaN_of_expField (x : F32) (h : x.expField ≠ 255) : x.isNaN = false := by
  unfold F32.isNaN
  simp [h]

/-- A finite value is below `2 ^ 277`, the magnitude given to the infinities. -/
theorem magnitude_finite_lt (x : F32) (h : x.isFinite) : x.magnitude < 2 ^ 277 := by
  unfold F32.isFinite at h
  have hf := fracField_lt x
  have he := expField_lt x
  rw [magnitude_eq]
  by_cases h0 : x.expField = 0
  · rw [if_pos h0]
    have : (8388608 : Nat) ≤ 2 ^ 277 := by norm_num
    omega
  · rw [if_neg h0]
    have hp : 2 ^ (x.expField - 1) ≤ 2 ^ 253 :=
      Nat.pow_le_pow_right (by decide) (by omega)
    calc (8388608 + x.fracField) * 2 ^ (x.expField - 1)
        ≤ (8388608 + x.fracField) * 2 ^ 253 := Nat.mul_le_mul_left _ hp
      _ < 16777216 * 2 ^ 253 := Nat.mul_lt_mul_of_pos_right (by omega) (by norm_num)
      _ = 2 ^ 277 := by norm_num

theorem magnitude_inf (x : F32) (h : x.isInf = true) : x.magnitude = 2 ^ 277 := by
  unfold F32.isInf at h
  simp only [Bool.and_eq_true, beq_iff_eq] at h
  rw [magnitude_eq, if_neg (by omega), h.1, h.2]
  norm_num

/-- A magnitude is a multiple of `2 ^ d` or lies below `2 ^ (23 + d)`. -/
theorem magnitude_grid (x : F32) (d : Nat) (hd : 1 ≤ d) :
    (∃ c, x.magnitude = c * 2 ^ d) ∨ x.magnitude < 8388608 * 2 ^ d := by
  have hf := fracField_lt x
  have hpd : 0 < 2 ^ d := Nat.two_pow_pos d
  rw [magnitude_eq]
  by_cases h0 : x.expField = 0
  · rw [if_pos h0]
    right
    calc x.fracField < 8388608 * 1 := by omega
      _ ≤ 8388608 * 2 ^ d := Nat.mul_le_mul_left _ hpd
  · rw [if_neg h0]
    by_cases hle : d ≤ x.expField - 1
    · left
      refine ⟨(8388608 + x.fracField) * 2 ^ (x.expField - 1 - d), ?_⟩
      rw [mul_assoc, ← pow_add]
      congr 2
      omega
    · right
      have hp : 2 ^ (x.expField - 1) ≤ 2 ^ (d - 1) :=
        Nat.pow_le_pow_right (by decide) (by omega)
      have hd2 : 2 ^ d = 2 * 2 ^ (d - 1) := by
        have hs : d = (d - 1) + 1 := by omega
        conv_lhs => rw [hs]
        rw [pow_succ, mul_comm]
      have hpd1 : 0 < 2 ^ (d - 1) := Nat.two_pow_pos _
      calc (8388608 + x.fracField) * 2 ^ (x.expField - 1)
          ≤ (8388608 + x.fracField) * 2 ^ (d - 1) := Nat.mul_le_mul_left _ hp
        _ < 16777216 * 2 ^ (d - 1) := Nat.mul_lt_mul_of_pos_right (by omega) hpd1
        _ = 8388608 * 2 ^ d := by rw [hd2]; ring

/-- The last step of `roundPack`: a significand `mr <= 2 ^ 24` at exponent
field `k` (normalised unless `k = 0`) packs to a value of magnitude
`mr * 2 ^ k`, or overflows to an infinity, which is then no larger. -/
theorem pack_result (s : Bool) (mr k : Nat) (hmr : mr ≤ 16777216)
    (hnorm : k = 0 ∨ 8388608 ≤ mr) :
    (if 2139095040 ≤ k * 8388608 + mr then F32.inf s
        else F32.pack s (k * 8388608 + mr)).signBit = s ∧
      (if 2139095040 ≤ k * 8388608 + mr then F32.inf s
        else F32.pack s (k * 8388608 + mr)).isNaN = false ∧
      (if 2139095040 ≤ k * 8388608 + mr then F32.inf s
        else F32.pack s (k * 8388608 + mr)).magnitude ≤ mr * 2 ^ k ∧
      ((if 2139095040 ≤ k * 8388608 + mr then F32.inf s
        else F32.pack s (k * 8388608 + mr)).magnitude = mr * 2 ^ k ∨
       (if 2139095040 ≤ k * 8388608 + mr then F32.inf s
        else F32.pack s (k * 8388608 + mr)).magnitude = 2 ^ 277) := by
  by_cases hov : 2139095040 ≤ k * 8388608 + mr
  · rw [if_pos hov]
    obtain ⟨hs, he, hf⟩ := pack_fields s 2139095040 (by decide)
    have he' : (F32.inf s).expField = 255 := he
    have hf' : (F32.inf s).fracField = 0 := hf
    have hmag : (F32.inf s).magnitude = 2 ^ 277 := by
      rw [magnitude_eq, if_neg (by omega), he', hf']
      norm_num
    refine ⟨hs, ?_, ?_, Or.inr hmag⟩
    · unfold F32.isNaN
      rw [he', hf']
      rfl
    · rw [hmag]
      have hk : 253 ≤ k := by omega
      by_cases hk3 : k = 253
      · have hm : mr = 16777216 := by omega
        rw [hk3, hm]
        norm_num
      · have hm : 8388608 ≤ mr := by omega
        have hp : 2 ^ 254 ≤ 2 ^ k := Nat.pow_le_pow_right (by decide) (by omega)
        calc 2 ^ 277 = 8388608 * 2 ^ 254 := by norm_num
          _ ≤ mr * 2 ^ k := Nat.mul_le_mul hm hp
  · rw [if_neg hov]
    obtain ⟨hs, he, hf⟩ := pack_fields s (k * 8388608 + mr) (by omega)
    have hmag : (F32.pack s (k * 8388608 + mr)).magnitude = mr * 2 ^ k := by
      rw [magnitude_eq, he, hf]
      by_cases hk : k = 0
      · rw [hk]
        by_cases h1 : mr < 8388608
        · rw [if_pos (by omega)]
          have : (0 * 8388608 + mr) % 8388608 = mr := by omega
          rw [this]
          simp
        · rw [if_neg (by omega)]
          by_cases h2 : mr = 16777216
          · rw [h2]
            norm_num
          · have e1 : (0 * 8388608 + mr) / 8388608 - 1 = 0 := by omega
            have e2 : 8388608 + (0 * 8388608 + mr) % 8388608 = mr := by omega
            rw [e1, e2]
      · have hm : 8388608 ≤ mr := by omega
        rw [if_neg (by omega)]
        by_cases h2 : mr = 16777216
        · have e1 : (k * 8388608 + mr) / 8388608 - 1 = k + 1 := by omega
          have e2 : 8388608 + (k * 8388608 + mr) % 8388608 = 8388608 := by omega
          rw [e1, e2, h2, pow_succ]
          ring
        · have e1 : (k * 8388608 + mr) / 8388608 - 1 = k := by omega
          have e2 : 8388608 + (k * 8388608 + mr) % 8388608 = mr := by omega
          rw [e1, e2]
    refine ⟨hs, ?_, le_of_eq hmag, Or.inl hmag⟩
    apply isNaN_of_expField
    rw [he]
    omega

/-- The exponent `roundPack` rounds at. -/
theorem roundPack_eq (s : Bool) (m : Nat) (e : Int) (hm : m ≠ 0) :
    F32.roundPack s m e =
      if 2139095040 ≤ (max (e + (F32.bitLength m : Int) - 24) (-149) + 149).toNat * 8388608 +
          (if max (e + (F32.bitLength m : Int) - 24) (-149) ≤ e then
            m * 2 ^ (e - max (e + (F32.bitLength m : Int) - 24) (-149)).toNat
          else
            if 2 ^ ((max (e + (F32.bitLength m : Int) - 24) (-149) - e).toNat - 1)
                  < m % 2 ^ (max (e + (F32.bitLength m : Int) - 24) (-149) - e).toNat ∨
                (m % 2 ^ (max (e + (F32.bitLength m : Int) - 24) (-149) - e).toNat
                    = 2 ^ ((max (e + (F32.bitLength m : Int) - 24) (-149) - e).toNat - 1) ∧
                  m / 2 ^ (max (e + (F32.bitLength m : Int) - 24) (-149) - e).toNat % 2 = 1)
            then m / 2 ^ (max (e + (F32.bitLength m : Int) - 24) (-149) - e).toNat + 1
            else m / 2 ^ (max (e + (F32.bitLength m : Int) - 24) (-149) - e).toNat)
      then F32.inf s
      else F32.pack s
        ((max (e + (F32.bitLength m : Int) - 24) (-149) + 149).toNat * 8388608 +
          (if max (e + (F32.bitLength m : Int) - 24) (-149) ≤ e then
            m * 2 ^ (e - max (e + (F32.bitLength m : Int) - 24) (-149)).toNat
          else
            if 2 ^ ((max (e + (F32.bitLength m : Int) - 24) (-149) - e).toNat - 1)
                  < m % 2 ^ (max (e + (F32.bitLength m : Int) - 24) (-149) - e).toNat ∨
                (m % 2 ^ (max (e + (F32.bitLength m : Int) - 24) (-149) - e).toNat
                    = 2 ^ ((max (e + (F32.bitLength m : Int) - 24) (-149) - e).toNat - 1) ∧
                  m / 2 ^ (max (e + (F32.bitLength m : Int) - 24) (-149) - e).toNat % 2 = 1)
            then m / 2 ^ (max (e + (F32.bitLength m : Int) - 24) (-149) - e).toNat + 1
            else m / 2 ^ (max (e + (F32.bitLength m : Int) - 24) (-149) - e).toNat)) := by
  unfold F32.roundPack
  rw [if_neg hm]

theorem two_pow_split (a b c : Nat) (h : a = b + c) : 2 ^ a = 2 ^ b * 2 ^ c := by
  rw [h, pow_add]

/-- What `roundPack` computes for a non-zero significand: an exponent field `k`
and a rounded significand `mr`, which is exact (`mr = m * 2 ^ j`) or the
quotient `m / 2 ^ d`, possibly plus one when the remainder is not zero. -/
theorem roundPack_round (s : Bool) (m : Nat) (e : Int) (hm0 : 0 < m) (hm : m < 2 ^ 512) :
    ∃ k mr : Nat,
      F32.roundPack s m e =
        (if 2139095040 ≤ k * 8388608 + mr then F32.inf s
          else F32.pack s (k * 8388608 + mr)) ∧
      mr ≤ 16777216 ∧ (k = 0 ∨ 8388608 ≤ mr) ∧
      (k : Int) - 149 = max (e + (F32.bitLength m : Int) - 24) (-149) ∧
      (((k : Int) - 149 ≤ e ∧ mr = m * 2 ^ (e - ((k : Int) - 149)).toNat) ∨
        (e < (k : Int) - 149 ∧
          ((k = 0 ∧ m / 2 ^ ((k : Int) - 149 - e).toNat < 8388608) ∨
            8388608 ≤ m / 2 ^ ((k : Int) - 149 - e).toNat) ∧
          (mr = m / 2 ^ ((k : Int) - 149 - e).toNat ∨
            (mr = m / 2 ^ ((k : Int) - 149 - e).toNat + 1 ∧
              m % 2 ^ ((k : Int) - 149 - e).toNat ≠ 0)))) := by
  obtain ⟨hL1, hL2, hL3⟩ := bitLength_spec m hm0 hm
  rw [roundPack_eq s m e (Nat.pos_iff_ne_zero.mp hm0)]
  obtain ⟨q, hq⟩ : ∃ q : Int, q = max (e + (F32.bitLength m : Int) - 24) (-149) := ⟨_, rfl⟩
  rw [← hq]
  have hq149 : -149 ≤ q := by rw [hq]; exact le_max_right _ _
  have hqcases : (q = e + (F32.bitLength m : Int) - 24 ∧ -149 ≤ e + (F32.bitLength m : Int) - 24) ∨
      (q = -149 ∧ e + (F32.bitLength m : Int) - 24 < -149) := by
    rcases le_or_lt (-149 : Int) (e + (F32.bitLength m : Int) - 24) with h | h
    · left
      exact ⟨by rw [hq, max_eq_left h], h⟩
    · right
      exact ⟨by rw [hq, max_eq_right (le_of_lt h)], h⟩
  have hk : (((q + 149).toNat : Nat) : Int) - 149 = q := by omega
  generalize hLdef : F32.bitLength m = L at hL1 hL2 hL3 hqcases hq
  by_cases hqe : q ≤ e
  · refine ⟨(q + 149).toNat, m * 2 ^ (e - q).toNat, ?_, ?_, ?_, hk, ?_⟩
    · rw [if_pos hqe]
    · rcases hqcases with ⟨h1, h2⟩ | ⟨h1, h2⟩
      · have hj : (e - q).toNat + L = 24 := by omega
        have h24 : (16777216 : Nat) = 2 ^ L * 2 ^ (e - q).toNat := by
          rw [← pow_add, Nat.add_comm, hj]
          norm_num
        rw [h24]
        exact Nat.le_of_lt (Nat.mul_lt_mul_of_pos_right hL3 (Nat.two_pow_pos _))
      · have hj : L + (e - q).toNat ≤ 23 := by omega
        have hp : 2 ^ (L + (e - q).toNat) ≤ 2 ^ 23 := Nat.pow_le_pow_right (by decide) hj
        rw [pow_add] at hp
        have := Nat.mul_lt_mul_of_pos_right hL3 (Nat.two_pow_pos (e - q).toNat)
        have h23 : (2 : Nat) ^ 23 = 8388608 := by norm_num
        omega
    · rcases hqcases with ⟨h1, h2⟩ | ⟨h1, h2⟩
      · right
        have hj : (L - 1) + (e - q).toNat = 23 := by omega
        have h23 : (8388608 : Nat) = 2 ^ (L - 1) * 2 ^ (e - q).toNat := by
          rw [← pow_add, hj]
          norm_num
        rw [h23]
        exact Nat.mul_le_mul_right _ hL2
      · left
        omega
    · left
      rw [hk]
      exact ⟨hqe, rfl⟩
  · have hd1 : 1 ≤ (q - e).toNat := by omega
    have hpd : 0 < 2 ^ (q - e).toNat := Nat.two_pow_pos _
    have ht : (8388608 ≤ m / 2 ^ (q - e).toNat ∧ m / 2 ^ (q - e).toNat < 16777216) ∨
        ((q + 149).toNat = 0 ∧ m / 2 ^ (q - e).toNat < 8388608) := by
      rcases hqcases with ⟨h1, h2⟩ | ⟨h1, h2⟩
      · left
        have hd : (q - e).toNat + 24 = L := by omega
        constructor
        · apply (Nat.le_div_iff_mul_le hpd).mpr
          have h23 : 8388608 * 2 ^ (q - e).toNat = 2 ^ (L - 1) := by
            have : L - 1 = 23 + (q - e).toNat := by omega
            rw [this, pow_add]
            norm_num
          rw [h23]
          exact hL2
        · apply (Nat.div_lt_iff_lt_mul hpd).mpr
          have h24 : 16777216 * 2 ^ (q - e).toNat = 2 ^ L := by
            have : L = 24 + (q - e).toNat := by omega
            rw [this, pow_add]
            norm_num
          rw [h24]
          exact hL3
      · right
        refine ⟨by omega, ?_⟩
        apply (Nat.div_lt_iff_lt_mul hpd).mpr
        have hle : L ≤ 23 + (q - e).toNat := by omega
        have hp : 2 ^ L ≤ 2 ^ (23 + (q - e).toNat) := Nat.pow_le_pow_right (by decide) hle
        rw [pow_add] at hp
        have h23 : (2 : Nat) ^ 23 = 8388608 := by norm_num
        rw [h23] at hp
        exact lt_of_lt_of_le hL3 hp
    have hround : ∀ c : Prop, ∀ _ : Decidable c,
        (c → m % 2 ^ (q - e).toNat ≠ 0) →
        ((if c then m / 2 ^ (q - e).toNat + 1 else m / 2 ^ (q - e).toNat)
            = m / 2 ^ (q - e).toNat ∨
          ((if c then m / 2 ^ (q - e).toNat + 1 else m / 2 ^ (q - e).toNat)
            = m / 2 ^ (q - e).toNat + 1 ∧ m % 2 ^ (q - e).toNat ≠ 0)) := by
      intro c _ hc
      by_cases h : c
      · rw [if_pos h]
        exact Or.inr ⟨rfl, hc h⟩
      · rw [if_neg h]
        exact Or.inl rfl
    have hc : (2 ^ ((q - e).toNat - 1) < m % 2 ^ (q - e).toNat ∨
        (m % 2 ^ (q - e).toNat = 2 ^ ((q - e).toNat - 1) ∧
          m / 2 ^ (q - e).toNat % 2 = 1)) → m % 2 ^ (q - e).toNat ≠ 0 := by
      have hh : 0 < 2 ^ ((q - e).toNat - 1) := Nat.two_pow_pos _
      intro h
      rcases h with h | h
      · omega
      · omega
    have hr := hround _ inferInstance hc
    refine ⟨(q + 149).toNat,
      (if 2 ^ ((q - e).toNat - 1) < m % 2 ^ (q - e).toNat ∨
          (m % 2 ^ (q - e).toNat = 2 ^ ((q - e).toNat - 1) ∧
            m / 2 ^ (q - e).toNat % 2 = 1)
        then m / 2 ^ (q - e).toNat + 1 else m / 2 ^ (q - e).toNat), ?_, ?_, ?_, hk, ?_⟩
    · rw [if_neg hqe]
    · rcases hr with hr | ⟨hr, _⟩ <;> rw [hr] <;> omega
    · rcases ht with ht | ht
      · right
        rcases hr with hr | ⟨hr, _⟩ <;> rw [hr] <;> omega
      · left
        exact ht.1
    · right
      rw [hk]
      refine ⟨by omega, ?_, hr⟩
      rcases ht with ht | ht
      · exact Or.inr ht.1
      · exact Or.inl ht

/-- Rounding a non-zero integer multiple of `2 ^ (-149)`, as `add` does, is
monotone against every finite binary32 value: a finite value that is at most
(at least) the exact result is at most (at least) the rounded one. -/
theorem roundPack_monotone (s : Bool) (m : Nat) (hm0 : 0 < m) (hm : m < 2 ^ 512) :
    (F32.roundPack s m (-149)).signBit = s ∧
      (F32.roundPack s m (-149)).isNaN = false ∧
      (∀ x : F32, x.isFinite → x.magnitude ≤ m →
        x.magnitude ≤ (F32.roundPack s m (-149)).magnitude) ∧
      (∀ x : F32, x.isFinite → m ≤ x.magnitude →
        (F32.roundPack s m (-149)).magnitude ≤ x.magnitude) := by
  obtain ⟨k, mr, heq, hmr, hnorm, _, hcase⟩ := roundPack_round s m (-149) hm0 hm
  obtain ⟨hs, hnan, hle, hmag⟩ := pack_result s mr k hmr hnorm
  rw [← heq] at hs hnan hle hmag
  refine ⟨hs, hnan, ?_, ?_⟩
  · intro x hx hxm
    have hfin := magnitude_finite_lt x hx
    suffices h : x.magnitude ≤ mr * 2 ^ k by
      rcases hmag with hmag | hmag
      · rw [hmag]; exact h
      · rw [hmag]; exact le_of_lt hfin
    rcases hcase with ⟨hk, hmr2⟩ | ⟨hk, ht, hr⟩
    · have hk0 : k = 0 := by omega
      have hj : (-149 - ((k : Int) - 149)).toNat = 0 := by omega
      rw [hj] at hmr2
      rw [hmr2, hk0]
      simpa using hxm
    · have hd : ((k : Int) - 149 - (-149)).toNat = k := by omega
      rw [hd] at ht hr
      have hk1 : 1 ≤ k := by omega
      have hpk : 0 < 2 ^ k := Nat.two_pow_pos k
      have ht23 : 8388608 ≤ m / 2 ^ k := by
        rcases ht with ht | ht
        · omega
        · exact ht
      have htmr : m / 2 ^ k ≤ mr := by
        rcases hr with hr | ⟨hr, _⟩ <;> omega
      have hfloor : x.magnitude ≤ m / 2 ^ k * 2 ^ k := by
        rcases magnitude_grid x k hk1 with ⟨c, hc⟩ | hlt
        · rw [hc] at hxm ⊢
          exact Nat.mul_le_mul_right _ ((Nat.le_div_iff_mul_le hpk).mpr hxm)
        · exact le_trans (le_of_lt hlt) (Nat.mul_le_mul_right _ ht23)
      exact le_trans hfloor (Nat.mul_le_mul_right _ htmr)
  · intro x _ hxm
    refine le_trans hle ?_
    rcases hcase with ⟨hk, hmr2⟩ | ⟨hk, ht, hr⟩
    · have hk0 : k = 0 := by omega
      have hj : (-149 - ((k : Int) - 149)).toNat = 0 := by omega
      rw [hj] at hmr2
      rw [hmr2, hk0]
      simpa using hxm
    · have hd : ((k : Int) - 149 - (-149)).toNat = k := by omega
      rw [hd] at ht hr
      have hk1 : 1 ≤ k := by omega
      have hpk : 0 < 2 ^ k := Nat.two_pow_pos k
      have ht23 : 8388608 ≤ m / 2 ^ k := by
        rcases ht with ht | ht
        · omega
        · exact ht
      have hdm : m / 2 ^ k * 2 ^ k ≤ m := Nat.div_mul_le_self m (2 ^ k)
      rcases magnitude_grid x k hk1 with ⟨c, hc⟩ | hlt
      · rw [hc] at hxm ⊢
        apply Nat.mul_le_mul_right
        rcases hr with hr | ⟨hr, hrem⟩
        · rw [hr]
          by_contra hcon
          have hlt : c < m / 2 ^ k := Nat.lt_of_not_le hcon
          have h1 : (c + 1) * 2 ^ k ≤ m / 2 ^ k * 2 ^ k := Nat.mul_le_mul_right _ hlt
          have h2 : c * 2 ^ k < (c + 1) * 2 ^ k := Nat.mul_lt_mul_of_pos_right (by omega) hpk
          omega
        · rw [hr]
          by_contra hcon
          have hlt : c ≤ m / 2 ^ k := by omega
          have h1 : c * 2 ^ k ≤ m / 2 ^ k * 2 ^ k := Nat.mul_le_mul_right _ hlt
          have hm2 : m = c * 2 ^ k := by omega
          apply hrem
          rw [hm2]
          exact Nat.mul_mod_left c (2 ^ k)
      · exfalso
        have h1 : 8388608 * 2 ^ k ≤ m / 2 ^ k * 2 ^ k := Nat.mul_le_mul_right _ ht23
        omega

theorem isInf_of_expField (x : F32) (h : x.expField ≠ 255) : x.isInf = false := by
  unfold F32.isInf
  simp [h]

theorem isFinite_of_flags (x : F32) (h1 : x.isNaN = false) (h2 : x.isInf = false) :
    x.isFinite := by
  unfold F32.isFinite
  unfold F32.isNaN at h1
  unfold F32.isInf at h2
  intro h
  rw [h] at h1 h2
  by_cases hf : x.fracField = 0
  · rw [hf] at h2
    exact absurd h2 (by decide)
  · simp [hf] at h1

theorem scaled_nonneg_of_sign (x : F32) (h : x.signBit = false) :
    x.scaled = (x.magnitude : Int) := by
  rw [scaled_eq, if_neg (by rw [h]; decide)]

theorem scaled_of_sign (x : F32) (h : x.signBit = true) :
    x.scaled = -(x.magnitude : Int) := by
  rw [scaled_eq, if_pos h]

theorem scaled_le_magnitude (x : F32) : x.scaled ≤ (x.magnitude : Int) := by
  rw [scaled_eq]
  split_ifs <;> omega

theorem neg_magnitude_le_scaled (x : F32) : -(x.magnitude : Int) ≤ x.scaled := by
  rw [scaled_eq]
  split_ifs <;> omega

/-- Adding a positive value to a finite one does not give a smaller value, and
never NaN. -/
theorem add_monotone (x y : F32) (hx : x.isFinite) (hy : y.isNaN = false)
    (hpos : 0 < y.scaled) :
    (F32.add x y).isNaN = false ∧ x.scaled ≤ (F32.add x y).scaled := by
  have hxn : x.isNaN = false := isNaN_of_expField x hx
  have hxi : x.isInf = false := isInf_of_expField x hx
  have hxm := magnitude_finite_lt x hx
  have hys : y.signBit = false := by
    by_contra hc
    have hc' : y.signBit = true := by simpa using hc
    rw [scaled_of_sign y hc'] at hpos
    omega
  have hysc := scaled_nonneg_of_sign y hys
  unfold F32.add
  rw [hxn, hy, hxi]
  simp only [Bool.or_self, Bool.false_eq_true, if_false]
  by_cases hyi : y.isInf = true
  · rw [if_pos hyi]
    refine ⟨hy, ?_⟩
    rw [hysc, magnitude_inf y hyi]
    have := scaled_le_magnitude x
    have h2 : ((x.magnitude : Nat) : Int) < ((2 ^ 277 : Nat) : Int) := by exact_mod_cast hxm
    omega
  · rw [if_neg hyi]
    have hyf : y.isFinite := isFinite_of_flags y hy (by simpa using hyi)
    have hym := magnitude_finite_lt y hyf
    by_cases hc0 : x.scaled + y.scaled = 0
    · rw [if_pos hc0]
      obtain ⟨_, he, hf⟩ := pack_fields (x.signBit && y.signBit) 0 (by decide)
      refine ⟨isNaN_of_expField _ (by rw [he]; decide), ?_⟩
      have hm : (F32.pack (x.signBit && y.signBit) 0).magnitude = 0 := by
        rw [magnitude_eq, he, hf]
        rfl
      have := neg_magnitude_le_scaled (F32.pack (x.signBit && y.signBit) 0)
      rw [hm] at this
      omega
    · rw [if_neg hc0]
      have hxs1 := scaled_le_magnitude x
      have hxs2 := neg_magnitude_le_scaled x
      have hxmi : ((x.magnitude : Nat) : Int) < ((2 ^ 277 : Nat) : Int) := by exact_mod_cast hxm
      have hymi : ((y.magnitude : Nat) : Int) < ((2 ^ 277 : Nat) : Int) := by exact_mod_cast hym
      have h277 : ((2 ^ 277 : Nat) : Int) + ((2 ^ 277 : Nat) : Int) ≤ ((2 ^ 512 : Nat) : Int) := by
        norm_num
      generalize hn : (x.scaled + y.scaled).natAbs = n
      have hnabs : (n : Int) = |x.scaled + y.scaled| := by
        rw [← hn]
        exact Int.natCast_natAbs _
      clear hn
      by_cases hneg : x.scaled + y.scaled < 0
      · rw [abs_of_neg hneg] at hnabs
        have hn0 : 0 < n := by omega
        have hnlt : n < 2 ^ 512 := by
          have : (n : Int) < ((2 ^ 512 : Nat) : Int) := by omega
          exact_mod_cast this
        obtain ⟨hs, hnan, _, hce⟩ := roundPack_monotone (decide (x.scaled + y.scaled < 0))
          n hn0 hnlt
        refine ⟨hnan, ?_⟩
        have hd : decide (x.scaled + y.scaled < 0) = true := decide_eq_true hneg
        rw [hd] at hs hce ⊢
        rw [scaled_of_sign _ hs]
        have hxsign : x.signBit = true := by
          by_contra hc
          have hc' : x.signBit = false := by simpa using hc
          rw [scaled_nonneg_of_sign x hc'] at hneg
          omega
        rw [scaled_of_sign x hxsign] at hneg hnabs ⊢
        have hnle : n ≤ x.magnitude := by omega
        have := hce x hx hnle
        omega
      · have hnn : 0 ≤ x.scaled + y.scaled := by omega
        rw [abs_of_nonneg hnn] at hnabs
        have hn0 : 0 < n := by omega
        have hnlt : n < 2 ^ 512 := by
          have : (n : Int) < ((2 ^ 512 : Nat) : Int) := by omega
          exact_mod_cast this
        obtain ⟨hs, hnan, hfl, _⟩ := roundPack_monotone (decide (x.scaled + y.scaled < 0))
          n hn0 hnlt
        refine ⟨hnan, ?_⟩
        have hd : decide (x.scaled + y.scaled < 0) = false := decide_eq_false hneg
        rw [hd] at hs hfl ⊢
        rw [scaled_nonneg_of_sign _ hs]
        by_cases hxsign : x.signBit = true
        · rw [scaled_of_sign x hxsign]
          omega
        · have hc' : x.signBit = false := by simpa using hxsign
          rw [scaled_nonneg_of_sign x hc'] at hnabs ⊢
          have hnle : x.magnitude ≤ n := by omega
          have := hfl x hx hnle
          omega

/-! ## C14: gravity and the fall-speed cap -/

theorem gt_iff (x y : F32) :
    F32.gt x y = true ↔ x.isNaN = false ∧ y.isNaN = false ∧ y.scaled < x.scaled := by
  unfold F32.gt
  simp only [Bool.and_eq_true, Bool.not_eq_true', Bool.or_eq_false_iff, decide_eq_true_eq]
  tauto

theorem maxVelocity_finite : MAX_VELOCITY_Y.isFinite := by
  unfold F32.isFinite
  decide

theorem physicsSystem_airborne (s : State) (hair : s.squarePhysics.OnGround = false) :
    (physicsSystem s).squarePhysics.VelocityY
        = (if F32.gt (F32.add s.squarePhysics.VelocityY s.squarePhysics.Gravity)
              MAX_VELOCITY_Y = true
            then MAX_VELOCITY_Y
            else F32.add s.squarePhysics.VelocityY s.squarePhysics.Gravity) ∧
      (physicsSystem s).squarePhysics.Gravity = s.squarePhysics.Gravity ∧
      (physicsSystem s).squarePhysics.OnGround = false := by
  unfold physicsSystem
  rw [if_pos hair]
  exact ⟨rfl, rfl, hair⟩

/-- One application of gravity and cap to a finite velocity that is not above
the cap. -/
theorem gravity_step (v g : F32) (hfin : v.isFinite) (hv : v.scaled ≤ MAX_VELOCITY_Y.scaled)
    (hgn : g.isNaN = false) (hg : 0 < g.scaled) :
    (F32.add v g).isNaN = false ∧
      (if F32.gt (F32.add v g) MAX_VELOCITY_Y = true then MAX_VELOCITY_Y
        else F32.add v g).isFinite ∧
      v.scaled ≤ (if F32.gt (F32.add v g) MAX_VELOCITY_Y = true then MAX_VELOCITY_Y
        else F32.add v g).scaled ∧
      (if F32.gt (F32.add v g) MAX_VELOCITY_Y = true then MAX_VELOCITY_Y
        else F32.add v g).scaled ≤ MAX_VELOCITY_Y.scaled ∧
      (if F32.gt (F32.add v g) MAX_VELOCITY_Y = true then MAX_VELOCITY_Y
        else F32.add v g).scaled ≤ (F32.add v g).scaled := by
  obtain ⟨hnan, hmono⟩ := add_monotone v g hfin hgn hg
  have hmaxn : MAX_VELOCITY_Y.isNaN = false := isNaN_of_expField _ maxVelocity_finite
  refine ⟨hnan, ?_⟩
  by_cases hgt : F32.gt (F32.add v g) MAX_VELOCITY_Y = true
  · rw [if_pos hgt]
    have h := ((gt_iff _ _).mp hgt).2.2
    exact ⟨maxVelocity_finite, hv, le_refl _, le_of_lt h⟩
  · rw [if_neg hgt]
    have hle : (F32.add v g).scaled ≤ MAX_VELOCITY_Y.scaled := by
      by_contra hc
      exact hgt ((gt_iff _ _).mpr ⟨hnan, hmaxn, by omega⟩)
    refine ⟨?_, hmono, hle, le_refl _⟩
    unfold F32.isFinite
    intro he
    have hinf : (F32.add v g).isInf = true := by
      unfold F32.isNaN at hnan
      unfold F32.isInf
      rw [he] at hnan ⊢
      simp only [beq_self_eq_true, Bool.true_and, bne_eq_false_iff_eq] at hnan
      rw [hnan]
      rfl
    have hmag := magnitude_inf _ hinf
    have h1 := magnitude_finite_lt v hfin
    have h2 := magnitude_finite_lt _ maxVelocity_finite
    have h3 := scaled_le_magnitude MAX_VELOCITY_Y
    have h4 := neg_magnitude_le_scaled v
    have h5 : ((v.magnitude : Nat) : Int) < ((2 ^ 277 : Nat) : Int) := by exact_mod_cast h1
    have h6 : ((MAX_VELOCITY_Y.magnitude : Nat) : Int) < ((2 ^ 277 : Nat) : Int) := by
      exact_mod_cast h2
    have h7 : (((F32.add v g).magnitude : Nat) : Int) = ((2 ^ 277 : Nat) : Int) := by
      rw [hmag]
    have hsc := scaled_eq (F32.add v g)
    split_ifs at hsc <;> omega

/-- C14: for every state with `OnGround = false`, positive `Gravity` and a
finite `VelocityY` that is not above `MAX_VELOCITY_Y`, two applications of
`physicsSystem` give velocities `v0 <= v1 <= v2` with `v1 <= 15` and `v2 <= 15`,
and each application yields the minimum of `VelocityY + Gravity` (the `float32`
sum) and `MAX_VELOCITY_Y`: the result is one of the two and is at most
both. -/
theorem physicsSystem_twice_monotone (s : State)
    (hair : s.squarePhysics.OnGround = false)
    (hg : F32.gt s.squarePhysics.Gravity F32.zero = true)
    (hfin : s.squarePhysics.VelocityY.isFinite)
    (hv : F32.gt s.squarePhysics.VelocityY MAX_VELOCITY_Y = false) :
    F32.le s.squarePhysics.VelocityY (physicsSystem s).squarePhysics.VelocityY ∧
      F32.le (physicsSystem s).squarePhysics.VelocityY
        (physicsSystem (physicsSystem s)).squarePhysics.VelocityY ∧
      F32.le (physicsSystem s).squarePhysics.VelocityY MAX_VELOCITY_Y ∧
      F32.le (physicsSystem (physicsSystem s)).squarePhysics.VelocityY MAX_VELOCITY_Y ∧
      ((physicsSystem s).squarePhysics.VelocityY
          = F32.add s.squarePhysics.VelocityY s.squarePhysics.Gravity ∨
        (physicsSystem s).squarePhysics.VelocityY = MAX_VELOCITY_Y) ∧
      F32.le (physicsSystem s).squarePhysics.VelocityY
        (F32.add s.squarePhysics.VelocityY s.squarePhysics.Gravity) ∧
      ((physicsSystem (physicsSystem s)).squarePhysics.VelocityY
          = F32.add (physicsSystem s).squarePhysics.VelocityY s.squarePhysics.Gravity ∨
        (physicsSystem (physicsSystem s)).squarePhysics.VelocityY = MAX_VELOCITY_Y) ∧
      F32.le (physicsSystem (physicsSystem s)).squarePhysics.VelocityY
        (F32.add (physicsSystem s).squarePhysics.VelocityY s.squarePhysics.Gravity) := by
  obtain ⟨hv1, hg1, hair1⟩ := physicsSystem_airborne s hair
  obtain ⟨hv2, _, _⟩ := physicsSystem_airborne (physicsSystem s) hair1
  rw [hg1] at hv2
  have hmaxn : MAX_VELOCITY_Y.isNaN = false := isNaN_of_expField _ maxVelocity_finite
  have hv0n : s.squarePhysics.VelocityY.isNaN = false := isNaN_of_expField _ hfin
  obtain ⟨hgn, _, hgpos⟩ := (gt_iff _ _).mp hg
  have hz : F32.zero.scaled = 0 := by decide
  rw [hz] at hgpos
  have hv0le : s.squarePhysics.VelocityY.scaled ≤ MAX_VELOCITY_Y.scaled := by
    by_contra hc
    have := (gt_iff s.squarePhysics.VelocityY MAX_VELOCITY_Y).mpr ⟨hv0n, hmaxn, by omega⟩
    rw [hv] at this
    exact absurd this (by decide)
  obtain ⟨a1, a2, a3, a4, a5⟩ := gravity_step _ _ hfin hv0le hgn hgpos
  rw [← hv1] at a2 a3 a4 a5
  have hv1n : (physicsSystem s).squarePhysics.VelocityY.isNaN = false :=
    isNaN_of_expField _ a2
  obtain ⟨b1, b2, b3, b4, b5⟩ := gravity_step _ _ a2 a4 hgn hgpos
  rw [← hv2] at b2 b3 b4 b5
  have hv2n : (physicsSystem (physicsSystem s)).squarePhysics.VelocityY.isNaN = false :=
    isNaN_of_expField _ b2
  refine ⟨⟨hv0n, hv1n, a3⟩, ⟨hv1n, hv2n, b3⟩, ⟨hv1n, hmaxn, a4⟩, ⟨hv2n, hmaxn, b4⟩,
    ?_, ⟨hv1n, a1, a5⟩, ?_, ⟨hv2n, b1, b5⟩⟩
  · rw [hv1]
    split_ifs
    · exact Or.inr rfl
    · exact Or.inl rfl
  · rw [hv2]
    split_ifs
    · exact Or.inr rfl
    · exact Or.inl rfl

/-! ## C15: friction -/

theorem friction_fields :
    FRICTION.isNaN = false ∧ FRICTION.isInf = false ∧ FRICTION.isZero = false ∧
      FRICTION.signBit = false ∧ FRICTION.mant = 13421773 ∧ FRICTION.expo = -24 := by
  decide

theorem inf_fields (s : Bool) :
    (F32.inf s).signBit = s ∧ (F32.inf s).isNaN = false ∧ (F32.inf s).magnitude = 2 ^ 277 := by
  obtain ⟨hs, he, hf⟩ := pack_fields s 2139095040 (by decide)
  have he' : (F32.inf s).expField = 255 := he
  have hf' : (F32.inf s).fracField = 0 := hf
  refine ⟨hs, ?_, ?_⟩
  · unfold F32.isNaN
    rw [he', hf']
    rfl
  · rw [magnitude_eq, if_neg (by omega), he', hf']
    norm_num

theorem expo_ge (x : F32) : -149 ≤ x.expo := by
  unfold F32.expo
  split_ifs <;> omega

theorem mant_lt (x : F32) : x.mant < 16777216 := by
  have := fracField_lt x
  unfold F32.mant
  split_ifs <;> omega

/-- One multiplication by `FRICTION`: the sign bit stays and the magnitude does
not grow. -/
theorem friction_step (x : F32) (hx : x.isNaN = false) :
    (F32.mul x FRICTION).isNaN = false ∧
      (F32.mul x FRICTION).signBit = x.signBit ∧
      (F32.mul x FRICTION).magnitude ≤ x.magnitude := by
  obtain ⟨f1, f2, f3, f4, f5, f6⟩ := friction_fields
  unfold F32.mul
  rw [hx, f1, f2, f3, f4, f5, f6]
  simp only [Bool.or_self, Bool.false_eq_true, if_false, Bool.or_false, Bool.bne_false]
  by_cases hinf : x.isInf = true
  · rw [if_pos hinf]
    have hz : x.isZero = false := by
      unfold F32.isInf at hinf
      unfold F32.isZero
      simp only [Bool.and_eq_true, beq_iff_eq] at hinf
      rw [hinf.1]
      rfl
    rw [hz]
    simp only [Bool.false_eq_true, if_false]
    obtain ⟨h1, h2, h3⟩ := inf_fields x.signBit
    exact ⟨h2, h1, by rw [h3, magnitude_inf x hinf]⟩
  · rw [if_neg hinf]
    by_cases hm0 : x.mant = 0
    · rw [hm0]
      have hr : F32.roundPack x.signBit (0 * 13421773) (x.expo + -24) = F32.pack x.signBit 0 := by
        unfold F32.roundPack
        rw [if_pos (by norm_num)]
      rw [hr]
      obtain ⟨hs, he, hf⟩ := pack_fields x.signBit 0 (by decide)
      refine ⟨isNaN_of_expField _ (by rw [he]; decide), hs, ?_⟩
      rw [magnitude_eq, he, hf]
      exact Nat.zero_le _
    · have hM := mant_lt x
      have hex := expo_ge x
      have hmpos : 0 < x.mant * 13421773 := by omega
      have hm48 : x.mant * 13421773 < 2 ^ 48 := by
        have : (2 : Nat) ^ 48 = 281474976710656 := by norm_num
        omega
      have hpow : (2 : Nat) ^ 48 ≤ 2 ^ 512 := by norm_num
      have hm512 : x.mant * 13421773 < 2 ^ 512 := lt_of_lt_of_le hm48 hpow
      obtain ⟨hL1, hL2, _⟩ := bitLength_spec _ hmpos hm512
      have hL48 : F32.bitLength (x.mant * 13421773) ≤ 48 := by
        by_contra hc
        have hp : 2 ^ 48 ≤ 2 ^ (F32.bitLength (x.mant * 13421773) - 1) :=
          Nat.pow_le_pow_right (by decide) (by omega)
        omega
      obtain ⟨k, mr, heq, hmr, hnorm, hkq, hcase⟩ :=
        roundPack_round x.signBit (x.mant * 13421773) (x.expo + -24) hmpos hm512
      obtain ⟨hs, hnan, hle, _⟩ := pack_result x.signBit mr k hmr hnorm
      rw [← heq] at hs hnan hle
      refine ⟨hnan, hs, le_trans hle ?_⟩
      unfold F32.magnitude
      generalize hLdef : F32.bitLength (x.mant * 13421773) = L at hL48 hkq
      generalize hXdef : (x.expo + 149).toNat = X
      have hX : (X : Int) = x.expo + 149 := by omega
      have hkX : k ≤ X := by
        rcases le_total (x.expo + -24 + (L : Int) - 24) (-149) with h | h
        · rw [max_eq_right h] at hkq
          omega
        · rw [max_eq_left h] at hkq
          omega
      rcases hcase with ⟨hk, hmr2⟩ | ⟨hk, _, hr⟩
      · have hj : (x.expo + -24 - ((k : Int) - 149)).toNat + k + 24 = X := by omega
        rw [hmr2, ← hj, mul_assoc, ← pow_add, pow_add _ _ 24, mul_assoc]
        apply Nat.mul_le_mul_left
        rw [mul_comm]
        apply Nat.mul_le_mul_left
        norm_num
      · generalize hddef : ((k : Int) - 149 - (x.expo + -24)).toNat = d at hr
        have hd : d + (X - k) = 24 := by omega
        have hpd : 0 < 2 ^ d := Nat.two_pow_pos d
        have hlt : x.mant * 13421773 / 2 ^ d < x.mant * 2 ^ (X - k) := by
          apply (Nat.div_lt_iff_lt_mul hpd).mpr
          rw [mul_assoc, ← pow_add, Nat.add_comm, hd]
          apply Nat.mul_lt_mul_of_pos_left
          · norm_num
          · omega
        have hmrle : mr ≤ x.mant * 2 ^ (X - k) := by
          rcases hr with hr | ⟨hr, _⟩ <;> omega
        have hXk : X = (X - k) + k := by omega
        calc mr * 2 ^ k ≤ x.mant * 2 ^ (X - k) * 2 ^ k := Nat.mul_le_mul_right _ hmrle
          _ = x.mant * 2 ^ X := by
            rw [mul_assoc, ← pow_add, ← hXk]

set_option maxRecDepth 100000 in
theorem physicsSystem_twice_monotone_witness :
    F32.le jumpingState.squarePhysics.VelocityY
        (physicsSystem jumpingState).squarePhysics.VelocityY ∧
      F32.le (physicsSystem jumpingState).squarePhysics.VelocityY
        (physicsSystem (physicsSystem jumpingState)).squarePhysics.VelocityY ∧
      jumpingState.squarePhysics.VelocityY = ⟨0xC1000000⟩ ∧
      (physicsSystem jumpingState).squarePhysics.VelocityY = ⟨0xC0F00000⟩ ∧
      (physicsSystem (physicsSystem jumpingState)).squarePhysics.VelocityY = ⟨0xC0E00000⟩ :=
  ⟨(physicsSystem_twice_monotone jumpingState (by decide) (by decide)
      (by unfold F32.isFinite; decide) (by decide)).1,
    (physicsSystem_twice_monotone jumpingState (by decide) (by decide)
      (by unfold F32.isFinite; decide) (by decide)).2.1,
    by decide, by decide, by decide⟩

theorem inputSystem_friction (w4 : W4) (g : Nat) (s : State)
    (hl : g &&& w4.BUTTON_LEFT = 0) (hr : g &&& w4.BUTTON_RIGHT = 0) :
    (inputSystem w4 g s).squarePhysics.VelocityX
        = F32.mul s.squarePhysics.VelocityX s.squarePhysics.Friction ∧
      (inputSystem w4 g s).squarePhysics.Friction = s.squarePhysics.Friction := by
  unfold inputSystem
  dsimp only
  have hl' : ¬ (g &&& w4.BUTTON_LEFT ≠ 0) := fun h => h hl
  have hr' : ¬ (g &&& w4.BUTTON_RIGHT ≠ 0) := fun h => h hr
  simp only [if_neg hl', if_neg hr']
  split_ifs <;> exact ⟨rfl, rfl⟩

/-- Any number of `inputSystem` calls without left or right: the friction
factor stays, `VelocityX` is the start value multiplied that many times by
`FRICTION`, its sign bit is the one it started with and its magnitude is not
larger. -/
theorem inputCalls_friction (w4 : W4) (gs : List Nat) :
    ∀ s : State, s.squarePhysics.Friction = FRICTION →
      s.squarePhysics.VelocityX.isNaN = false →
      (∀ g ∈ gs, g &&& w4.BUTTON_LEFT = 0 ∧ g &&& w4.BUTTON_RIGHT = 0) →
      (inputCalls w4 gs s).squarePhysics.Friction = FRICTION ∧
        (inputCalls w4 gs s).squarePhysics.VelocityX
          = (fun v => F32.mul v FRICTION)^[gs.length] s.squarePhysics.VelocityX ∧
        (inputCalls w4 gs s).squarePhysics.VelocityX.isNaN = false ∧
        (inputCalls w4 gs s).squarePhysics.VelocityX.signBit
          = s.squarePhysics.VelocityX.signBit ∧
        (inputCalls w4 gs s).squarePhysics.VelocityX.magnitude
          ≤ s.squarePhysics.VelocityX.magnitude := by
  induction gs with
  | nil =>
    intro s hF hx _
    exact ⟨hF, rfl, hx, rfl, le_refl _⟩
  | cons g rest ih =>
    intro s hF hx hgs
    obtain ⟨hl, hr⟩ := hgs g (List.mem_cons_self g rest)
    obtain ⟨hv, hfr⟩ := inputSystem_friction w4 g s hl hr
    rw [hF] at hv hfr
    obtain ⟨s1, s2, s3⟩ := friction_step s.squarePhysics.VelocityX hx
    rw [← hv] at s1 s2 s3
    obtain ⟨i1, i2, i3, i4, i5⟩ := ih (inputSystem w4 g s) hfr s1
      (fun g' hg' => hgs g' (List.mem_cons_of_mem g hg'))
    have hrun : inputCalls w4 (g :: rest) s = inputCalls w4 rest (inputSystem w4 g s) := rfl
    rw [hrun]
    refine ⟨i1, ?_, i3, by rw [i4, s2], le_trans i5 s3⟩
    rw [i2, hv, List.length_cons, Function.iterate_succ_apply]

/-- C15: with neither left nor right pressed, every `inputSystem` call
multiplies `VelocityX` by `Friction = 0.8`; after any number of such calls
`VelocityX` has the sign bit it started with, and its magnitude is no greater
than at the start and no greater than after any smaller number of the calls. -/
theorem friction_never_reverses (w4 : W4) (gs : List Nat) (s : State)
    (hF : s.squarePhysics.Friction = FRICTION)
    (hx : s.squarePhysics.VelocityX.isNaN = false)
    (hgs : ∀ g ∈ gs, g &&& w4.BUTTON_LEFT = 0 ∧ g &&& w4.BUTTON_RIGHT = 0) :
    (inputCalls w4 gs s).squarePhysics.VelocityX
        = (fun v => F32.mul v FRICTION)^[gs.length] s.squarePhysics.VelocityX ∧
      (inputCalls w4 gs s).squarePhysics.VelocityX.isNaN = false ∧
      (inputCalls w4 gs s).squarePhysics.VelocityX.signBit
        = s.squarePhysics.VelocityX.signBit ∧
      (inputCalls w4 gs s).squarePhysics.VelocityX.magnitude
        ≤ s.squarePhysics.VelocityX.magnitude ∧
      ∀ pre post : List Nat, gs = pre ++ post →
        (inputCalls w4 gs s).squarePhysics.VelocityX.magnitude
          ≤ (inputCalls w4 pre s).squarePhysics.VelocityX.magnitude := by
  obtain ⟨_, h2, h3, h4, h5⟩ := inputCalls_friction w4 gs s hF hx hgs
  refine ⟨h2, h3, h4, h5, ?_⟩
  intro pre post hsplit
  have hpre : ∀ g ∈ pre, g &&& w4.BUTTON_LEFT = 0 ∧ g &&& w4.BUTTON_RIGHT = 0 := by
    intro g hg
    exact hgs g (by rw [hsplit]; exact List.mem_append_left post hg)
  have hpost : ∀ g ∈ post, g &&& w4.BUTTON_LEFT = 0 ∧ g &&& w4.BUTTON_RIGHT = 0 := by
    intro g hg
    exact hgs g (by rw [hsplit]; exact List.mem_append_right pre hg)
  obtain ⟨p1, _, p3, _, _⟩ := inputCalls_friction w4 pre s hF hx hpre
  obtain ⟨_, _, _, _, q5⟩ := inputCalls_friction w4 post (inputCalls w4 pre s) p1 p3 hpost
  have hrun : inputCalls w4 gs s = inputCalls w4 post (inputCalls w4 pre s) := by
    rw [hsplit]
    unfold inputCalls
    rw [List.foldl_append]
  rw [hrun]
  exact q5

set_option maxRecDepth 100000 in
theorem friction_never_reverses_witness :
    runningState.squarePhysics.VelocityX = ⟨0x40000000⟩ ∧
      (inputCalls wasm4 [0, 64, 0] runningState).squarePhysics.VelocityX.signBit
        = runningState.squarePhysics.VelocityX.signBit ∧
      (inputCalls wasm4 [0, 64, 0] runningState).squarePhysics.VelocityX.magnitude
        ≤ runningState.squarePhysics.VelocityX.magnitude :=
  ⟨by decide,
    (friction_never_reverses wasm4 [0, 64, 0] runningState (by decide) (by decide)
      (by decide)).2.2.1,
    (friction_never_reverses wasm4 [0, 64, 0] runningState (by decide) (by decide)
      (by decide)).2.2.2.1⟩

end MiniGame
